import Mathlib

/-! ONSET-CHAT backend: message dispatch and moderation.

A shallow embedding of the message controller
(`src/backend/src/controllers/messageController.js`), the block-list operation of the
user controller (`src/backend/src/controllers/userController.js`), the membership and role
operations of the group controller (`src/backend/src/controllers/groupController.js`), the
request middleware
(`src/backend/src/middlewares/authMiddleware.js`), the message and group schemas
(`src/backend/src/models/`) and the socket middleware and handlers
(`src/backend/src/sockets/index.js`), with the sockets of the process as a state machine.

Modelling conventions.

* An `ObjectId` is a number of 12 bytes; `hexString` is its `toString()`, the 24 lower-case
  hexadecimal digits, and `castObjectId` is the cast of the store, which accepts 24
  hexadecimal digits of either case (the 12-character form that some driver versions also
  accept is left out).
* Text fields of a payload are `Option String`; `none` and `some ""` are the falsy values.
* A payload field that names an id and that a handler compares, concatenates or uses as
  the name of a room (`recipient`, `group`, the `userId` of the block-list, history and
  group-role handlers, the `members` of a new group) is the string of the payload, as the
  client spells it.  A payload field that a handler only hands to the store (`messageId`,
  `parentMessage`, the ids of forwarding, the `userId` of `addMember` and `removeMember`) is
  given as the ObjectId it casts to, `none` when it is missing; for those fields strings
  that do not cast are outside the model.
* The message schema declares `content` as `required` with `trim: true`: the store trims
  the content it is given and throws on an empty result.  A request handler answers a
  throw with 500 (its `catch`).  The socket handlers are `async` functions without a
  `catch`: a throw in them is an unhandled rejection, which ends the Node process (the
  default of Node 15 and later; nothing in `server.js` handles it).
* A handler is a function from the state before the call to the state after it, run to
  completion (the handlers are `async`, interleaving is not modelled).
* `Date.now()` and the id generated by `Message.create` are inputs of the handler
  (`now`, `newId`); the profanity classifier of the `bad-words` package is the parameter
  `isProfane`.
* Timestamps and the profile fields of a user that no handler below reads are left out.
-/

namespace OnsetChat

/-! ## Values -/

/-- Identifier of a stored user, group or message: a number of 12 bytes. -/
abbrev ObjectId := Fin (16 ^ 24)

/-- The lower-case hexadecimal digit of a value below 16. -/
def hexChar (d : Nat) : Char :=
  if d < 10 then Char.ofNat (48 + d) else Char.ofNat (87 + d)

/-- The `w` lower-case hexadecimal digits of `n`, the most significant first. -/
def hexDigits : Nat → Nat → List Char
  | 0, _ => []
  | w + 1, n => hexDigits w (n / 16) ++ [hexChar (n % 16)]

/-- `id.toString()`: the 24 lower-case hexadecimal digits of the id. -/
def hexString (id : ObjectId) : String := ⟨hexDigits 24 id.val⟩

/-- Value of a hexadecimal digit of either case. -/
def hexValue (c : Char) : Option Nat :=
  let n := c.toNat
  if 48 ≤ n ∧ n ≤ 57 then some (n - 48)
  else if 97 ≤ n ∧ n ≤ 102 then some (n - 87)
  else if 65 ≤ n ∧ n ≤ 70 then some (n - 55)
  else none

/-- The number that hexadecimal digits write, after the value `acc` of the digits before
them; `none` when a character is no hexadecimal digit. -/
def hexNumber : List Char → Nat → Option Nat
  | [], acc => some acc
  | c :: cs, acc =>
    match hexValue c with
    | none => none
    | some d => hexNumber cs (16 * acc + d)

/-- The cast of a string to an ObjectId, as the store does it for a path or a query of type
ObjectId: a string of 24 hexadecimal digits of either case; on any other string the cast
throws (`none`). -/
def castObjectId (s : String) : Option ObjectId :=
  if s.data.length = 24 then
    match hexNumber s.data 0 with
    | some n => if h : n < 16 ^ 24 then some ⟨n, h⟩ else none
    | none => none
  else none

/-- The cast of an optional field of type ObjectId: a missing field stays missing, a string
is cast; the outer `none` is a cast that throws. -/
def castField : Option String → Option (Option ObjectId)
  | none => some none
  | some s => (castObjectId s).map some

/-- JavaScript truthiness of a string field. -/
def truthy : Option String → Bool
  | some s => s ≠ ""
  | none => false

/-- Code points that `String.prototype.trim` strips: ECMAScript WhiteSpace and
LineTerminator. -/
def isTrimChar (c : Char) : Bool :=
  let n := c.toNat
  n == 9 || n == 10 || n == 11 || n == 12 || n == 13 || n == 32 || n == 160 || n == 5760 ||
  (decide (8192 ≤ n) && decide (n ≤ 8202)) || n == 8232 || n == 8233 || n == 8239 ||
  n == 8287 || n == 12288 || n == 65279

/-- Strip the leading and the trailing run of trim characters. -/
def trimChars (cs : List Char) : List Char :=
  ((cs.dropWhile isTrimChar).reverse.dropWhile isTrimChar).reverse

/-- JavaScript `s.trim()`. -/
def jsTrim (s : String) : String := ⟨trimChars s.data⟩

/-- JavaScript `a || b` on two string fields of which the code has tested that one is
truthy: the first truthy one; `none` when both are falsy. -/
def orStr (a b : Option String) : Option String :=
  if truthy a then a else if truthy b then b else none

/-- JavaScript `a || b` on optional ids. -/
def orJs : Option ObjectId → Option ObjectId → Option ObjectId
  | some a, _ => some a
  | none, b => b

/-! ## A JavaScript `Map` as an association list -/

/-- `m.get(k)`; `none` when `m.has(k)` is false. -/
def mapGet {κ ν : Type} [DecidableEq κ] : List (κ × ν) → κ → Option ν
  | [], _ => none
  | (k', v) :: rest, k => if k' = k then some v else mapGet rest k

/-- `m.set(k, v)`: overwrite the entry of `k`, or add one. -/
def mapSet {κ ν : Type} [DecidableEq κ] : List (κ × ν) → κ → ν → List (κ × ν)
  | [], k, v => [(k, v)]
  | (k', v') :: rest, k, v =>
    if k' = k then (k, v) :: rest else (k', v') :: mapSet rest k v

/-! ## Data model -/

/-- User document (`models/User.js`): the fields the handlers below read or write. -/
structure User where
  _id : ObjectId
  online : Bool
  blocked : List ObjectId
  isAdmin : Bool
  webhooks : List String
deriving DecidableEq, Repr

/-- Message document (`models/Message.js`). -/
structure Message where
  _id : ObjectId
  sender : ObjectId
  recipient : Option ObjectId
  group : Option ObjectId
  content : String
  attachment : String
  read : Bool
  edited : Bool
  deleted : Bool
  reactions : List (String × List ObjectId)
  parentMessage : Option ObjectId
deriving DecidableEq, Repr

/-- Value of the spam tracker: `{ lastContent, lastTime }`. -/
structure SpamEntry where
  lastContent : String
  lastTime : Int
deriving DecidableEq, Repr

/-- Key of the spam tracker: a string. -/
abbrev SpamKey := String

/-- The template string of line 35: the id of the requester, a colon, and the target as the
body spells it. -/
def spamKey (user : ObjectId) (target : String) : SpamKey :=
  hexString user ++ ":" ++ target

/-- The store (users, messages) and the process-wide `lastMessages` map. -/
structure State where
  users : List User
  messages : List Message
  lastMessages : List (SpamKey × SpamEntry)
deriving DecidableEq, Repr

/-- `User.findById`. -/
def User.findById (users : List User) (id : ObjectId) : Option User :=
  users.find? (fun u => u._id == id)

/-- `Message.findById`. -/
def Message.findById (msgs : List Message) (id : ObjectId) : Option Message :=
  msgs.find? (fun m => m._id == id)

/-- Write a document back: the stored document with the same `_id` is replaced. -/
def replaceMessage (m : Message) : List Message → List Message
  | [] => []
  | x :: rest => if x._id = m._id then m :: rest else x :: replaceMessage m rest

/-- Write a user document back. -/
def replaceUser (u : User) : List User → List User
  | [] => []
  | x :: rest => if x._id = u._id then u :: rest else x :: replaceUser u rest

/-- `Message.create` under `messageSchema`: `content` is `trim`med and `required` (an empty
string fails validation, the call throws: `none`), `attachment` defaults to `''`, `read`,
`edited` and `deleted` to `false`, `reactions` to the empty map. -/
def Message.create (newId sender : ObjectId) (recipient group : Option ObjectId)
    (content : String) (attachment : Option String) (parentMessage : Option ObjectId) :
    Option Message :=
  if jsTrim content = "" then none
  else some
    { _id := newId, sender := sender, recipient := recipient, group := group,
      content := jsTrim content, attachment := attachment.getD "",
      read := false, edited := false, deleted := false, reactions := [],
      parentMessage := parentMessage }

/-! ## Request path -/

/-- Body of a JSON response. -/
inductive Body where
  | error (message : String)
  | serverError
  | message (m : Message)
  | blocked (ids : List ObjectId)
  | messages (ms : List Message)
  | reactions (map : List (String × List ObjectId))
deriving DecidableEq, Repr

/-- Response: `res.status(s).json(body)`. -/
structure Response where
  status : Nat
  body : Body
deriving DecidableEq, Repr

/-- Outcome of a request handler: the response, the state after the call and the webhook
POSTs it started (url, message). -/
structure HttpResult where
  res : Response
  state : State
  posts : List (String × Message)
deriving DecidableEq, Repr

/-- Body of `POST /messages`. -/
structure SendBody where
  recipient : Option String
  group : Option String
  content : Option String
  attachment : Option String
  parentMessage : Option ObjectId
deriving DecidableEq, Repr

/-- Lines 22-29 of `sendMessage`: the recipient lookup and the block-list check.  `none`
means the request goes on.  `User.findById(recipient)` casts the string of the body and
throws when it does not cast; a missing sender record makes `sender.blocked` throw; the
handler answers a throw with 500.  `sender.blocked.includes(recipient)` is given the string
of the body, which the array compares with the `toString()` of its ids;
`target.blocked.includes(req.user._id)` is given an ObjectId. -/
def blockGate (st : State) (user : ObjectId) : Option String → Option Response
  | none => none
  | some recipient =>
    if recipient = "" then none
    else
      match castObjectId recipient with
      | none => some ⟨500, .serverError⟩
      | some id =>
        match User.findById st.users id with
        | none => some ⟨404, .error "Recipient not found."⟩
        | some target =>
          match User.findById st.users user with
          | none => some ⟨500, .serverError⟩
          | some sender =>
            if (sender.blocked.map hexString).contains recipient ||
                target.blocked.contains user then
              some ⟨403, .error "You cannot message this user."⟩
            else none

/-- Lines 37-42 of `sendMessage`: is the send a repeat of the recorded last one? -/
def isRepeat (lastMessages : List (SpamKey × SpamEntry)) (key : SpamKey) (content : String)
    (now : Int) : Bool :=
  match mapGet lastMessages key with
  | some e => e.lastContent == content && decide (now - e.lastTime < 10000)
  | none => false

/-- Lines 53-68 of `sendMessage`: one POST per webhook of every admin. -/
def webhookPosts (users : List User) (message : Message) : List (String × Message) :=
  ((users.filter (fun u => u.isAdmin)).flatMap (fun a => a.webhooks)).map (fun url => (url, message))

/-- `Message.create` from the strings of a payload: `recipient` and `group` are cast, and
the call throws (`none`) when one of them does not cast or the content fails validation. -/
def createFromPayload (newId sender : ObjectId) (recipient group : Option String)
    (content : String) (attachment : Option String) (parentMessage : Option ObjectId) :
    Option Message :=
  match castField recipient, castField group with
  | some r, some g => Message.create newId sender r g content attachment parentMessage
  | _, _ => none

/-- `exports.sendMessage` of the message controller. -/
def sendMessage (isProfane : String → Bool) (now : Int) (newId : ObjectId) (st : State)
    (user : ObjectId) (body : SendBody) : HttpResult :=
  match body.content, orStr body.recipient body.group with
  | some content, some target =>
    if content = "" then
      ⟨⟨400, .error "Content and recipient or group required."⟩, st, []⟩
    else
      match blockGate st user body.recipient with
      | some res => ⟨res, st, []⟩
      | none =>
        if isProfane content then
          ⟨⟨400, .error "Message contains inappropriate language."⟩, st, []⟩
        else if isRepeat st.lastMessages (spamKey user target) content now then
          ⟨⟨429, .error "Please do not send repeated messages."⟩, st, []⟩
        else
          let st1 : State :=
            { st with
              lastMessages := mapSet st.lastMessages (spamKey user target) ⟨content, now⟩ }
          match createFromPayload newId user body.recipient body.group content body.attachment
              body.parentMessage with
          | none => ⟨⟨500, .serverError⟩, st1, []⟩
          | some message =>
            let st2 : State := { st1 with messages := st1.messages ++ [message] }
            ⟨⟨201, .message message⟩, st2, webhookPosts st2.users message⟩
  | _, _ => ⟨⟨400, .error "Content and recipient or group required."⟩, st, []⟩

/-- Body of `PATCH /messages/edit`. -/
structure EditBody where
  messageId : Option ObjectId
  content : Option String
deriving DecidableEq, Repr

/-- `exports.editMessage` of the message controller.  Assigning `content` runs the schema
setter (`trim`); `message.save()` rejects an empty content (`required`), which the handler
answers with 500. -/
def editMessage (st : State) (user : ObjectId) (body : EditBody) : HttpResult :=
  match body.messageId, body.content with
  | some messageId, some content =>
    if content = "" then
      ⟨⟨400, .error "Message ID and new content are required."⟩, st, []⟩
    else
      match Message.findById st.messages messageId with
      | none => ⟨⟨404, .error "Message not found."⟩, st, []⟩
      | some message =>
        if message.sender ≠ user then ⟨⟨403, .error "Not authorized."⟩, st, []⟩
        else if message.deleted then
          ⟨⟨400, .error "Cannot edit a deleted message."⟩, st, []⟩
        else
          let message1 : Message := { message with content := jsTrim content, edited := true }
          if message1.content = "" then ⟨⟨500, .serverError⟩, st, []⟩
          else
            ⟨⟨200, .message message1⟩,
              { st with messages := replaceMessage message1 st.messages }, []⟩
  | _, _ => ⟨⟨400, .error "Message ID and new content are required."⟩, st, []⟩

/-- `exports.deleteMessage` of the message controller (soft delete).  The stored document
satisfies the schema and only `deleted` is assigned, so `message.save()` succeeds. -/
def deleteMessage (st : State) (user : ObjectId) (messageId : Option ObjectId) : HttpResult :=
  match messageId with
  | none => ⟨⟨400, .error "Message ID is required."⟩, st, []⟩
  | some messageId =>
    match Message.findById st.messages messageId with
    | none => ⟨⟨404, .error "Message not found."⟩, st, []⟩
    | some message =>
      if message.sender ≠ user then ⟨⟨403, .error "Not authorized."⟩, st, []⟩
      else
        let message1 : Message := { message with deleted := true }
        ⟨⟨200, .message message1⟩,
          { st with messages := replaceMessage message1 st.messages }, []⟩

/-- `exports.blockUser` of the user controller; `userId` is the string of the body.  It is
compared as a string with `req.user.id` and with the `toString()` of the ids of the
block-list; `blocked.push(userId)` casts it and throws when it does not cast. -/
def blockUser (st : State) (user : ObjectId) (userId : Option String) : HttpResult :=
  match userId with
  | none => ⟨⟨400, .error "Invalid user ID."⟩, st, []⟩
  | some userId =>
    if userId = "" ∨ userId = hexString user then ⟨⟨400, .error "Invalid user ID."⟩, st, []⟩
    else
      match User.findById st.users user with
      | none => ⟨⟨404, .error "User not found."⟩, st, []⟩
      | some u =>
        if (u.blocked.map hexString).contains userId then
          ⟨⟨200, .blocked u.blocked⟩, { st with users := replaceUser u st.users }, []⟩
        else
          match castObjectId userId with
          | none => ⟨⟨500, .serverError⟩, st, []⟩
          | some id =>
            ⟨⟨200, .blocked (u.blocked ++ [id])⟩,
              { st with users := replaceUser { u with blocked := u.blocked ++ [id] } st.users },
              []⟩

/-! ## Connection path -/

/-- Payload of an emitted event: a message document, `{ messageId }`, `{ from }`,
`{ messageId, by }`, `{ from, signalData }` or `{ userId }`. -/
inductive EmitPayload where
  | message (m : Message)
  | messageId (id : ObjectId)
  | fromUser (user : ObjectId)
  | read (messageId : Option ObjectId) (byUser : ObjectId)
  | signal (fromUser : ObjectId) (signalData : Option String)
  | presence (userId : ObjectId)
deriving DecidableEq, Repr

/-- What a socket handler does, in the order it does it: a write to the message
collection, or `io.to(room).emit(event, payload)`. -/
inductive Effect where
  | persist (m : Message)
  | emit (room : String) (event : String) (payload : EmitPayload)
deriving DecidableEq, Repr

/-- How a socket handler ended: it returned at a guard, an awaited call threw, or it ran to
its last statement.  Nothing catches the throw: the handler is an `async` function, the
rejection is unhandled and the process ends (see `exits` and `run`). -/
inductive Outcome where
  | ignored
  | threw
  | completed
deriving DecidableEq, Repr

/-- Outcome of a socket handler: the state after it, its effects in order, how it ended. -/
structure SocketResult where
  state : State
  effects : List Effect
  outcome : Outcome
deriving DecidableEq, Repr

/-- The emits among the effects, in order. -/
def emitted : List Effect → List (String × String × EmitPayload)
  | [] => []
  | .persist _ :: rest => emitted rest
  | .emit room event payload :: rest => (room, event, payload) :: emitted rest

/-- The documents written among the effects, in order. -/
def persisted : List Effect → List Message
  | [] => []
  | .persist m :: rest => m :: persisted rest
  | .emit _ _ _ :: rest => persisted rest

/-- The closing `if (recipient) io.to(recipient)... else if (group) io.to(group)...` of a
socket handler: the room is the string of the payload. -/
def emitTo (recipient group : Option String) (event : String) (payload : EmitPayload) :
    List Effect :=
  match orStr recipient group with
  | some room => [.emit room event payload]
  | none => []

/-- Payload of `message:send`. -/
structure SendData where
  recipient : Option String
  group : Option String
  content : Option String
  attachment : Option String
deriving DecidableEq, Repr

/-- Handler of `message:send` on a connection authenticated as `socketUser`.  When
`Message.create` throws (a `recipient` or `group` that does not cast, a content that is
empty after trimming), nothing is stored or emitted and the handler ends with `threw`. -/
def onMessageSend (newId : ObjectId) (st : State) (socketUser : ObjectId) (data : SendData) :
    SocketResult :=
  match data.content, orStr data.recipient data.group with
  | some content, some _ =>
    if content = "" then ⟨st, [], .ignored⟩
    else
      match createFromPayload newId socketUser data.recipient data.group content
          data.attachment none with
      | none => ⟨st, [], .threw⟩
      | some message =>
        ⟨{ st with messages := st.messages ++ [message] },
          .persist message :: emitTo data.recipient data.group "message:receive" (.message message),
          .completed⟩
  | _, _ => ⟨st, [], .ignored⟩

/-- Payload of `message:edit`. -/
structure EditData where
  messageId : Option ObjectId
  content : Option String
  recipient : Option String
  group : Option String
deriving DecidableEq, Repr

/-- Handler of `message:edit`.  When `message.save()` throws (a content that is empty after
trimming), nothing is written or emitted and the handler ends with `threw`. -/
def onMessageEdit (st : State) (socketUser : ObjectId) (data : EditData) : SocketResult :=
  match data.messageId, data.content with
  | some messageId, some content =>
    if content = "" then ⟨st, [], .ignored⟩
    else
      match Message.findById st.messages messageId with
      | none => ⟨st, [], .ignored⟩
      | some message =>
        if message.sender ≠ socketUser || message.deleted then ⟨st, [], .ignored⟩
        else
          let message1 : Message := { message with content := jsTrim content, edited := true }
          if message1.content = "" then ⟨st, [], .threw⟩
          else
            ⟨{ st with messages := replaceMessage message1 st.messages },
              .persist message1 :: emitTo data.recipient data.group "message:edit" (.message message1),
              .completed⟩
  | _, _ => ⟨st, [], .ignored⟩

/-- Payload of `message:delete`. -/
structure DeleteData where
  messageId : Option ObjectId
  recipient : Option String
  group : Option String
deriving DecidableEq, Repr

/-- Handler of `message:delete`. -/
def onMessageDelete (st : State) (socketUser : ObjectId) (data : DeleteData) : SocketResult :=
  match data.messageId with
  | none => ⟨st, [], .ignored⟩
  | some messageId =>
    match Message.findById st.messages messageId with
    | none => ⟨st, [], .ignored⟩
    | some message =>
      if message.sender ≠ socketUser then ⟨st, [], .ignored⟩
      else
        let message1 : Message := { message with deleted := true }
        ⟨{ st with messages := replaceMessage message1 st.messages },
          .persist message1 :: emitTo data.recipient data.group "message:delete" (.messageId messageId),
          .completed⟩

/-! ## Sequences of edit requests -/

/-- An edit request on either path, with the user it is authenticated as. -/
inductive EditOp where
  | http (user : ObjectId) (body : EditBody)
  | socket (user : ObjectId) (data : EditData)
deriving DecidableEq, Repr

/-- The state after one edit request. -/
def applyEdit (st : State) : EditOp → State
  | .http user body => (editMessage st user body).state
  | .socket user data => (onMessageEdit st user data).state

/-- The state after a sequence of edit requests. -/
def applyEdits (st : State) (ops : List EditOp) : State :=
  ops.foldl applyEdit st

/-! ## Relayed events -/

/-- Payload of `typing`, `message:read` and the `call:` events, as a JSON object: the fields
that some handler reads (`signalData` as JSON text), and the fields no handler reads. -/
structure RelayData where
  recipient : Option String
  group : Option String
  messageId : Option ObjectId
  signalData : Option String
  extra : List (String × String)
deriving DecidableEq, Repr

/-- `io.to(recipient).emit(event, payload)` as the `call:` handlers write it, without a test
of the recipient.  With a missing recipient `io.to(undefined)` names a room that no session
can join; that emit reaches nobody and is not recorded as an effect. -/
def emitToRecipient (recipient : Option String) (event : String) (payload : EmitPayload) :
    List Effect :=
  match recipient with
  | some r => [.emit r event payload]
  | none => []

/-- Handler of `typing`. -/
def onTyping (st : State) (socketUser : ObjectId) (data : RelayData) : SocketResult :=
  ⟨st, emitTo data.recipient data.group "typing" (.fromUser socketUser), .completed⟩

/-- Handler of `message:read`. -/
def onMessageRead (st : State) (socketUser : ObjectId) (data : RelayData) : SocketResult :=
  ⟨st, emitTo data.recipient data.group "message:read" (.read data.messageId socketUser),
    .completed⟩

/-- Handler of `call:initiate`. -/
def onCallInitiate (st : State) (socketUser : ObjectId) (data : RelayData) : SocketResult :=
  ⟨st, emitToRecipient data.recipient "call:incoming" (.signal socketUser data.signalData),
    .completed⟩

/-- Handler of `call:signal`. -/
def onCallSignal (st : State) (socketUser : ObjectId) (data : RelayData) : SocketResult :=
  ⟨st, emitToRecipient data.recipient "call:signal" (.signal socketUser data.signalData),
    .completed⟩

/-- Handler of `call:end`. -/
def onCallEnd (st : State) (socketUser : ObjectId) (data : RelayData) : SocketResult :=
  ⟨st, emitToRecipient data.recipient "call:end" (.fromUser socketUser), .completed⟩

/-! ## Identity and token verifier

`jwt.verify(token, secret)` is the parameter `jwtVerify`: `none` when the call throws
(malformed, wrong signature, expired), `some id` with the `id` of the decoded payload
otherwise (`signToken` of the auth controller signs `{ id: user._id, ... }`). -/

/-- `User.findByIdAndUpdate(id, { online })`. -/
def setOnline (users : List User) (id : ObjectId) (online : Bool) : List User :=
  match User.findById users id with
  | none => users
  | some u => replaceUser { u with online := online } users

/-- Outcome of the connection middleware: the state after it, `socket.user`, and the error
given to `next`, if any. -/
structure Handshake where
  state : State
  user : Option User
  error : Option String
deriving DecidableEq, Repr

/-- The middleware `io.use` of `sockets/index.js` (lines 6-18), on the token of
`socket.handshake.auth`. -/
def ioUse (jwtVerify : String → Option ObjectId) (st : State) (token : Option String) :
    Handshake :=
  match token with
  | none => ⟨st, none, some "Authentication error"⟩
  | some token =>
    if token = "" then ⟨st, none, some "Authentication error"⟩
    else
      match jwtVerify token with
      | none => ⟨st, none, some "Authentication error"⟩
      | some id =>
        match User.findById st.users id with
        | none => ⟨st, none, some "Authentication error"⟩
        | some user =>
          ⟨{ st with users := setOnline st.users user._id true }, some user, none⟩

/-- JavaScript `s.split(' ')` on the characters of `s`. -/
def splitSpace : List Char → List (List Char)
  | [] => [[]]
  | c :: cs =>
    if c = ' ' then [] :: splitSpace cs
    else
      match splitSpace cs with
      | [] => [[c]]
      | w :: ws => (c :: w) :: ws

/-- The headers and cookies that `authMiddleware` reads. -/
structure AuthRequest where
  authorization : Option String
  cookieToken : Option String
deriving DecidableEq, Repr

/-- Lines 6-14 of `authMiddleware`: the token of the request. -/
def requestToken (req : AuthRequest) : Option String :=
  match req.authorization with
  | some a =>
    if a ≠ "" ∧ "Bearer".data.isPrefixOf a.data then
      ((splitSpace a.data)[1]?).map String.mk
    else req.cookieToken
  | none => req.cookieToken

/-- How the request middleware ends: it puts the user into `req.user` and calls `next()`,
or it answers the request. -/
inductive AuthOutcome where
  | next (user : User)
  | respond (res : Response)
deriving DecidableEq, Repr

/-- The request middleware `authMiddleware`. -/
def authMiddleware (jwtVerify : String → Option ObjectId) (st : State) (req : AuthRequest) :
    AuthOutcome :=
  match requestToken req with
  | none => .respond ⟨401, .error "Not authorized, token missing."⟩
  | some token =>
    if token = "" then .respond ⟨401, .error "Not authorized, token missing."⟩
    else
      match jwtVerify token with
      | none => .respond ⟨401, .error "Not authorized, token invalid."⟩
      | some id =>
        match User.findById st.users id with
        | none => .respond ⟨401, .error "Not authorized, user not found."⟩
        | some user => .next user

/-! ## Connections

A connection is a socket of the server.  The handlers of `sockets/index.js` are registered
on a socket inside the `connection` callback, which socket.io runs after the middleware
called `next()` without an error; a socket whose middleware has not finished, or was
refused, has no handler.  On disconnect socket.io takes the socket out of every room before
the `disconnect` handler runs.  A room is named by a string; the room that socket.io names
by the id of the socket itself (20 characters, known to that client only) is left out. -/

/-- Group document (`models/Group.js`); `roles` is a map from strings, which the handlers
read under the `toString()` of a user id, to `'admin'` or `'member'`. -/
structure Group where
  _id : ObjectId
  name : String
  members : List ObjectId
  admins : List ObjectId
  avatar : String
  pinnedMessages : List ObjectId
  description : String
  mute : List ObjectId
  joinRequests : List ObjectId
  invites : List ObjectId
  announcementChannel : List ObjectId
  roles : List (String × String)
deriving DecidableEq, Repr

/-- Identifier of a socket. -/
abbrev SocketId := Nat

/-- Where a connection stands: the middleware has not finished, it refused the connection
with an error, the connection is established, or it is closed. -/
inductive Phase where
  | handshake
  | refused (error : String)
  | active
  | closed
deriving DecidableEq, Repr

/-- A socket: its id, its phase, `socket.user`, and the rooms it has joined. -/
structure Conn where
  sid : SocketId
  phase : Phase
  user : Option User
  rooms : List String
deriving DecidableEq, Repr

/-- The process: the store with the spam tracker, the group collection, the sockets. -/
structure Server where
  store : State
  groups : List Group
  conns : List Conn
deriving DecidableEq, Repr

/-- An event as the server sends it: `io.to(room).emit(event, payload)`, or
`socket.broadcast.emit(event, payload)` from the socket `sid`. -/
inductive Sent where
  | toRoom (room : String) (event : String) (payload : EmitPayload)
  | toOthers (sid : SocketId) (event : String) (payload : EmitPayload)
deriving DecidableEq, Repr

/-- Is the connection established? -/
def Conn.isActive (c : Conn) : Bool :=
  c.phase == .active

/-- The sockets that receive a sent event: the established ones in the room, resp. all
established ones but the sender. -/
def receivers (conns : List Conn) : Sent → List SocketId
  | .toRoom room _ _ =>
    (conns.filter (fun c => c.isActive && c.rooms.contains room)).map (fun c => c.sid)
  | .toOthers sid _ _ =>
    (conns.filter (fun c => c.isActive && c.sid != sid)).map (fun c => c.sid)

/-- The socket with the given id. -/
def findConn (conns : List Conn) (sid : SocketId) : Option Conn :=
  conns.find? (fun c => c.sid == sid)

/-- Put a new value in the place of the socket with the same id. -/
def replaceConn (c : Conn) : List Conn → List Conn
  | [] => []
  | x :: rest => if x.sid = c.sid then c :: rest else x :: replaceConn c rest

/-- The emits of a handler as sent events. -/
def sentOf (effects : List Effect) : List Sent :=
  (emitted effects).map (fun e => .toRoom e.1 e.2.1 e.2.2)

/-- A client event with its payload; `message:send` comes with the id that the store gives
to the new message. -/
inductive Event where
  | messageSend (newId : ObjectId) (data : SendData)
  | messageEdit (data : EditData)
  | messageDelete (data : DeleteData)
  | messageRead (data : RelayData)
  | typing (data : RelayData)
  | callInitiate (data : RelayData)
  | callSignal (data : RelayData)
  | callEnd (data : RelayData)
deriving DecidableEq, Repr

/-- The handler that `socket.on` registered for the event, on a socket whose user has the id
`socketUser`. -/
def handle (st : State) (socketUser : ObjectId) : Event → SocketResult
  | .messageSend newId data => onMessageSend newId st socketUser data
  | .messageEdit data => onMessageEdit st socketUser data
  | .messageDelete data => onMessageDelete st socketUser data
  | .messageRead data => onMessageRead st socketUser data
  | .typing data => onTyping st socketUser data
  | .callInitiate data => onCallInitiate st socketUser data
  | .callSignal data => onCallSignal st socketUser data
  | .callEnd data => onCallEnd st socketUser data

/-- What happens to the process. -/
inductive Step where
  | arrive (sid : SocketId)
  | handshake (sid : SocketId) (token : Option String)
  | event (sid : SocketId) (ev : Event)
  | disconnect (sid : SocketId)
deriving DecidableEq, Repr

/-- A new socket opens; its middleware has not run yet. -/
def arrive (srv : Server) (sid : SocketId) : Server × List Sent :=
  match findConn srv.conns sid with
  | some _ => (srv, [])
  | none => ({ srv with conns := srv.conns ++ [⟨sid, .handshake, none, []⟩] }, [])

/-- The middleware of a socket runs to its end: on an error the socket is refused; else the
`connection` callback runs (lines 20-25): it tells the other sockets `user:online` and joins
the room named by `socket.user._id.toString()`. -/
def handshake (jwtVerify : String → Option ObjectId) (srv : Server) (sid : SocketId)
    (token : Option String) : Server × List Sent :=
  match findConn srv.conns sid with
  | none => (srv, [])
  | some c =>
    if c.phase ≠ .handshake then (srv, [])
    else
      match (ioUse jwtVerify srv.store token).error, (ioUse jwtVerify srv.store token).user with
      | none, some user =>
        ({ srv with
            store := (ioUse jwtVerify srv.store token).state
            conns := replaceConn ⟨sid, .active, some user, [hexString user._id]⟩ srv.conns },
          [.toOthers sid "user:online" (.presence user._id)])
      | some error, user =>
        ({ srv with
            store := (ioUse jwtVerify srv.store token).state
            conns := replaceConn ⟨sid, .refused error, user, []⟩ srv.conns }, [])
      | none, none =>
        ({ srv with
            store := (ioUse jwtVerify srv.store token).state
            conns := replaceConn ⟨sid, .active, none, []⟩ srv.conns }, [])

/-- A client event reaches the server: the handler runs if the socket has one. -/
def dispatch (srv : Server) (sid : SocketId) (ev : Event) : Server × List Sent :=
  match findConn srv.conns sid with
  | none => (srv, [])
  | some c =>
    if c.phase ≠ .active then (srv, [])
    else
      match c.user with
      | none => (srv, [])
      | some user =>
        ({ srv with store := (handle srv.store user._id ev).state },
          sentOf (handle srv.store user._id ev).effects)

/-- A socket closes.  An established socket leaves its rooms and runs the `disconnect`
handler (lines 114-117): the user is marked offline, the other sockets are told
`user:offline`. -/
def disconnect (srv : Server) (sid : SocketId) : Server × List Sent :=
  match findConn srv.conns sid with
  | none => (srv, [])
  | some c =>
    match c.phase, c.user with
    | .active, some user =>
      ({ srv with
          store := { srv.store with users := setOnline srv.store.users user._id false }
          conns := replaceConn ⟨sid, .closed, c.user, []⟩ srv.conns },
        [.toOthers sid "user:offline" (.presence user._id)])
    | .active, none => ({ srv with conns := replaceConn ⟨sid, .closed, none, []⟩ srv.conns }, [])
    | .handshake, _ =>
      ({ srv with conns := replaceConn ⟨sid, .closed, c.user, []⟩ srv.conns }, [])
    | _, _ => (srv, [])

/-- One step of the process: the process after it and the events sent. -/
def step (jwtVerify : String → Option ObjectId) (srv : Server) : Step → Server × List Sent
  | .arrive sid => arrive srv sid
  | .handshake sid token => handshake jwtVerify srv sid token
  | .event sid ev => dispatch srv sid ev
  | .disconnect sid => disconnect srv sid

/-- Does the step end the process?  An event on an established socket whose handler ends
with a throw: the rejection of the `async` handler is unhandled. -/
def exits (srv : Server) : Step → Bool
  | .event sid ev =>
    match findConn srv.conns sid with
    | none => false
    | some c =>
      match c.user with
      | none => false
      | some user => c.isActive && (handle srv.store user._id ev).outcome == .threw
  | _ => false

/-- The process has ended: every socket is closed, without a `disconnect` handler; the store
stays as it is. -/
def halt (srv : Server) : Server :=
  { srv with conns := srv.conns.map (fun c => { c with phase := .closed, rooms := [] }) }

/-- The process after a sequence of steps: the steps run in order until one ends the
process; the steps after that one do not happen. -/
def run (jwtVerify : String → Option ObjectId) (srv : Server) : List Step → Server
  | [] => srv
  | s :: rest =>
    if exits srv s then halt (step jwtVerify srv s).1
    else run jwtVerify (step jwtVerify srv s).1 rest

/-- A process that has just started: a store, the groups, no socket. -/
def start (store : State) (groups : List Group) : Server :=
  ⟨store, groups, []⟩

/-- What holds of every socket of a process: an established socket has a user and sits in
the room named by the string of the id of that user and in no other; any other socket sits
in no room. -/
def ConnsOk (conns : List Conn) : Prop :=
  ∀ c ∈ conns, (c.phase = .active → ∃ u, c.user = some u ∧ c.rooms = [hexString u._id]) ∧
    (c.phase ≠ .active → c.rooms = [])

/-! ## Reactions, forwarding, history -/

/-- `m.delete(k)`. -/
def mapDelete {κ ν : Type} [DecidableEq κ] : List (κ × ν) → κ → List (κ × ν)
  | [], _ => []
  | (k', v) :: rest, k => if k' = k then mapDelete rest k else (k', v) :: mapDelete rest k

/-- Body of `POST /messages/react` and `/unreact`.  The emoji is taken to be a key that a
Mongoose map accepts. -/
structure ReactBody where
  messageId : Option ObjectId
  emoji : Option String
deriving DecidableEq, Repr

/-- `exports.addReaction` of the message controller. -/
def addReaction (st : State) (user : ObjectId) (body : ReactBody) : HttpResult :=
  match body.emoji with
  | none => ⟨⟨400, .error "Emoji required."⟩, st, []⟩
  | some emoji =>
    if emoji = "" then ⟨⟨400, .error "Emoji required."⟩, st, []⟩
    else
      match body.messageId.bind (Message.findById st.messages) with
      | none => ⟨⟨404, .error "Message not found."⟩, st, []⟩
      | some message =>
        let users := (mapGet message.reactions emoji).getD []
        if users.contains user then ⟨⟨200, .reactions message.reactions⟩, st, []⟩
        else
          let message1 : Message :=
            { message with reactions := mapSet message.reactions emoji (users ++ [user]) }
          ⟨⟨200, .reactions message1.reactions⟩,
            { st with messages := replaceMessage message1 st.messages }, []⟩

/-- `exports.removeReaction` of the message controller. -/
def removeReaction (st : State) (user : ObjectId) (body : ReactBody) : HttpResult :=
  match body.emoji with
  | none => ⟨⟨400, .error "Emoji required."⟩, st, []⟩
  | some emoji =>
    if emoji = "" then ⟨⟨400, .error "Emoji required."⟩, st, []⟩
    else
      match body.messageId.bind (Message.findById st.messages) with
      | none => ⟨⟨404, .error "Message not found."⟩, st, []⟩
      | some message =>
        let users := ((mapGet message.reactions emoji).getD []).filter (fun id => id ≠ user)
        let message1 : Message :=
          { message with
            reactions :=
              if users.length > 0 then mapSet message.reactions emoji users
              else mapDelete message.reactions emoji }
        ⟨⟨200, .reactions message1.reactions⟩,
          { st with messages := replaceMessage message1 st.messages }, []⟩

/-- A reaction map whose values are sets: every reactor list is duplicate-free and no emoji
maps to an empty list. -/
def ReactionsOk (reactions : List (String × List ObjectId)) : Prop :=
  ∀ k l, mapGet reactions k = some l → l.Nodup ∧ l ≠ []

/-- Body of `POST /messages/forward`. -/
structure ForwardBody where
  messageId : Option ObjectId
  recipient : Option ObjectId
  group : Option ObjectId
deriving DecidableEq, Repr

/-- `exports.forwardMessage` of the message controller. -/
def forwardMessage (newId : ObjectId) (st : State) (user : ObjectId) (body : ForwardBody) :
    HttpResult :=
  match body.messageId, orJs body.recipient body.group with
  | some messageId, some _ =>
    match Message.findById st.messages messageId with
    | none => ⟨⟨404, .error "Original message not found."⟩, st, []⟩
    | some original =>
      match Message.create newId user body.recipient body.group original.content
          (some original.attachment) original.parentMessage with
      | none => ⟨⟨500, .serverError⟩, st, []⟩
      | some forwarded =>
        ⟨⟨201, .message forwarded⟩, { st with messages := st.messages ++ [forwarded] }, []⟩
  | _, _ => ⟨⟨400, .error "Message ID and recipient or group required."⟩, st, []⟩

/-- Query of `GET /messages` and `GET /messages/history`; `limit` and `page` as parsed. -/
structure HistoryQuery where
  userId : Option String
  groupId : Option ObjectId
  limit : Option Nat
  page : Option Nat
deriving DecidableEq, Repr

/-- `(await User.find({ blocked: me })).map(u => u._id)`: the users who have blocked `me`. -/
def blockedBy (users : List User) (me : ObjectId) : List ObjectId :=
  (users.filter (fun u => u.blocked.contains me)).map (fun u => u._id)

/-- The filter that `getMessages` and `getChatHistory` hand to `Message.find` (lines 78-92):
the two directions of the conversation with `userId` (the id that the string of the query
casts to), else the messages of `groupId`, else no condition; and in each case a sender who
has not blocked `me`. -/
def historyFilter (me : ObjectId) (userId groupId : Option ObjectId) (blocked : List ObjectId)
    (m : Message) : Bool :=
  (match userId, groupId with
    | some userId, _ =>
      (m.sender == me && m.recipient == some userId) ||
        (m.sender == userId && m.recipient == some me)
    | none, some groupId => m.group == some groupId
    | none, none => true) &&
  !blocked.contains m.sender

/-- `.sort({ createdAt: 1 }).skip((page - 1) * limit).limit(limit)` on the messages in the
order of their creation: a negative skip is an error of the store, a limit of 0 is no
limit. -/
def paginate (limit page : Nat) (ms : List Message) : Option (List Message) :=
  if page = 0 ∧ limit > 0 then none
  else if limit = 0 then some (ms.drop ((page - 1) * limit))
  else some ((ms.drop ((page - 1) * limit)).take limit)

/-- Lines 92-101 of `getMessages`: the query with the filter, in the order of creation, one
page of it; an error of the store is answered 500. -/
def findMessages (st : State) (user : ObjectId) (userId groupId : Option ObjectId)
    (limit page : Option Nat) : HttpResult :=
  match paginate (limit.getD 20) (page.getD 1)
      (st.messages.filter (historyFilter user userId groupId (blockedBy st.users user))) with
  | none => ⟨⟨500, .serverError⟩, st, []⟩
  | some messages => ⟨⟨200, .messages messages⟩, st, []⟩

/-- `exports.getMessages` of the message controller.  A missing record of the requester
makes `user.blocked` throw; a `userId` that does not cast makes the query throw. -/
def getMessages (st : State) (user : ObjectId) (q : HistoryQuery) : HttpResult :=
  if truthy q.userId then
    match q.userId, User.findById st.users user with
    | some userId, some u =>
      if (u.blocked.map hexString).contains userId then
        ⟨⟨403, .error "User is blocked."⟩, st, []⟩
      else
        match castObjectId userId with
        | none => ⟨⟨500, .serverError⟩, st, []⟩
        | some id => findMessages st user (some id) q.groupId q.limit q.page
    | _, _ => ⟨⟨500, .serverError⟩, st, []⟩
  else findMessages st user none q.groupId q.limit q.page

/-- `exports.getChatHistory` of the message controller: the statements of `getMessages`. -/
def getChatHistory (st : State) (user : ObjectId) (q : HistoryQuery) : HttpResult :=
  if truthy q.userId then
    match q.userId, User.findById st.users user with
    | some userId, some u =>
      if (u.blocked.map hexString).contains userId then
        ⟨⟨403, .error "User is blocked."⟩, st, []⟩
      else
        match castObjectId userId with
        | none => ⟨⟨500, .serverError⟩, st, []⟩
        | some id => findMessages st user (some id) q.groupId q.limit q.page
    | _, _ => ⟨⟨500, .serverError⟩, st, []⟩
  else findMessages st user none q.groupId q.limit q.page

/-- The filter of `searchMessages` (lines 242-260) without its text condition: as
`historyFilter`, but not deleted, and with neither `userId` nor `groupId` only the
messages that `me` sent or received and the group messages. -/
def searchScope (me : ObjectId) (userId groupId : Option ObjectId) (blocked : List ObjectId)
    (m : Message) : Bool :=
  !m.deleted &&
  (match userId, groupId with
    | some userId, _ =>
      (m.sender == me && m.recipient == some userId) ||
        (m.sender == userId && m.recipient == some me)
    | none, some groupId => m.group == some groupId
    | none, none => m.sender == me || m.recipient == some me || m.group.isSome) &&
  !blocked.contains m.sender

/-! ## Sequences of send requests -/

/-- A request to `sendMessage`: the time it is handled at, the id for its message, the user
it is authenticated as, its body. -/
structure SendOp where
  now : Int
  newId : ObjectId
  user : ObjectId
  body : SendBody
deriving DecidableEq, Repr

/-- The state after a sequence of send requests. -/
def applySends (isProfane : String → Bool) (st : State) (ops : List SendOp) : State :=
  ops.foldl (fun s op => (sendMessage isProfane op.now op.newId s op.user op.body).state) st

/-! ## Groups

The handlers of `controllers/groupController.js` over the collection of group documents.  A
`save()` of a group that was read from the collection does not fail: the stored documents
satisfy the schema.  `members.includes(userId)`, `admins.includes(userId)` and
`joinRequests.includes(userId)` are given the string of the body, which the array compares
with the `toString()` of its ids; `push(userId)` casts the string. -/

/-- `Group.findById`. -/
def Group.findById (groups : List Group) (id : ObjectId) : Option Group :=
  groups.find? (fun g => g._id == id)

/-- Write a group document back. -/
def replaceGroup (g : Group) : List Group → List Group
  | [] => []
  | x :: rest => if x._id = g._id then g :: rest else x :: replaceGroup g rest

/-- `[...new Set(xs)]` on strings: the first occurrence of each string, in order. -/
def jsSet : List String → List String
  | [] => []
  | x :: xs => x :: (jsSet xs).filter (fun y => y ≠ x)

/-- The cast of an array of strings to an array of ObjectIds; it throws (`none`) when one of
the strings does not cast. -/
def castAll : List String → Option (List ObjectId)
  | [] => some []
  | s :: rest =>
    match castObjectId s, castAll rest with
    | some id, some ids => some (id :: ids)
    | _, _ => none

/-- `s.length` of JavaScript: the number of UTF-16 code units. -/
def jsLength (s : String) : Nat :=
  (s.data.map (fun c => if c.toNat ≥ 65536 then 2 else 1)).sum

/-- `Group.create` under `groupSchema`, with the members already cast: `name` is `trim`med,
`required` and of `maxlength` 50 (a failing validator makes the call throw: `none`),
`avatar` and `description` default to `''`, the lists that are not given are empty. -/
def Group.create (newId : ObjectId) (name : String) (members admins : List ObjectId)
    (avatar : Option String) (roles : List (String × String)) : Option Group :=
  if jsTrim name = "" ∨ jsLength (jsTrim name) > 50 then none
  else some
    { _id := newId, name := jsTrim name, members := members, admins := admins,
      avatar := avatar.getD "", pinnedMessages := [], description := "", mute := [],
      joinRequests := [], invites := [], announcementChannel := [], roles := roles }

/-- Body of a JSON response of the group controller; `group none` is `{ group: null }`. -/
inductive GroupBody where
  | error (message : String)
  | serverError
  | group (g : Option Group)
  | members (ids : List ObjectId)
deriving DecidableEq, Repr

/-- Response of the group controller. -/
structure GroupResponse where
  status : Nat
  body : GroupBody
deriving DecidableEq, Repr

/-- What a group handler does: the response and the collection afterwards. -/
structure GroupResult where
  res : GroupResponse
  groups : List Group
deriving DecidableEq, Repr

/-- Body of `POST /groups`; `members` is `none` when the field is missing or not an array,
else the strings of the array. -/
structure CreateGroupBody where
  name : Option String
  members : Option (List String)
  avatar : Option String
deriving DecidableEq, Repr

/-- `exports.createGroup` of the group controller.  The set and the role object are built
from the strings of the body and the `toString()` of the requester; `Group.create` casts
the members and throws when one of them does not cast. -/
def createGroup (newId : ObjectId) (groups : List Group) (user : ObjectId)
    (body : CreateGroupBody) : GroupResult :=
  match body.name, body.members with
  | some name, some members =>
    if name = "" ∨ members.length < 2 then
      ⟨⟨400, .error "Group name and at least 2 members required."⟩, groups⟩
    else
      let allMembers := jsSet (members ++ [hexString user])
      let roles :=
        allMembers.map (fun id => (id, if id = hexString user then "admin" else "member"))
      match castAll allMembers with
      | none => ⟨⟨500, .serverError⟩, groups⟩
      | some ids =>
        match Group.create newId name ids [user] body.avatar roles with
        | none => ⟨⟨500, .serverError⟩, groups⟩
        | some group => ⟨⟨201, .group (some group)⟩, groups ++ [group]⟩
  | _, _ => ⟨⟨400, .error "Group name and at least 2 members required."⟩, groups⟩

/-- `exports.addMember`, for a body whose `userId` casts to an id: `$addToSet` on
`members`. -/
def addMember (groups : List Group) (id userId : ObjectId) : GroupResult :=
  match Group.findById groups id with
  | none => ⟨⟨200, .group none⟩, groups⟩
  | some group =>
    let group1 : Group :=
      { group with
        members :=
          if group.members.contains userId then group.members
          else group.members ++ [userId] }
    ⟨⟨200, .group (some group1)⟩, replaceGroup group1 groups⟩

/-- `exports.removeMember`, for a body whose `userId` casts to an id: `$pull` on `members`,
and on no other field. -/
def removeMember (groups : List Group) (id userId : ObjectId) : GroupResult :=
  match Group.findById groups id with
  | none => ⟨⟨200, .group none⟩, groups⟩
  | some group =>
    let group1 : Group :=
      { group with members := group.members.filter (fun x => x ≠ userId) }
    ⟨⟨200, .group (some group1)⟩, replaceGroup group1 groups⟩

/-- `exports.promoteMember`; `id` is `req.params.id`, `userId` is the string of the body. -/
def promoteMember (groups : List Group) (user id : ObjectId) (userId : Option String) :
    GroupResult :=
  match Group.findById groups id with
  | none => ⟨⟨404, .error "Group not found."⟩, groups⟩
  | some group =>
    if mapGet group.roles (hexString user) ≠ some "admin" then
      ⟨⟨403, .error "Not authorized."⟩, groups⟩
    else
      match userId with
      | none => ⟨⟨400, .error "User not in group."⟩, groups⟩
      | some userId =>
        if ¬ (group.members.map hexString).contains userId then
          ⟨⟨400, .error "User not in group."⟩, groups⟩
        else if (group.admins.map hexString).contains userId then
          let group1 : Group := { group with roles := mapSet group.roles userId "admin" }
          ⟨⟨200, .group (some group1)⟩, replaceGroup group1 groups⟩
        else
          match castObjectId userId with
          | none => ⟨⟨500, .serverError⟩, groups⟩
          | some x =>
            let group1 : Group :=
              { group with
                roles := mapSet group.roles userId "admin"
                admins := group.admins ++ [x] }
            ⟨⟨200, .group (some group1)⟩, replaceGroup group1 groups⟩

/-- `exports.demoteMember`. -/
def demoteMember (groups : List Group) (user id : ObjectId) (userId : Option String) :
    GroupResult :=
  match Group.findById groups id with
  | none => ⟨⟨404, .error "Group not found."⟩, groups⟩
  | some group =>
    if mapGet group.roles (hexString user) ≠ some "admin" then
      ⟨⟨403, .error "Not authorized."⟩, groups⟩
    else
      match userId with
      | none => ⟨⟨400, .error "User not in group."⟩, groups⟩
      | some userId =>
        if ¬ (group.members.map hexString).contains userId then
          ⟨⟨400, .error "User not in group."⟩, groups⟩
        else if userId = hexString user then ⟨⟨400, .error "Cannot demote self."⟩, groups⟩
        else
          let group1 : Group :=
            { group with
              roles := mapSet group.roles userId "member"
              admins := group.admins.filter (fun x => hexString x ≠ userId) }
          ⟨⟨200, .group (some group1)⟩, replaceGroup group1 groups⟩

/-- `exports.approveJoin`. -/
def approveJoin (groups : List Group) (user id : ObjectId) (userId : Option String) :
    GroupResult :=
  match Group.findById groups id with
  | none => ⟨⟨404, .error "Group not found."⟩, groups⟩
  | some group =>
    if mapGet group.roles (hexString user) ≠ some "admin" then
      ⟨⟨403, .error "Admin only."⟩, groups⟩
    else
      match userId with
      | none => ⟨⟨400, .error "No such join request."⟩, groups⟩
      | some userId =>
        if ¬ (group.joinRequests.map hexString).contains userId then
          ⟨⟨400, .error "No such join request."⟩, groups⟩
        else
          match castObjectId userId with
          | none => ⟨⟨500, .serverError⟩, groups⟩
          | some x =>
            let group1 : Group :=
              { group with
                members := group.members ++ [x]
                joinRequests := group.joinRequests.filter (fun y => hexString y ≠ userId) }
            ⟨⟨200, .members group1.members⟩, replaceGroup group1 groups⟩

/-- `exports.acceptInvite`. -/
def acceptInvite (groups : List Group) (user id : ObjectId) : GroupResult :=
  match Group.findById groups id with
  | none => ⟨⟨404, .error "Group not found."⟩, groups⟩
  | some group =>
    if ¬ group.invites.contains user then ⟨⟨400, .error "No invite found."⟩, groups⟩
    else
      let group1 : Group :=
        { group with
          members := group.members ++ [user]
          invites := group.invites.filter (fun x => x ≠ user) }
      ⟨⟨200, .members group1.members⟩, replaceGroup group1 groups⟩

/-- What `postAnnouncement` does: the response, the store and the groups afterwards. -/
structure AnnouncementResult where
  res : GroupResponse
  state : State
  groups : List Group
deriving DecidableEq, Repr

/-- `exports.postAnnouncement` (lines 264-282).  The module requires `Group`, `User` and
`NodeCache` (lines 1-4) and binds no `Message`: evaluating `Message.create` on line 271
throws a ReferenceError, which the `catch` answers with 500.  Lines 276-278 (the push on
`announcementChannel`, the save, the 201) are never reached. -/
def postAnnouncement (st : State) (groups : List Group) (user id : ObjectId)
    (content : Option String) : AnnouncementResult :=
  match Group.findById groups id with
  | none => ⟨⟨404, .error "Group not found."⟩, st, groups⟩
  | some group =>
    if mapGet group.roles (hexString user) ≠ some "admin" then
      ⟨⟨403, .error "Admin only."⟩, st, groups⟩
    else
      match content with
      | none => ⟨⟨400, .error "Content required."⟩, st, groups⟩
      | some content =>
        if content = "" then ⟨⟨400, .error "Content required."⟩, st, groups⟩
        else ⟨⟨500, .serverError⟩, st, groups⟩

/-- A call of `promoteMember` or `demoteMember`: the requester, the group id of the path,
the `userId` of the body. -/
inductive GroupOp where
  | promote (user id : ObjectId) (userId : Option String)
  | demote (user id : ObjectId) (userId : Option String)
deriving DecidableEq, Repr

/-- The collection after one call. -/
def applyGroupOp (groups : List Group) : GroupOp → List Group
  | .promote user id userId => (promoteMember groups user id userId).groups
  | .demote user id userId => (demoteMember groups user id userId).groups

/-- The collection after a sequence of calls. -/
def applyGroupOps (groups : List Group) (ops : List GroupOp) : List Group :=
  ops.foldl applyGroupOp groups

/-- The role map names an admin, and whoever it names an admin (under the string of the id)
is on the admin list and on the member list. -/
def AdminsOk (g : Group) : Prop :=
  (∃ x, mapGet g.roles (hexString x) = some "admin") ∧
  ∀ x, mapGet g.roles (hexString x) = some "admin" → x ∈ g.admins ∧ x ∈ g.members

/-! ## Fixtures for the examples -/

/-- A classifier for the examples: it flags one word. -/
def exProfane (s : String) : Bool := s == "darn"

/-- Two users without block-list entries, no message, an empty spam tracker. -/
def exState : State :=
  ⟨[⟨1, false, [], false, []⟩, ⟨2, false, [], false, []⟩], [], []⟩

/-- A direct message from the examples: recipient 2, spelled as its `toString()`, and a
content. -/
def exBody (content : String) : SendBody := ⟨some (hexString 2), none, some content, none, none⟩

/-- Users 1 and 2, where user 1 has blocked user 2. -/
def exBlockedState : State :=
  ⟨[⟨1, false, [2], false, []⟩, ⟨2, false, [], false, []⟩], [], []⟩

/-- User 2 alone, with user 1 in the block-list: user 1 has no record. -/
def exOrphanState : State :=
  ⟨[⟨2, false, [1], false, []⟩], [], []⟩

/-- A stored message of user 1 to user 2, not deleted. -/
def exMessage : Message := ⟨50, 1, some 2, none, "hello", "", false, false, false, [], none⟩

/-- The two users and the message of user 1. -/
def exStored : State := ⟨exState.users, [exMessage], []⟩

/-- A token verifier for the examples: "t1" and "t2" are tokens of users 1 and 2, "ghost" is
a valid token whose user 9 has no record, every other token fails verification. -/
def exVerify (token : String) : Option ObjectId :=
  if token = "t1" then some 1
  else if token = "t2" then some 2
  else if token = "ghost" then some 9
  else none

/-- A group with the members 1 and 2. -/
def exGroup : Group :=
  ⟨7, "team", [1, 2], [1], "", [], "", [], [], [], [],
    [(hexString 1, "admin"), (hexString 2, "member")]⟩

/-- The process after user 1 connected on socket 10 and user 2 on socket 20. -/
def exConnected : Server :=
  run exVerify (start exState [exGroup])
    [.arrive 10, .handshake 10 (some "t1"), .arrive 20, .handshake 20 (some "t2")]

/-- The message of user 1 in a store where user 1 has blocked user 2. -/
def exBlockedStored : State := ⟨exBlockedState.users, [exMessage], []⟩

/-- A direct message from user 2 to user 3. -/
def exForeign : Message := ⟨60, 2, some 3, none, "secret", "", false, false, false, [], none⟩

/-- Users 1, 2 and 3 without block-list entries and the message from user 2 to user 3. -/
def exForeignStored : State :=
  ⟨[⟨1, false, [], false, []⟩, ⟨2, false, [], false, []⟩, ⟨3, false, [], false, []⟩],
    [exForeign], []⟩

/-- Users 10 and 11, whose ids are written with a letter (`...0a`, `...0b`), without
block-list entries. -/
def exLetters : State :=
  ⟨[⟨10, false, [], false, []⟩, ⟨11, false, [], false, []⟩], [], []⟩

/-- Users 10 and 11, where user 10 has blocked user 11. -/
def exLettersBlocked : State :=
  ⟨[⟨10, false, [11], false, []⟩, ⟨11, false, [], false, []⟩], [], []⟩

/-- The id of user 11 as its `toString()` gives it. -/
def exLower : String := "00000000000000000000000b"

/-- The id of user 11 with its letter in upper case; it casts to the same id. -/
def exUpper : String := "00000000000000000000000B"

/-- A token verifier for the users 10 ("ta") and 11 ("tb"). -/
def exVerifyLetters (token : String) : Option ObjectId :=
  if token = "ta" then some 10
  else if token = "tb" then some 11
  else none

/-- The process after user 10 connected on socket 10 and user 11 on socket 20. -/
def exLettersConnected : Server :=
  run exVerifyLetters (start exLetters [])
    [.arrive 10, .handshake 10 (some "ta"), .arrive 20, .handshake 20 (some "tb")]

/-! ## Lemmas on the helpers -/

theorem jsTrim_empty : jsTrim "" = "" := by decide

theorem ne_empty_of_jsTrim_ne {s : String} (h : jsTrim s ≠ "") : s ≠ "" := by
  intro hs
  exact h (hs ▸ jsTrim_empty)

theorem mapGet_mapSet_self {κ ν : Type} [DecidableEq κ] (m : List (κ × ν)) (k : κ) (v : ν) :
    mapGet (mapSet m k v) k = some v := by
  induction m with
  | nil => simp [mapSet, mapGet]
  | cons p rest ih =>
    obtain ⟨k', v'⟩ := p
    by_cases h : k' = k
    · simp [mapSet, mapGet, h]
    · simp [mapSet, mapGet, h, ih]

theorem mapGet_mapSet_of_ne {κ ν : Type} [DecidableEq κ] (m : List (κ × ν)) {k k' : κ} (v : ν)
    (hk : k' ≠ k) : mapGet (mapSet m k v) k' = mapGet m k' := by
  induction m with
  | nil => simp [mapSet, mapGet, Ne.symm hk]
  | cons p rest ih =>
    obtain ⟨k₀, v₀⟩ := p
    by_cases h : k₀ = k
    · subst h
      simp [mapSet, mapGet, Ne.symm hk]
    · by_cases h' : k₀ = k'
      · subst h'
        simp [mapSet, mapGet, h]
      · simp [mapSet, mapGet, h, h', ih]

theorem isRepeat_eq_true_iff (lm : List (SpamKey × SpamEntry)) (key : SpamKey) (content : String)
    (now : Int) :
    isRepeat lm key content now = true ↔
      ∃ e, mapGet lm key = some e ∧ e.lastContent = content ∧ now - e.lastTime < 10000 := by
  unfold isRepeat
  cases h : mapGet lm key with
  | none => simp
  | some e => simp

theorem isRepeat_eq_false_iff (lm : List (SpamKey × SpamEntry)) (key : SpamKey) (content : String)
    (now : Int) :
    isRepeat lm key content now = false ↔
      ∀ e, mapGet lm key = some e → e.lastContent ≠ content ∨ 10000 ≤ now - e.lastTime := by
  unfold isRepeat
  cases h : mapGet lm key with
  | none => simp
  | some e =>
    simp only [Option.some.injEq, forall_eq', Bool.and_eq_false_imp, beq_iff_eq, decide_eq_false_iff_not, not_lt]
    constructor
    · intro hh
      by_cases hc : e.lastContent = content
      · exact Or.inr (hh hc)
      · exact Or.inl hc
    · intro hh hc
      cases hh with
      | inl h1 => exact absurd hc h1
      | inr h2 => exact h2

/-! ## Ids and their strings -/

theorem hexValue_hexChar (d : Nat) (h : d < 16) : hexValue (hexChar d) = some d := by
  interval_cases d <;> decide

theorem hexNumber_append (l : List Char) (c : Char) (acc : Nat) :
    hexNumber (l ++ [c]) acc =
      (hexNumber l acc).bind (fun v => (hexValue c).map (fun d => 16 * v + d)) := by
  induction l generalizing acc with
  | nil =>
    simp only [List.nil_append, hexNumber]
    cases hexValue c <;> simp [hexNumber]
  | cons a rest ih =>
    simp only [List.cons_append, hexNumber]
    cases hexValue a with
    | none => simp
    | some d => simp [ih]

theorem hexNumber_hexDigits (w n : Nat) : hexNumber (hexDigits w n) 0 = some (n % 16 ^ w) := by
  induction w generalizing n with
  | zero => simp [hexDigits, hexNumber, Nat.mod_one]
  | succ w ih =>
    simp only [hexDigits]
    rw [hexNumber_append, ih, hexValue_hexChar _ (Nat.mod_lt _ (by norm_num))]
    simp only [Option.some_bind, Option.map_some']
    congr 1
    rw [pow_succ, mul_comm (16 ^ w) 16, Nat.mod_mul]
    omega

theorem length_hexDigits (w n : Nat) : (hexDigits w n).length = w := by
  induction w generalizing n with
  | zero => rfl
  | succ w ih => simp [hexDigits, ih]

/-- Casting the string of an id gives the id back. -/
theorem castObjectId_hexString (id : ObjectId) : castObjectId (hexString id) = some id := by
  have h : id.val % 16 ^ 24 = id.val := Nat.mod_eq_of_lt id.isLt
  unfold castObjectId hexString
  rw [if_pos (length_hexDigits 24 _), hexNumber_hexDigits]
  show (if h : id.val % 16 ^ 24 < 16 ^ 24 then some ⟨id.val % 16 ^ 24, h⟩ else none) = some id
  rw [dif_pos (by rw [h]; exact id.isLt)]
  exact congrArg some (Fin.ext h)

/-- Two ids with the same string are the same id. -/
theorem hexString_injective {a b : ObjectId} (h : hexString a = hexString b) : a = b := by
  have := castObjectId_hexString a
  rw [h, castObjectId_hexString] at this
  exact (Option.some.inj this).symm

theorem hexString_ne_empty (a : ObjectId) : hexString a ≠ "" := by
  intro h
  have := congrArg (fun s => s.data.length) h
  simp [hexString, length_hexDigits] at this

/-- A list of ids holds an id exactly when the strings of the list hold its string: on the
`toString()` of an id, `includes` of a string decides membership. -/
theorem contains_map_hexString (l : List ObjectId) (a : ObjectId) :
    (l.map hexString).contains (hexString a) = l.contains a := by
  induction l with
  | nil => rfl
  | cons x rest ih =>
    by_cases h : a = x
    · subst h
      simp
    · have h' : hexString a ≠ hexString x := fun e => h (hexString_injective e)
      have e1 : (hexString a == hexString x) = false := beq_eq_false_iff_ne.mpr h'
      have e2 : (a == x) = false := beq_eq_false_iff_ne.mpr h
      simp only [List.map_cons, List.contains_cons, ih, e1, e2]

/-- A string found among the strings of a list of ids is the string of an id of the list,
and the id it casts to. -/
theorem mem_of_contains_map_hexString {l : List ObjectId} {s : String}
    (h : (l.map hexString).contains s = true) :
    ∃ x, x ∈ l ∧ s = hexString x ∧ castObjectId s = some x := by
  have hmem : s ∈ l.map hexString := by simpa using h
  obtain ⟨x, hx, hs⟩ := List.mem_map.mp hmem
  exact ⟨x, hx, hs.symm, by rw [← hs]; exact castObjectId_hexString x⟩

theorem truthy_some {s : String} (h : s ≠ "") : truthy (some s) = true := by
  simp [truthy, h]

theorem orStr_some_left {s : String} (h : s ≠ "") (b : Option String) :
    orStr (some s) b = some s := by
  simp [orStr, truthy, h]

theorem orStr_none_left {s : String} (h : s ≠ "") : orStr none (some s) = some s := by
  simp [orStr, truthy, h]

/-- The value of `orStr` is a truthy one of the two fields. -/
theorem orStr_eq_some {a b : Option String} {t : String} (h : orStr a b = some t) :
    t ≠ "" ∧ ((a = some t) ∨ (truthy a = false ∧ b = some t)) := by
  unfold orStr at h
  by_cases ha : truthy a = true
  · rw [if_pos ha] at h
    subst h
    refine ⟨?_, Or.inl rfl⟩
    simpa [truthy] using ha
  · rw [if_neg ha] at h
    by_cases hb : truthy b = true
    · rw [if_pos hb] at h
      subst h
      refine ⟨?_, Or.inr ⟨by simpa using ha, rfl⟩⟩
      simpa [truthy] using hb
    · rw [if_neg hb] at h
      cases h

/-- The key of the spam tracker determines the requester and the target string. -/
theorem spamKey_injective {u u' : ObjectId} {t t' : String}
    (h : spamKey u t = spamKey u' t') : u = u' ∧ t = t' := by
  unfold spamKey hexString at h
  have h1 : (hexDigits 24 u.val ++ (':' :: t.data)) = (hexDigits 24 u'.val ++ (':' :: t'.data)) := by
    have := congrArg String.data h
    simpa [String.data_append] using this
  have h2 := List.append_inj h1 (by rw [length_hexDigits, length_hexDigits])
  refine ⟨hexString_injective (by unfold hexString; rw [h2.1]), ?_⟩
  have h3 := h2.2
  simp only [List.cons.injEq, true_and] at h3
  exact String.ext h3

/-! ## The request path past its guards -/

/-- The handler past its guards: with a content, an addressee, the block check passed and a
clean content, only the spam check and the store decide. -/
theorem sendMessage_past_gate (isProfane : String → Bool) (now : Int) (newId : ObjectId)
    (st : State) (user : ObjectId) (body : SendBody) (content : String) (target : String)
    (hc : body.content = some content) (hne : content ≠ "")
    (ht : orStr body.recipient body.group = some target)
    (hb : blockGate st user body.recipient = none) (hp : isProfane content = false) :
    sendMessage isProfane now newId st user body =
      if isRepeat st.lastMessages (spamKey user target) content now then
        ⟨⟨429, .error "Please do not send repeated messages."⟩, st, []⟩
      else
        match createFromPayload newId user body.recipient body.group content body.attachment
            body.parentMessage with
        | none =>
          ⟨⟨500, .serverError⟩,
            { st with
              lastMessages := mapSet st.lastMessages (spamKey user target) ⟨content, now⟩ },
            []⟩
        | some message =>
          ⟨⟨201, .message message⟩,
            { st with
              lastMessages := mapSet st.lastMessages (spamKey user target) ⟨content, now⟩
              messages := st.messages ++ [message] },
            webhookPosts st.users message⟩ := by
  unfold sendMessage
  simp only [hc, ht, hne, hb, hp, if_false, Bool.false_eq_true]

/-! ## The spam window of `sendMessage` -/

theorem createFromPayload_eq {newId sender : ObjectId} {recipient group : Option String}
    {r g : Option ObjectId} (content : String) (attachment : Option String)
    (parentMessage : Option ObjectId) (hr : castField recipient = some r)
    (hg : castField group = some g) :
    createFromPayload newId sender recipient group content attachment parentMessage =
      Message.create newId sender r g content attachment parentMessage := by
  unfold createFromPayload
  rw [hr, hg]

/-- What `createFromPayload` gives: both fields cast, the trimmed content is not empty, and
the document holds the cast ids and the trimmed content. -/
theorem createFromPayload_some {newId sender : ObjectId} {recipient group : Option String}
    {content : String} {attachment : Option String} {parentMessage : Option ObjectId}
    {m : Message}
    (h : createFromPayload newId sender recipient group content attachment parentMessage =
      some m) :
    ∃ r g, castField recipient = some r ∧ castField group = some g ∧ jsTrim content ≠ "" ∧
      m = { _id := newId, sender := sender, recipient := r, group := g,
            content := jsTrim content, attachment := attachment.getD "",
            read := false, edited := false, deleted := false, reactions := [],
            parentMessage := parentMessage } := by
  unfold createFromPayload at h
  cases hr : castField recipient with
  | none => simp [hr] at h
  | some r =>
    cases hg : castField group with
    | none => simp [hr, hg] at h
    | some g =>
      simp only [hr, hg] at h
      unfold Message.create at h
      by_cases ht : jsTrim content = ""
      · simp [ht] at h
      · rw [if_neg ht] at h
        exact ⟨r, g, rfl, rfl, ht, (Option.some.inj h).symm⟩

/-- For a send that reaches the spam check (content present, an addressee, recipient lookup
and block check passed, content not profane): if the entry of the key of requester and
target string has the same content and a time less than 10000 ms before now, the answer is
429 and the state is unchanged (no message, the window is not restarted); otherwise the
spam check passes and records (content, now) under that key, and the send is answered 201
with one new message when the fields cast and the trimmed content is not empty, and 500
without a new message when the trimmed content is empty. -/
theorem sendMessage_spam_window (isProfane : String → Bool) (now : Int) (newId : ObjectId)
    (st : State) (user : ObjectId) (body : SendBody) (content : String) (target : String)
    (hc : body.content = some content) (hne : content ≠ "")
    (ht : orStr body.recipient body.group = some target)
    (hb : blockGate st user body.recipient = none) (hp : isProfane content = false) :
    ((∃ e, mapGet st.lastMessages (spamKey user target) = some e ∧ e.lastContent = content ∧
          now - e.lastTime < 10000) →
      (sendMessage isProfane now newId st user body).res =
          ⟨429, .error "Please do not send repeated messages."⟩ ∧
        (sendMessage isProfane now newId st user body).state = st) ∧
    ((∀ e, mapGet st.lastMessages (spamKey user target) = some e →
          e.lastContent ≠ content ∨ 10000 ≤ now - e.lastTime) →
      mapGet (sendMessage isProfane now newId st user body).state.lastMessages
          (spamKey user target) = some ⟨content, now⟩ ∧
        (∀ r g, castField body.recipient = some r → castField body.group = some g →
          jsTrim content ≠ "" →
          (sendMessage isProfane now newId st user body).res.status = 201 ∧
          ∃ m, (sendMessage isProfane now newId st user body).res.body = .message m ∧
            (sendMessage isProfane now newId st user body).state.messages = st.messages ++ [m] ∧
            m.sender = user ∧ m.recipient = r ∧ m.group = g ∧ m.content = jsTrim content) ∧
        (jsTrim content = "" →
          (sendMessage isProfane now newId st user body).res.status = 500 ∧
          (sendMessage isProfane now newId st user body).state.messages = st.messages)) := by
  rw [sendMessage_past_gate isProfane now newId st user body content target hc hne ht hb hp]
  constructor
  · intro h
    rw [(isRepeat_eq_true_iff _ _ _ _).mpr h]
    simp
  · intro h
    rw [(isRepeat_eq_false_iff _ _ _ _).mpr h]
    simp only [Bool.false_eq_true, if_false]
    refine ⟨?_, ?_, ?_⟩
    · cases createFromPayload newId user body.recipient body.group content body.attachment
        body.parentMessage <;> simp [mapGet_mapSet_self]
    · intro r g hr hg htrim
      rw [createFromPayload_eq content body.attachment body.parentMessage hr hg]
      simp [Message.create, htrim]
    · intro htrim
      have hnone : createFromPayload newId user body.recipient body.group content
          body.attachment body.parentMessage = none := by
        cases hcr : createFromPayload newId user body.recipient body.group content
            body.attachment body.parentMessage with
        | none => rfl
        | some m =>
          obtain ⟨_, _, _, _, h3, _⟩ := createFromPayload_some hcr
          exact absurd htrim h3
      rw [hnone]
      simp

/-- C1, the code at the failing input: user 10 sends "hi" to user 11 twice within one
millisecond, naming the recipient first by the lower-case and then by the upper-case
spelling of the same id.  Both strings cast to the id 11, both sends are answered 201 and
both messages are stored with recipient 11: the key of the spam tracker is built from the
string of the body, so the second send finds no entry.  With the spelling of the first send
the second one is answered 429. -/
theorem sendMessage_respelled_repeat_accepted :
    castObjectId exLower = some 11 ∧ castObjectId exUpper = some 11 ∧
    (sendMessage exProfane 0 100 exLetters 10 ⟨some exLower, none, some "hi", none, none⟩).res
      = ⟨201, .message ⟨100, 10, some 11, none, "hi", "", false, false, false, [], none⟩⟩ ∧
    (sendMessage exProfane 1 101
        (sendMessage exProfane 0 100 exLetters 10
          ⟨some exLower, none, some "hi", none, none⟩).state 10
        ⟨some exUpper, none, some "hi", none, none⟩).res
      = ⟨201, .message ⟨101, 10, some 11, none, "hi", "", false, false, false, [], none⟩⟩ ∧
    (sendMessage exProfane 1 101
        (sendMessage exProfane 0 100 exLetters 10
          ⟨some exLower, none, some "hi", none, none⟩).state 10
        ⟨some exLower, none, some "hi", none, none⟩).res.status = 429 := by
  decide

theorem blockGate_congr {st st' : State} (h : st'.users = st.users) (user : ObjectId)
    (recipient : Option String) : blockGate st' user recipient = blockGate st user recipient := by
  cases recipient with
  | none => rfl
  | some r => simp [blockGate, h]

theorem sendMessage_users (isProfane : String → Bool) (now : Int) (newId : ObjectId) (st : State)
    (user : ObjectId) (body : SendBody) :
    (sendMessage isProfane now newId st user body).state.users = st.users := by
  unfold sendMessage
  split
  · split
    · rfl
    · split
      · rfl
      · split
        · rfl
        · split
          · rfl
          · split <;> rfl
  · rfl

/-- C2, counterexample: "hi" at 0, "yo" at 1000 and "hi" again at 2000, from user 1 to user
2, named by the same string each time: the three sends are answered 201, although "hi" was
accepted 2000 ms before the third. -/
theorem sendMessage_interleaved_example :
    (sendMessage exProfane 0 100 exState 1 (exBody "hi")).res.status = 201 ∧
    (sendMessage exProfane 1000 101
        (sendMessage exProfane 0 100 exState 1 (exBody "hi")).state 1 (exBody "yo")).res.status
      = 201 ∧
    (sendMessage exProfane 2000 102
        (sendMessage exProfane 1000 101
          (sendMessage exProfane 0 100 exState 1 (exBody "hi")).state 1 (exBody "yo")).state
        1 (exBody "hi")).res.status = 201 := by
  decide

/-- C2, amended: for the sends of one requester that name one target by one string and
reach the spam check: a send is answered 429 exactly when the entry of the key of
requester and target string, which holds only the last send under that key that passed
the check, has the same content and a time less than 10000 ms before now; a send with
another content that passes in between overwrites the entry, so that c, then d, then c
again are all answered 201, whatever the three times. -/
theorem sendMessage_throttles_last_only (isProfane : String → Bool) (st : State)
    (user : ObjectId) (body : SendBody) (target : String)
    (ht : orStr body.recipient body.group = some target)
    (hb : blockGate st user body.recipient = none) :
    (∀ (now : Int) (newId : ObjectId) (c : String), c ≠ "" → isProfane c = false →
      ((sendMessage isProfane now newId st user { body with content := some c }).res.status = 429
        ↔ ∃ e, mapGet st.lastMessages (spamKey user target) = some e ∧ e.lastContent = c ∧
            now - e.lastTime < 10000)) ∧
    (∀ (t1 t2 t3 : Int) (n1 n2 n3 : ObjectId) (c d : String) (r g : Option ObjectId),
      castField body.recipient = some r → castField body.group = some g → c ≠ d →
      jsTrim c ≠ "" → jsTrim d ≠ "" → isProfane c = false → isProfane d = false →
      isRepeat st.lastMessages (spamKey user target) c t1 = false →
      (sendMessage isProfane t1 n1 st user { body with content := some c }).res.status = 201 ∧
      (sendMessage isProfane t2 n2
        (sendMessage isProfane t1 n1 st user { body with content := some c }).state user
        { body with content := some d }).res.status = 201 ∧
      (sendMessage isProfane t3 n3
        (sendMessage isProfane t2 n2
          (sendMessage isProfane t1 n1 st user { body with content := some c }).state user
          { body with content := some d }).state user
        { body with content := some c }).res.status = 201) := by
  have past : ∀ (st' : State), st'.users = st.users → ∀ (now : Int) (newId : ObjectId)
      (c : String), c ≠ "" → isProfane c = false →
      sendMessage isProfane now newId st' user { body with content := some c } =
        if isRepeat st'.lastMessages (spamKey user target) c now then
          ⟨⟨429, .error "Please do not send repeated messages."⟩, st', []⟩
        else
          match createFromPayload newId user body.recipient body.group c body.attachment
              body.parentMessage with
          | none =>
            ⟨⟨500, .serverError⟩,
              { st' with
                lastMessages := mapSet st'.lastMessages (spamKey user target) ⟨c, now⟩ }, []⟩
          | some message =>
            ⟨⟨201, .message message⟩,
              { st' with
                lastMessages := mapSet st'.lastMessages (spamKey user target) ⟨c, now⟩
                messages := st'.messages ++ [message] },
              webhookPosts st'.users message⟩ := by
    intro st' hu now newId c hne hp
    exact sendMessage_past_gate isProfane now newId st' user { body with content := some c } c
      target rfl hne ht (by rw [blockGate_congr hu]; exact hb) hp
  have accepted : ∀ (st' : State), st'.users = st.users → ∀ (now : Int) (newId : ObjectId)
      (c : String) (r g : Option ObjectId), castField body.recipient = some r →
      castField body.group = some g → jsTrim c ≠ "" → isProfane c = false →
      isRepeat st'.lastMessages (spamKey user target) c now = false →
      (sendMessage isProfane now newId st' user { body with content := some c }).res.status = 201 ∧
      mapGet (sendMessage isProfane now newId st' user
        { body with content := some c }).state.lastMessages (spamKey user target) =
          some ⟨c, now⟩ := by
    intro st' hu now newId c r g hr hg htrim hp hrep
    rw [past st' hu now newId c (ne_empty_of_jsTrim_ne htrim) hp, hrep,
      createFromPayload_eq c body.attachment body.parentMessage hr hg]
    simp [Message.create, htrim, mapGet_mapSet_self]
  constructor
  · intro now newId c hne hp
    rw [past st rfl now newId c hne hp, ← isRepeat_eq_true_iff]
    cases hrep : isRepeat st.lastMessages (spamKey user target) c now with
    | true => simp
    | false =>
      simp only [Bool.false_eq_true, if_false, iff_false]
      cases createFromPayload newId user body.recipient body.group c body.attachment
        body.parentMessage <;> simp
  · intro t1 t2 t3 n1 n2 n3 c d r g hr hg hcd hc hd hpc hpd hfirst
    have h1 := accepted st rfl t1 n1 c r g hr hg hc hpc hfirst
    have hu1 := sendMessage_users isProfane t1 n1 st user { body with content := some c }
    have hrep2 : isRepeat (sendMessage isProfane t1 n1 st user
        { body with content := some c }).state.lastMessages (spamKey user target) d t2 =
        false := by
      rw [isRepeat_eq_false_iff]
      intro e he
      rw [h1.2] at he
      cases he
      exact Or.inl hcd
    have h2 := accepted _ hu1 t2 n2 d r g hr hg hd hpd hrep2
    have hu2 := (sendMessage_users isProfane t2 n2 _ user { body with content := some d }).trans hu1
    have hrep3 : isRepeat (sendMessage isProfane t2 n2
        (sendMessage isProfane t1 n1 st user { body with content := some c }).state user
        { body with content := some d }).state.lastMessages (spamKey user target) c t3 =
        false := by
      rw [isRepeat_eq_false_iff]
      intro e he
      rw [h2.2] at he
      cases he
      exact Or.inl (Ne.symm hcd)
    have h3 := accepted _ hu2 t3 n3 c r g hr hg hc hpc hrep3
    exact ⟨h1.1, h2.1, h3.1⟩

/-- C2, witness: with "hi" recorded at 0, "hi" at 6000 is answered 429; and "hi", "yo",
"hi" at 0, 1 and 2 are all answered 201. -/
theorem sendMessage_throttles_last_only_witness :
    ((sendMessage exProfane 6000 101 (sendMessage exProfane 0 100 exState 1 (exBody "hi")).state
        1 (exBody "hi")).res.status = 429 ↔
      ∃ e, mapGet (sendMessage exProfane 0 100 exState 1 (exBody "hi")).state.lastMessages
          (spamKey 1 (hexString 2)) = some e ∧ e.lastContent = "hi" ∧
            (6000 : Int) - e.lastTime < 10000) ∧
    ((sendMessage exProfane 0 100 exState 1 (exBody "hi")).res.status = 201 ∧
      (sendMessage exProfane 1 101
        (sendMessage exProfane 0 100 exState 1 (exBody "hi")).state 1
        (exBody "yo")).res.status = 201 ∧
      (sendMessage exProfane 2 102
        (sendMessage exProfane 1 101
          (sendMessage exProfane 0 100 exState 1 (exBody "hi")).state 1
          (exBody "yo")).state 1 (exBody "hi")).res.status = 201) :=
  ⟨(sendMessage_throttles_last_only exProfane
      (sendMessage exProfane 0 100 exState 1 (exBody "hi")).state 1 (exBody "hi")
      (hexString 2) (by decide) (by decide)).1 6000 101 "hi" (by decide) (by decide),
   (sendMessage_throttles_last_only exProfane exState 1 (exBody "hi") (hexString 2)
      (by decide) (by decide)).2
      0 1 2 100 101 102 "hi" "yo" (some 2) none (by decide) (by decide) (by decide) (by decide)
      (by decide) (by decide) (by decide) (by decide)⟩

/-! ## The block-list -/

theorem findUser_id {users : List User} {id : ObjectId} {u : User}
    (h : User.findById users id = some u) : u._id = id := by
  unfold User.findById at h
  have := List.find?_some h
  simpa using this

theorem findUser_replaceUser_self (u : User) (users : List User) (u0 : User)
    (h : User.findById users u._id = some u0) :
    User.findById (replaceUser u users) u._id = some u := by
  induction users with
  | nil => simp [User.findById] at h
  | cons x rest ih =>
    by_cases hx : x._id = u._id
    · simp [replaceUser, User.findById, hx]
    · have h' : User.findById rest u._id = some u0 := by
        simpa [User.findById, List.find?_cons, hx] using h
      have := ih h'
      simpa [replaceUser, User.findById, List.find?_cons, hx] using this

theorem findUser_replaceUser_of_ne (u : User) (users : List User) {id : ObjectId}
    (h : id ≠ u._id) :
    User.findById (replaceUser u users) id = User.findById users id := by
  induction users with
  | nil => rfl
  | cons x rest ih =>
    by_cases hx : x._id = u._id
    · have hx' : ¬ x._id = id := fun e => h (e ▸ hx)
      simp [replaceUser, User.findById, List.find?_cons, hx, hx', Ne.symm h]
    · by_cases hid : x._id = id
      · subst hid
        simp [replaceUser, User.findById, List.find?_cons, hx]
      · have := ih
        simpa [replaceUser, User.findById, List.find?_cons, hx, hid] using this

theorem castObjectId_empty : castObjectId "" = none := by decide

/-- A send with content and a recipient string that casts to a stored user, from a stored
user, is answered 403 and changes nothing when the string is found among the strings of
the sender's block-list or the recipient has the sender in the block-list. -/
theorem sendMessage_blocked (isProfane : String → Bool) (now : Int) (newId : ObjectId)
    (st : State) (user recipient : ObjectId) (r : String) (sender target : User)
    (body : SendBody) (content : String) (hs : User.findById st.users user = some sender)
    (hcast : castObjectId r = some recipient)
    (ht : User.findById st.users recipient = some target)
    (hblock : (sender.blocked.map hexString).contains r = true ∨ user ∈ target.blocked)
    (hc : body.content = some content) (hne : content ≠ "")
    (hr : body.recipient = some r) :
    sendMessage isProfane now newId st user body =
      ⟨⟨403, .error "You cannot message this user."⟩, st, []⟩ := by
  have hrne : r ≠ "" := by
    intro h
    rw [h, castObjectId_empty] at hcast
    cases hcast
  have hg : blockGate st user (some r) =
      some ⟨403, .error "You cannot message this user."⟩ := by
    simp only [blockGate, hrne, if_false, hcast, hs, ht]
    have : ((sender.blocked.map hexString).contains r || target.blocked.contains user) =
        true := by
      rw [Bool.or_eq_true]
      rcases hblock with h | h
      · exact Or.inl h
      · exact Or.inr (by simpa using h)
    rw [if_pos this]
  unfold sendMessage
  simp [hc, hr, orStr_some_left hrne, hne, hg]

/-- `blockUser` by A naming B by the string of its id. -/
theorem blockUser_canonical (st : State) (A B : ObjectId) (ua : User)
    (hA : User.findById st.users A = some ua) (hne : A ≠ B) :
    blockUser st A (some (hexString B)) =
      ⟨⟨200, .blocked
          (if ua.blocked.contains B then ua else { ua with blocked := ua.blocked ++ [B] }).blocked⟩,
        { st with
          users := (replaceUser
            (if ua.blocked.contains B then ua else { ua with blocked := ua.blocked ++ [B] })
            st.users) }, []⟩ := by
  have h1 : ¬ (hexString B = "" ∨ hexString B = hexString A) := by
    intro h
    rcases h with h | h
    · exact hexString_ne_empty B h
    · exact hne (hexString_injective h).symm
  unfold blockUser
  simp only [h1, if_false, hA, contains_map_hexString, castObjectId_hexString]
  by_cases hc : ua.blocked.contains B = true
  · rw [if_pos hc, if_pos hc]
  · rw [if_neg hc, if_neg hc]

/-- For users A and B whose records both exist and B in the block-list of A: a send with a
non-empty content from B to A is answered 403 however the body spells the id of A, and a
send from A to B is answered 403 when the body spells the id of B as its `toString()`;
both change nothing.  For A different from B, `blockUser` by A naming B by the `toString()`
of its id is answered 200, rewrites only the record of A (B is appended to its block-list
unless present) and leaves the record of B and of every user other than A as it was; after
it B is in the block-list of A. -/
theorem block_list_enforced (isProfane : String → Bool) (st : State) (A B : ObjectId)
    (ua ub : User) (hA : User.findById st.users A = some ua)
    (hB : User.findById st.users B = some ub) :
    (B ∈ ua.blocked →
      ∀ (now : Int) (newId : ObjectId) (body : SendBody) (content : String),
        body.content = some content → content ≠ "" →
        (∀ r, body.recipient = some r → castObjectId r = some A →
          sendMessage isProfane now newId st B body =
            ⟨⟨403, .error "You cannot message this user."⟩, st, []⟩) ∧
        (body.recipient = some (hexString B) →
          sendMessage isProfane now newId st A body =
            ⟨⟨403, .error "You cannot message this user."⟩, st, []⟩)) ∧
    (A ≠ B →
      (blockUser st A (some (hexString B))).res.status = 200 ∧
      (blockUser st A (some (hexString B))).state =
        { st with
          users := (replaceUser
            (if ua.blocked.contains B then ua else { ua with blocked := ua.blocked ++ [B] })
            st.users) } ∧
      User.findById (blockUser st A (some (hexString B))).state.users B = some ub ∧
      (∀ id, id ≠ A →
        User.findById (blockUser st A (some (hexString B))).state.users id =
          User.findById st.users id) ∧
      ∃ ua1, User.findById (blockUser st A (some (hexString B))).state.users A = some ua1 ∧
        B ∈ ua1.blocked) := by
  constructor
  · intro hblock now newId body content hc hne
    constructor
    · intro r hr hcast
      exact sendMessage_blocked isProfane now newId st B A r ub ua body content hB hcast hA
        (Or.inr hblock) hc hne hr
    · intro hr
      exact sendMessage_blocked isProfane now newId st A B (hexString B) ua ub body content hA
        (castObjectId_hexString B) hB
        (Or.inl (by rw [contains_map_hexString]; simpa using hblock)) hc hne hr
  · intro hne
    have hid : ua._id = A := findUser_id hA
    have hst := blockUser_canonical st A B ua hA hne
    have hid1 : (if ua.blocked.contains B then ua
        else { ua with blocked := ua.blocked ++ [B] })._id = A := by
      split <;> simpa using hid
    have hmem : B ∈ (if ua.blocked.contains B then ua
        else { ua with blocked := ua.blocked ++ [B] }).blocked := by
      by_cases h : ua.blocked.contains B = true
      · rw [if_pos h]
        simpa using h
      · rw [if_neg h]
        simp
    have hother : ∀ id, id ≠ A →
        User.findById (blockUser st A (some (hexString B))).state.users id =
          User.findById st.users id := by
      intro id hne'
      rw [hst]
      exact findUser_replaceUser_of_ne _ _ (by rw [hid1]; exact hne')
    have hA1 : User.findById (blockUser st A (some (hexString B))).state.users A =
        some (if ua.blocked.contains B then ua else { ua with blocked := ua.blocked ++ [B] }) := by
      rw [hst]
      have := findUser_replaceUser_self
        (if ua.blocked.contains B then ua else { ua with blocked := ua.blocked ++ [B] })
        st.users ua (by rw [hid1]; exact hA)
      rw [hid1] at this
      exact this
    have hB1 : User.findById (blockUser st A (some (hexString B))).state.users B = some ub := by
      rw [hother B (Ne.symm hne)]
      exact hB
    exact ⟨by rw [hst], by rw [hst], hB1, hother, _, hA1, hmem⟩

/-- C3, the code at the failing input: user 10 has user 11 in the block-list and both
records exist.  A send from 10 to 11 that names the recipient by the upper-case spelling of
its id is answered 201 and stored with recipient 11; with the lower-case spelling it is
answered 403, as is a send from 11 to 10 in either spelling.  `blockUser` by user 10 with
the upper-case spelling of the own id is answered 200 and puts user 10 on the own
block-list; naming user 11 in upper case appends the id a second time. -/
theorem sendMessage_respelled_passes_block :
    User.findById exLettersBlocked.users 10 = some ⟨10, false, [11], false, []⟩ ∧
    castObjectId exUpper = some 11 ∧
    (sendMessage exProfane 0 100 exLettersBlocked 10
        ⟨some exUpper, none, some "hi", none, none⟩).res
      = ⟨201, .message ⟨100, 10, some 11, none, "hi", "", false, false, false, [], none⟩⟩ ∧
    (sendMessage exProfane 0 100 exLettersBlocked 10
        ⟨some exLower, none, some "hi", none, none⟩).res.status = 403 ∧
    (sendMessage exProfane 0 100 exLettersBlocked 11
        ⟨some "00000000000000000000000a", none, some "hi", none, none⟩).res.status = 403 ∧
    (sendMessage exProfane 0 100 exLettersBlocked 11
        ⟨some "00000000000000000000000A", none, some "hi", none, none⟩).res.status = 403 ∧
    (blockUser exLettersBlocked 10 (some "00000000000000000000000A")).res =
      ⟨200, .blocked [11, 10]⟩ ∧
    (blockUser exLettersBlocked 10 (some "00000000000000000000000a")).res =
      ⟨400, .error "Invalid user ID."⟩ ∧
    (blockUser exLettersBlocked 10 (some exUpper)).res = ⟨200, .blocked [11, 11]⟩ := by
  decide

/-! ## Order of the checks, addressing -/

/-- The state changes only on the paths answered 201 or 500, and only 201 starts POSTs. -/
theorem sendMessage_state_of_rejected (isProfane : String → Bool) (now : Int) (newId : ObjectId)
    (st : State) (user : ObjectId) (body : SendBody)
    (h : (sendMessage isProfane now newId st user body).res.status ≠ 201 ∧
      (sendMessage isProfane now newId st user body).res ≠ ⟨500, .serverError⟩) :
    (sendMessage isProfane now newId st user body).state = st ∧
      (sendMessage isProfane now newId st user body).posts = [] := by
  revert h
  unfold sendMessage
  split
  · split
    · simp
    · split
      · rename_i res hres
        intro h
        exact ⟨rfl, rfl⟩
      · split
        · simp
        · split
          · simp
          · split <;> simp
  · simp

/-- For a message (a content and an addressee), the checks run in the order block-list,
profanity, duplicate and the first that fails answers: (1) when the block check of the code
fails (the recipient string is among the strings of the sender's block-list, or the
recipient has the sender in the block-list), the answer is 403, profane or not, repeated or
not; (2) when the block check passes, a profane content is answered 400 "inappropriate
language", also when it repeats the recorded last send within 10 s; (3) when both pass, a
repeat is answered 429; and (4) whenever the answer is the 403 of the block check or the
400 of the profanity check, the state is unchanged: no message, nothing recorded in the
spam window. -/
theorem sendMessage_check_order (isProfane : String → Bool) (now : Int) (newId : ObjectId)
    (st : State) (user : ObjectId) (body : SendBody) (content : String) (target : String)
    (hc : body.content = some content) (hne : content ≠ "")
    (ht : orStr body.recipient body.group = some target) :
    (∀ (r : String) (recipient : ObjectId) (sender tgt : User), body.recipient = some r →
      castObjectId r = some recipient →
      User.findById st.users user = some sender → User.findById st.users recipient = some tgt →
      ((sender.blocked.map hexString).contains r = true ∨ user ∈ tgt.blocked) →
      sendMessage isProfane now newId st user body =
        ⟨⟨403, .error "You cannot message this user."⟩, st, []⟩) ∧
    (blockGate st user body.recipient = none → isProfane content = true →
      sendMessage isProfane now newId st user body =
        ⟨⟨400, .error "Message contains inappropriate language."⟩, st, []⟩) ∧
    (blockGate st user body.recipient = none → isProfane content = false →
      isRepeat st.lastMessages (spamKey user target) content now = true →
      sendMessage isProfane now newId st user body =
        ⟨⟨429, .error "Please do not send repeated messages."⟩, st, []⟩) ∧
    ((sendMessage isProfane now newId st user body).res =
          ⟨403, .error "You cannot message this user."⟩ ∨
        (sendMessage isProfane now newId st user body).res =
          ⟨400, .error "Message contains inappropriate language."⟩ →
      (sendMessage isProfane now newId st user body).state = st ∧
        (sendMessage isProfane now newId st user body).posts = []) := by
  refine ⟨?_, ?_, ?_, ?_⟩
  · intro r recipient sender tgt hr hcast hs htg hblock
    exact sendMessage_blocked isProfane now newId st user recipient r sender tgt body content hs
      hcast htg hblock hc hne hr
  · intro hb hp
    unfold sendMessage
    simp [hc, ht, hne, hb, hp]
  · intro hb hp hrep
    rw [sendMessage_past_gate isProfane now newId st user body content target hc hne ht hb hp,
      hrep]
    simp
  · intro h
    apply sendMessage_state_of_rejected
    rcases h with h | h <;> rw [h] <;> simp

/-- C4, the code at the failing input: user 10 has user 11 in the block-list and sends the
flagged word to user 11.  With the recipient named by the upper-case spelling of its id the
block check passes and the answer is the 400 of the profanity check; with the lower-case
spelling the answer is the 403 of the block check.  The other half of the order holds: a
flagged word that repeats the recorded last send within 10 s is answered 400, not 429, and
nothing changes. -/
theorem sendMessage_respelled_blocked_profane :
    User.findById exLettersBlocked.users 10 = some ⟨10, false, [11], false, []⟩ ∧
    castObjectId exUpper = some 11 ∧ exProfane "darn" = true ∧
    sendMessage exProfane 0 100 exLettersBlocked 10 ⟨some exUpper, none, some "darn", none, none⟩
      = ⟨⟨400, .error "Message contains inappropriate language."⟩, exLettersBlocked, []⟩ ∧
    sendMessage exProfane 0 100 exLettersBlocked 10 ⟨some exLower, none, some "darn", none, none⟩
      = ⟨⟨403, .error "You cannot message this user."⟩, exLettersBlocked, []⟩ ∧
    isRepeat [(spamKey 1 (hexString 2), ⟨"darn", 0⟩)] (spamKey 1 (hexString 2)) "darn" 5000
      = true ∧
    sendMessage exProfane 5000 100
        ⟨exState.users, [], [(spamKey 1 (hexString 2), ⟨"darn", 0⟩)]⟩ 1 (exBody "darn") =
      ⟨⟨400, .error "Message contains inappropriate language."⟩,
        ⟨exState.users, [], [(spamKey 1 (hexString 2), ⟨"darn", 0⟩)]⟩, []⟩ := by
  decide

/-- The messages after `sendMessage`: the ones before, and at most one new one, built by
`Message.create` from the fields of the body. -/
theorem sendMessage_messages (isProfane : String → Bool) (now : Int) (newId : ObjectId)
    (st : State) (user : ObjectId) (body : SendBody) :
    (sendMessage isProfane now newId st user body).state.messages = st.messages ∨
    ∃ content m, body.content = some content ∧
      createFromPayload newId user body.recipient body.group content body.attachment
        body.parentMessage = some m ∧
      orStr body.recipient body.group ≠ none ∧
      (sendMessage isProfane now newId st user body).res = ⟨201, .message m⟩ ∧
      (sendMessage isProfane now newId st user body).state.messages = st.messages ++ [m] := by
  unfold sendMessage
  split
  · rename_i content target hc ht
    split
    · exact Or.inl rfl
    · split
      · exact Or.inl rfl
      · split
        · exact Or.inl rfl
        · split
          · exact Or.inl rfl
          · split
            · exact Or.inl rfl
            · rename_i m hm
              refine Or.inr ⟨content, m, hc, hm, ?_, rfl, rfl⟩
              rw [ht]
              simp
  · exact Or.inl rfl

theorem create_fields {newId sender : ObjectId} {recipient group : Option ObjectId}
    {content : String} {attachment : Option String} {parentMessage : Option ObjectId}
    {m : Message}
    (h : Message.create newId sender recipient group content attachment parentMessage = some m) :
    jsTrim content ≠ "" ∧
    m = { _id := newId, sender := sender, recipient := recipient, group := group,
          content := jsTrim content, attachment := attachment.getD "",
          read := false, edited := false, deleted := false, reactions := [],
          parentMessage := parentMessage } := by
  unfold Message.create at h
  split at h
  · simp at h
  · rename_i hne
    simp only [Option.some.injEq] at h
    exact ⟨hne, h.symm⟩

theorem orJs_ne_none {a b : Option ObjectId} (h : orJs a b ≠ none) : a ≠ none ∨ b ≠ none := by
  cases a with
  | some x => exact Or.inl (by simp)
  | none => exact Or.inr (by simpa [orJs] using h)

/-- A truthy field that casts gives an id, not a missing value. -/
theorem castField_of_truthy {a : Option String} {x : Option ObjectId}
    (ht : truthy a = true) (hc : castField a = some x) : x ≠ none := by
  cases a with
  | none => simp [truthy] at ht
  | some s =>
    simp only [castField] at hc
    cases hs : castObjectId s with
    | none => simp [hs] at hc
    | some id =>
      simp only [hs, Option.map_some', Option.some.injEq] at hc
      rw [← hc]
      simp

/-- When one of two fields is truthy and both cast, one of the cast values is an id. -/
theorem cast_addressed {a b : Option String} {x y : Option ObjectId}
    (h : orStr a b ≠ none) (ha : castField a = some x) (hb : castField b = some y) :
    x ≠ none ∨ y ≠ none := by
  unfold orStr at h
  by_cases h1 : truthy a = true
  · exact Or.inl (castField_of_truthy h1 ha)
  · rw [if_neg h1] at h
    by_cases h2 : truthy b = true
    · exact Or.inr (castField_of_truthy h2 hb)
    · rw [if_neg h2] at h
      exact absurd rfl h

/-- The messages after `message:send`: the ones before, and at most one new one. -/
theorem onMessageSend_messages (newId : ObjectId) (st : State) (socketUser : ObjectId)
    (data : SendData) :
    (onMessageSend newId st socketUser data = ⟨st, [], .ignored⟩ ∨
      onMessageSend newId st socketUser data = ⟨st, [], .threw⟩) ∨
    ∃ content m, data.content = some content ∧
      createFromPayload newId socketUser data.recipient data.group content data.attachment none
        = some m ∧
      orStr data.recipient data.group ≠ none ∧
      onMessageSend newId st socketUser data =
        ⟨{ st with messages := st.messages ++ [m] },
          .persist m :: emitTo data.recipient data.group "message:receive" (.message m),
          .completed⟩ := by
  unfold onMessageSend
  split
  · rename_i content target hc ht
    split
    · exact Or.inl (Or.inl rfl)
    · split
      · exact Or.inl (Or.inr rfl)
      · rename_i m hm
        refine Or.inr ⟨content, m, hc, hm, ?_, rfl⟩
        rw [ht]
        simp
  · exact Or.inl (Or.inl rfl)

/-- With a truthy recipient in the body and a group that casts, the status of the answer
and the spam window do not depend on the group field. -/
theorem sendMessage_group_ignored_with_recipient (isProfane : String → Bool) (now : Int)
    (newId : ObjectId) (st : State) (user : ObjectId) (body : SendBody) (r : String)
    (g : Option ObjectId) (hr : body.recipient = some r) (hrne : r ≠ "")
    (hg : castField body.group = some g) :
    (sendMessage isProfane now newId st user body).res.status =
        (sendMessage isProfane now newId st user { body with group := none }).res.status ∧
      (sendMessage isProfane now newId st user body).state.lastMessages =
        (sendMessage isProfane now newId st user { body with group := none }).state.lastMessages := by
  unfold sendMessage
  simp only [hr, orStr_some_left hrne]
  cases body.content with
  | none => exact ⟨rfl, rfl⟩
  | some content =>
    simp only
    split
    · exact ⟨rfl, rfl⟩
    · split
      · exact ⟨rfl, rfl⟩
      · split
        · exact ⟨rfl, rfl⟩
        · split
          · exact ⟨rfl, rfl⟩
          · simp only [createFromPayload, hg,
              show castField (none : Option String) = some none from rfl,
              show castField (some r) = (castObjectId r).map some from rfl]
            cases castObjectId r with
            | none => simp
            | some rid =>
              simp only [Option.map_some', Message.create]
              by_cases htrim : jsTrim content = ""
              · simp [htrim]
              · simp [htrim]

/-- C5, counterexample: a payload with recipient 2 and group 7 is accepted on both paths,
and the message stored has both fields set. -/
theorem send_with_recipient_and_group_stored :
    (sendMessage exProfane 0 100 exState 1
        ⟨some (hexString 2), some (hexString 7), some "hi", none, none⟩).res.status = 201 ∧
    (sendMessage exProfane 0 100 exState 1
        ⟨some (hexString 2), some (hexString 7), some "hi", none, none⟩).state.messages
      = [⟨100, 1, some 2, some 7, "hi", "", false, false, false, [], none⟩] ∧
    (onMessageSend 100 exState 1
        ⟨some (hexString 2), some (hexString 7), some "hi", none⟩).state.messages
      = [⟨100, 1, some 2, some 7, "hi", "", false, false, false, [], none⟩] := by
  decide

/-- C5, amended: every message created by `sendMessage` or by the `message:send` handler has
at least one of recipient and group set, and carries both fields as the payload gave them
(the ids that the strings of the payload cast to): a payload with neither is refused (400
on the request path, dropped on the connection path) and nothing is stored; a payload with
both is not refused for that: on the request path it is answered with the status of the
same body without the group, on the connection path it is stored with both fields set
whenever its trimmed content is not empty, and emitted to the room of the recipient only. -/
theorem created_message_addressed (isProfane : String → Bool) (now : Int) (newId : ObjectId)
    (st : State) (user : ObjectId) :
    (∀ body : SendBody,
      ((sendMessage isProfane now newId st user body).state.messages = st.messages ∨
        ∃ m, (sendMessage isProfane now newId st user body).state.messages = st.messages ++ [m] ∧
          castField body.recipient = some m.recipient ∧ castField body.group = some m.group ∧
          (m.recipient ≠ none ∨ m.group ≠ none)) ∧
      (truthy body.recipient = false → truthy body.group = false →
        sendMessage isProfane now newId st user body =
          ⟨⟨400, .error "Content and recipient or group required."⟩, st, []⟩) ∧
      (∀ r g, body.recipient = some r → r ≠ "" → castField body.group = some g →
        (sendMessage isProfane now newId st user body).res.status =
          (sendMessage isProfane now newId st user { body with group := none }).res.status)) ∧
    (∀ data : SendData,
      ((onMessageSend newId st user data).state.messages = st.messages ∨
        ∃ m, (onMessageSend newId st user data).state.messages = st.messages ++ [m] ∧
          castField data.recipient = some m.recipient ∧ castField data.group = some m.group ∧
          (m.recipient ≠ none ∨ m.group ≠ none)) ∧
      (truthy data.recipient = false → truthy data.group = false →
        onMessageSend newId st user data = ⟨st, [], .ignored⟩) ∧
      (∀ (r g : String) (rid gid : ObjectId) (content : String), data.recipient = some r →
        data.group = some g → castObjectId r = some rid → castObjectId g = some gid →
        data.content = some content → jsTrim content ≠ "" →
        ∃ m, m.recipient = some rid ∧ m.group = some gid ∧
          onMessageSend newId st user data =
            ⟨{ st with messages := st.messages ++ [m] },
              [.persist m, .emit r "message:receive" (.message m)], .completed⟩)) := by
  constructor
  · intro body
    constructor
    · rcases sendMessage_messages isProfane now newId st user body with h | ⟨c, m, _, hm, ht, _, hs⟩
      · exact Or.inl h
      · obtain ⟨r, g, hr, hg, _, hfields⟩ := createFromPayload_some hm
        refine Or.inr ⟨m, hs, ?_, ?_, ?_⟩
        · rw [hfields]; exact hr
        · rw [hfields]; exact hg
        · rw [hfields]
          exact cast_addressed ht hr hg
    constructor
    · intro hr hg
      unfold sendMessage
      simp [orStr, hr, hg]
    · intro r g hr hrne hg
      exact (sendMessage_group_ignored_with_recipient isProfane now newId st user body r g hr
        hrne hg).1
  · intro data
    refine ⟨?_, ?_, ?_⟩
    · rcases onMessageSend_messages newId st user data with h | ⟨c, m, _, hm, ht, hs⟩
      · rcases h with h | h <;> exact Or.inl (by rw [h])
      · obtain ⟨r, g, hr, hg, _, hfields⟩ := createFromPayload_some hm
        refine Or.inr ⟨m, by rw [hs], ?_, ?_, ?_⟩
        · rw [hfields]; exact hr
        · rw [hfields]; exact hg
        · rw [hfields]
          exact cast_addressed ht hr hg
    · intro hr hg
      unfold onMessageSend
      simp [orStr, hr, hg]
    · intro r g rid gid content hr hg hcr hcg hc htrim
      have hrne : r ≠ "" := by
        intro h
        rw [h, castObjectId_empty] at hcr
        cases hcr
      refine ⟨⟨newId, user, some rid, some gid, jsTrim content, data.attachment.getD "", false,
        false, false, [], none⟩, rfl, rfl, ?_⟩
      unfold onMessageSend
      simp [hr, hg, hc, orStr_some_left hrne, ne_empty_of_jsTrim_ne htrim, createFromPayload,
        castField, hcr, hcg, Message.create, htrim, emitTo]

/-- C5, witness: a payload without recipient and group is answered 400, resp. dropped; the
payload with recipient 2 and group 7 is stored by the handler with both fields set. -/
theorem created_message_addressed_witness :
    sendMessage exProfane 0 100 exState 1 ⟨none, none, some "hi", none, none⟩ =
      ⟨⟨400, .error "Content and recipient or group required."⟩, exState, []⟩ ∧
    onMessageSend 100 exState 1 ⟨none, none, some "hi", none⟩ = ⟨exState, [], .ignored⟩ ∧
    ∃ m, m.recipient = some 2 ∧ m.group = some 7 ∧
      onMessageSend 100 exState 1 ⟨some (hexString 2), some (hexString 7), some "hi", none⟩ =
        ⟨{ exState with messages := exState.messages ++ [m] },
          [.persist m, .emit (hexString 2) "message:receive" (.message m)], .completed⟩ :=
  ⟨((created_message_addressed exProfane 0 100 exState 1).1
      ⟨none, none, some "hi", none, none⟩).2.1 rfl rfl,
   ((created_message_addressed exProfane 0 100 exState 1).2
      ⟨none, none, some "hi", none⟩).2.1 rfl rfl,
   ((created_message_addressed exProfane 0 100 exState 1).2
      ⟨some (hexString 2), some (hexString 7), some "hi", none⟩).2.2 (hexString 2) (hexString 7)
      2 7 "hi" rfl rfl (by decide) (by decide) rfl (by decide)⟩

/-! ## Edit and delete -/

theorem findMessage_id {msgs : List Message} {id : ObjectId} {m : Message}
    (h : Message.findById msgs id = some m) : m._id = id := by
  unfold Message.findById at h
  have := List.find?_some h
  simpa using this

theorem findMessage_replaceMessage_self (m : Message) (msgs : List Message) (m0 : Message)
    (h : Message.findById msgs m._id = some m0) :
    Message.findById (replaceMessage m msgs) m._id = some m := by
  induction msgs with
  | nil => simp [Message.findById] at h
  | cons x rest ih =>
    by_cases hx : x._id = m._id
    · simp [replaceMessage, Message.findById, hx]
    · have h' : Message.findById rest m._id = some m0 := by
        simpa [Message.findById, List.find?_cons, hx] using h
      have := ih h'
      simpa [replaceMessage, Message.findById, List.find?_cons, hx] using this

theorem findMessage_replaceMessage_of_ne (m : Message) (msgs : List Message) {id : ObjectId}
    (h : id ≠ m._id) :
    Message.findById (replaceMessage m msgs) id = Message.findById msgs id := by
  induction msgs with
  | nil => rfl
  | cons x rest ih =>
    by_cases hx : x._id = m._id
    · have hx' : ¬ x._id = id := fun e => h (e ▸ hx)
      simp [replaceMessage, Message.findById, List.find?_cons, hx, hx', Ne.symm h]
    · by_cases hid : x._id = id
      · subst hid
        simp [replaceMessage, Message.findById, List.find?_cons, hx]
      · have := ih
        simpa [replaceMessage, Message.findById, List.find?_cons, hx, hid] using this

theorem replaceMessage_idem (m : Message) (msgs : List Message) :
    replaceMessage m (replaceMessage m msgs) = replaceMessage m msgs := by
  induction msgs with
  | nil => rfl
  | cons x rest ih =>
    by_cases hx : x._id = m._id
    · simp [replaceMessage, hx]
    · simp [replaceMessage, hx, ih]

theorem replaceMessage_of_findById (m : Message) (msgs : List Message)
    (h : Message.findById msgs m._id = some m) : replaceMessage m msgs = msgs := by
  induction msgs with
  | nil => rfl
  | cons x rest ih =>
    by_cases hx : x._id = m._id
    · have : x = m := by simpa [Message.findById, List.find?_cons, hx] using h
      simp [replaceMessage, hx, this]
    · have h' : Message.findById rest m._id = some m := by
        simpa [Message.findById, List.find?_cons, hx] using h
      simp [replaceMessage, hx, ih h']

theorem replaceMessage_length (m : Message) (msgs : List Message) :
    (replaceMessage m msgs).length = msgs.length := by
  induction msgs with
  | nil => rfl
  | cons x rest ih =>
    by_cases hx : x._id = m._id
    · simp [replaceMessage, hx]
    · simp [replaceMessage, hx, ih]

/-- The successful path of `editMessage`. -/
theorem editMessage_ok (st : State) (user : ObjectId) (body : EditBody) (id : ObjectId)
    (content : String) (m : Message) (hid : body.messageId = some id)
    (hc : body.content = some content) (htrim : jsTrim content ≠ "")
    (hm : Message.findById st.messages id = some m) (hs : m.sender = user)
    (hd : m.deleted = false) :
    editMessage st user body =
      ⟨⟨200, .message { m with content := jsTrim content, edited := true }⟩,
        { st with
          messages := replaceMessage { m with content := jsTrim content, edited := true }
            st.messages }, []⟩ := by
  unfold editMessage
  simp [hid, hc, ne_empty_of_jsTrim_ne htrim, hm, hs, hd, htrim]

/-- Every other path of `editMessage` leaves the state as it was. -/
theorem editMessage_cases (st : State) (user : ObjectId) (body : EditBody) :
    (∃ id content m, body.messageId = some id ∧ body.content = some content ∧
        jsTrim content ≠ "" ∧ Message.findById st.messages id = some m ∧ m.sender = user ∧
        m.deleted = false) ∨
    ((editMessage st user body).state = st ∧
      ((editMessage st user body).res.status = 400 ∨ (editMessage st user body).res.status = 404 ∨
        (editMessage st user body).res.status = 403 ∨
        ((editMessage st user body).res.status = 500 ∧
          ∃ content, body.content = some content ∧ content ≠ "" ∧ jsTrim content = ""))) := by
  unfold editMessage
  split
  · rename_i id content hid hc
    split
    · exact Or.inr ⟨rfl, Or.inl rfl⟩
    · rename_i hne
      split
      · exact Or.inr ⟨rfl, Or.inr (Or.inl rfl)⟩
      · rename_i m hm
        split
        · exact Or.inr ⟨rfl, Or.inr (Or.inr (Or.inl rfl))⟩
        · rename_i hs
          split
          · exact Or.inr ⟨rfl, Or.inl rfl⟩
          · rename_i hd
            by_cases htrim : jsTrim content = ""
            · refine Or.inr ?_
              have hres : (if jsTrim content = "" then
                    (⟨⟨500, .serverError⟩, st, []⟩ : HttpResult)
                  else
                    ⟨⟨200, .message { m with content := jsTrim content, edited := true }⟩,
                      { st with
                        messages := replaceMessage
                          { m with content := jsTrim content, edited := true } st.messages },
                      []⟩) = ⟨⟨500, .serverError⟩, st, []⟩ := if_pos htrim
              exact ⟨congrArg HttpResult.state hres,
                Or.inr (Or.inr (Or.inr ⟨congrArg (fun r => r.res.status) hres, content, hc, hne,
                  htrim⟩))⟩
            · exact Or.inl ⟨id, content, m, hid, hc, htrim, hm, by simpa using hs,
                by simpa using hd⟩
  · exact Or.inr ⟨rfl, Or.inl rfl⟩

/-- C6, counterexample: user 1 edits the own, stored, not deleted message 50 with the
non-empty content of one blank: the answer is 500, not 200; and with " hi " the content
stored is "hi", not the content sent. -/
theorem editMessage_blank_not_200 :
    Message.findById exStored.messages 50 = some exMessage ∧ exMessage.sender = 1 ∧
    exMessage.deleted = false ∧
    (editMessage exStored 1 ⟨some 50, some " "⟩).res = ⟨500, .serverError⟩ ∧
    ((editMessage exStored 1 ⟨some 50, some " hi "⟩).state.messages.map (fun m => m.content))
      = ["hi"] := by
  decide

/-- C6, amended: for every requester and body whose content has a non-empty trimmed form,
`editMessage` is answered 200 if and only if the message exists, its sender is the
requester and it is not marked deleted, and 404, 403 or 400 otherwise; on success the stored
message is the old one with the trimmed content and `edited` true; whenever the answer is
not 200 (a blank content is answered 500) the state is unchanged; and the same edit applied
a second time leaves the state of the first. -/
theorem editMessage_spec (st : State) (user : ObjectId) (body : EditBody) :
    (∀ content, body.content = some content → jsTrim content ≠ "" →
      ((editMessage st user body).res.status = 200 ↔
        ∃ id m, body.messageId = some id ∧ Message.findById st.messages id = some m ∧
          m.sender = user ∧ m.deleted = false) ∧
      ((editMessage st user body).res.status = 200 ∨ (editMessage st user body).res.status = 404 ∨
        (editMessage st user body).res.status = 403 ∨
        (editMessage st user body).res.status = 400)) ∧
    (∀ id content m, body.messageId = some id → body.content = some content →
      jsTrim content ≠ "" → Message.findById st.messages id = some m → m.sender = user →
      m.deleted = false →
      (editMessage st user body).res =
          ⟨200, .message { m with content := jsTrim content, edited := true }⟩ ∧
        (editMessage st user body).state =
          { st with
            messages := replaceMessage { m with content := jsTrim content, edited := true }
              st.messages } ∧
        Message.findById (editMessage st user body).state.messages id =
          some { m with content := jsTrim content, edited := true }) ∧
    ((editMessage st user body).res.status ≠ 200 → (editMessage st user body).state = st) ∧
    (editMessage (editMessage st user body).state user body).state =
      (editMessage st user body).state := by
  have hok : ∀ id content m, body.messageId = some id → body.content = some content →
      jsTrim content ≠ "" → Message.findById st.messages id = some m → m.sender = user →
      m.deleted = false →
      Message.findById (editMessage st user body).state.messages id =
          some { m with content := jsTrim content, edited := true } := by
    intro id content m hid hc htrim hm hs hd
    rw [editMessage_ok st user body id content m hid hc htrim hm hs hd]
    have hmid : m._id = id := findMessage_id hm
    have := findMessage_replaceMessage_self
      { m with content := jsTrim content, edited := true } st.messages m
      (by show Message.findById st.messages m._id = some m; rw [hmid]; exact hm)
    rw [← hmid]
    exact this
  refine ⟨?_, ?_, ?_, ?_⟩
  · intro content hc htrim
    rcases editMessage_cases st user body with ⟨id, c, m, hid, hc', htrim', hm, hs, hd⟩ | ⟨_, hst⟩
    · rw [editMessage_ok st user body id c m hid hc' htrim' hm hs hd]
      exact ⟨⟨fun _ => ⟨id, m, hid, hm, hs, hd⟩, fun _ => rfl⟩, Or.inl rfl⟩
    · have hnot : (editMessage st user body).res.status ≠ 200 := by
        rcases hst with h | h | h | ⟨h, _⟩ <;> rw [h] <;> decide
      constructor
      · constructor
        · intro h
          exact absurd h hnot
        · rintro ⟨id, m, hid, hm, hs, hd⟩
          rw [editMessage_ok st user body id content m hid hc htrim hm hs hd]
      · rcases hst with h | h | h | ⟨_, c, hc', _, hblank⟩
        · exact Or.inr (Or.inr (Or.inr h))
        · exact Or.inr (Or.inl h)
        · exact Or.inr (Or.inr (Or.inl h))
        · rw [hc] at hc'
          cases hc'
          exact absurd hblank htrim
  · intro id content m hid hc htrim hm hs hd
    refine ⟨?_, ?_, hok id content m hid hc htrim hm hs hd⟩
    · rw [editMessage_ok st user body id content m hid hc htrim hm hs hd]
    · rw [editMessage_ok st user body id content m hid hc htrim hm hs hd]
  · intro hnot
    rcases editMessage_cases st user body with ⟨id, c, m, hid, hc', htrim', hm, hs, hd⟩ | ⟨h, _⟩
    · rw [editMessage_ok st user body id c m hid hc' htrim' hm hs hd] at hnot
      exact absurd rfl hnot
    · exact h
  · rcases editMessage_cases st user body with ⟨id, c, m, hid, hc', htrim', hm, hs, hd⟩ | ⟨h, _⟩
    · have h1 := hok id c m hid hc' htrim' hm hs hd
      rw [editMessage_ok _ user body id c { m with content := jsTrim c, edited := true } hid hc'
        htrim' h1 hs hd]
      rw [editMessage_ok st user body id c m hid hc' htrim' hm hs hd]
      simp [replaceMessage_idem]
    · rw [h, h]

/-- C6, witness: user 1 edits the own message 50 with "hi there" and is answered 200, the
stored message has the new content and `edited` true; user 2 is refused and nothing
changes. -/
theorem editMessage_spec_witness :
    (editMessage exStored 1 ⟨some 50, some "hi there"⟩).res =
      ⟨200, .message { exMessage with content := jsTrim "hi there", edited := true }⟩ ∧
    Message.findById (editMessage exStored 1 ⟨some 50, some "hi there"⟩).state.messages 50 =
      some { exMessage with content := jsTrim "hi there", edited := true } ∧
    (editMessage exStored 2 ⟨some 50, some "hi there"⟩).state = exStored :=
  ⟨((editMessage_spec exStored 1 ⟨some 50, some "hi there"⟩).2.1 50 "hi there" exMessage rfl rfl
      (by decide) (by decide) (by decide) (by decide)).1,
   ((editMessage_spec exStored 1 ⟨some 50, some "hi there"⟩).2.1 50 "hi there" exMessage rfl rfl
      (by decide) (by decide) (by decide) (by decide)).2.2,
   (editMessage_spec exStored 2 ⟨some 50, some "hi there"⟩).2.2.1 (by decide)⟩

/-- The successful path of the `message:edit` handler. -/
theorem onMessageEdit_ok (st : State) (user : ObjectId) (data : EditData) (id : ObjectId)
    (content : String) (m : Message) (hid : data.messageId = some id)
    (hc : data.content = some content) (htrim : jsTrim content ≠ "")
    (hm : Message.findById st.messages id = some m) (hs : m.sender = user)
    (hd : m.deleted = false) :
    onMessageEdit st user data =
      ⟨{ st with
          messages := replaceMessage { m with content := jsTrim content, edited := true }
            st.messages },
        .persist { m with content := jsTrim content, edited := true } ::
          emitTo data.recipient data.group "message:edit"
            (.message { m with content := jsTrim content, edited := true }),
        .completed⟩ := by
  unfold onMessageEdit
  simp [hid, hc, ne_empty_of_jsTrim_ne htrim, hm, hs, hd, htrim]

/-- Every other path of the `message:edit` handler does nothing. -/
theorem onMessageEdit_cases (st : State) (user : ObjectId) (data : EditData) :
    (∃ id content m, data.messageId = some id ∧ data.content = some content ∧
        jsTrim content ≠ "" ∧ Message.findById st.messages id = some m ∧ m.sender = user ∧
        m.deleted = false) ∨
    onMessageEdit st user data = ⟨st, [], .ignored⟩ ∨
    onMessageEdit st user data = ⟨st, [], .threw⟩ := by
  unfold onMessageEdit
  split
  · rename_i id content hid hc
    split
    · exact Or.inr (Or.inl rfl)
    · split
      · exact Or.inr (Or.inl rfl)
      · rename_i m hm
        split
        · exact Or.inr (Or.inl rfl)
        · rename_i hsd
          by_cases htrim : jsTrim content = ""
          · exact Or.inr (Or.inr (if_pos htrim))
          · refine Or.inl ⟨id, content, m, hid, hc, htrim, hm, ?_, ?_⟩
            · simp at hsd
              exact hsd.1
            · simp at hsd
              exact hsd.2
  · exact Or.inr (Or.inl rfl)

/-- The successful path of `deleteMessage`. -/
theorem deleteMessage_ok (st : State) (user id : ObjectId) (m : Message)
    (hm : Message.findById st.messages id = some m) (hs : m.sender = user) :
    deleteMessage st user (some id) =
      ⟨⟨200, .message { m with deleted := true }⟩,
        { st with messages := replaceMessage { m with deleted := true } st.messages }, []⟩ := by
  unfold deleteMessage
  simp [hm, hs]

/-- Every other path of `deleteMessage` leaves the state as it was. -/
theorem deleteMessage_cases (st : State) (user : ObjectId) (messageId : Option ObjectId) :
    (∃ id m, messageId = some id ∧ Message.findById st.messages id = some m ∧ m.sender = user) ∨
    ((deleteMessage st user messageId).state = st ∧
      ((deleteMessage st user messageId).res.status = 400 ∨
        (deleteMessage st user messageId).res.status = 404 ∨
        (deleteMessage st user messageId).res.status = 403)) := by
  unfold deleteMessage
  split
  · exact Or.inr ⟨rfl, Or.inl rfl⟩
  · rename_i id
    split
    · exact Or.inr ⟨rfl, Or.inr (Or.inl rfl)⟩
    · rename_i m hm
      split
      · exact Or.inr ⟨rfl, Or.inr (Or.inr rfl)⟩
      · rename_i hs
        exact Or.inl ⟨id, m, rfl, hm, by simpa using hs⟩

/-- The successful path of the `message:delete` handler. -/
theorem onMessageDelete_ok (st : State) (user : ObjectId) (data : DeleteData) (id : ObjectId)
    (m : Message) (hid : data.messageId = some id)
    (hm : Message.findById st.messages id = some m) (hs : m.sender = user) :
    onMessageDelete st user data =
      ⟨{ st with messages := replaceMessage { m with deleted := true } st.messages },
        .persist { m with deleted := true } ::
          emitTo data.recipient data.group "message:delete" (.messageId id),
        .completed⟩ := by
  unfold onMessageDelete
  simp [hid, hm, hs]

/-- Every other path of the `message:delete` handler does nothing. -/
theorem onMessageDelete_cases (st : State) (user : ObjectId) (data : DeleteData) :
    (∃ id m, data.messageId = some id ∧ Message.findById st.messages id = some m ∧
        m.sender = user) ∨
    onMessageDelete st user data = ⟨st, [], .ignored⟩ := by
  unfold onMessageDelete
  split
  · exact Or.inr rfl
  · rename_i id hid
    split
    · exact Or.inr rfl
    · rename_i m hm
      split
      · exact Or.inr rfl
      · rename_i hs
        exact Or.inl ⟨id, m, hid, hm, by simpa using hs⟩

/-- The two edit paths leave the same state. -/
theorem onMessageEdit_state (st : State) (user : ObjectId) (data : EditData) :
    (onMessageEdit st user data).state =
      (editMessage st user ⟨data.messageId, data.content⟩).state := by
  rcases editMessage_cases st user ⟨data.messageId, data.content⟩ with
    ⟨id, c, m, hid, hc, htrim, hm, hs, hd⟩ | ⟨h, _⟩
  · rw [editMessage_ok st user _ id c m hid hc htrim hm hs hd,
      onMessageEdit_ok st user data id c m hid hc htrim hm hs hd]
  · rw [h]
    rcases onMessageEdit_cases st user data with ⟨id, c, m, hid, hc, htrim, hm, hs, hd⟩ | h' | h'
    · rw [editMessage_ok st user ⟨data.messageId, data.content⟩ id c m hid hc htrim hm hs hd] at h
      rw [onMessageEdit_ok st user data id c m hid hc htrim hm hs hd]
      exact h
    · rw [h']
    · rw [h']

/-- An edit request on the request path leaves a message marked deleted as it is. -/
theorem editMessage_keeps_deleted (st : State) (user : ObjectId) (body : EditBody)
    (id : ObjectId) (m : Message) (hm : Message.findById st.messages id = some m)
    (hd : m.deleted = true) :
    Message.findById (editMessage st user body).state.messages id = some m := by
  rcases editMessage_cases st user body with ⟨id', c, m', hid, hc, htrim, hm', hs, hd'⟩ | ⟨h, _⟩
  · rw [editMessage_ok st user body id' c m' hid hc htrim hm' hs hd']
    by_cases hii : id = id'
    · subst hii
      rw [hm] at hm'
      cases hm'
      rw [hd] at hd'
      cases hd'
    · have hmid : m'._id = id' := findMessage_id hm'
      rw [show ({ st with
          messages := replaceMessage { m' with content := jsTrim c, edited := true }
            st.messages } : State).messages =
          replaceMessage { m' with content := jsTrim c, edited := true } st.messages from rfl,
        findMessage_replaceMessage_of_ne _ _ (by show id ≠ m'._id; rw [hmid]; exact hii)]
      exact hm
  · rw [h]
    exact hm

/-- No sequence of edit requests, on either path, changes a message marked deleted. -/
theorem applyEdits_keeps_deleted (ops : List EditOp) (st : State) (id : ObjectId) (m : Message)
    (hm : Message.findById st.messages id = some m) (hd : m.deleted = true) :
    Message.findById (applyEdits st ops).messages id = some m := by
  induction ops generalizing st with
  | nil => exact hm
  | cons op rest ih =>
    show Message.findById (applyEdits (applyEdit st op) rest).messages id = some m
    apply ih
    cases op with
    | http user body => exact editMessage_keeps_deleted st user body id m hm hd
    | socket user data =>
      show Message.findById (onMessageEdit st user data).state.messages id = some m
      rw [onMessageEdit_state]
      exact editMessage_keeps_deleted st user _ id m hm hd

/-- C7: `deleteMessage` is answered 200 if and only if the message exists and its sender is
the requester; on success the record stays in the store (same number of records) with
`deleted` true and every other field as before, also when it was already marked deleted
(then the state does not change at all); when the answer is not 200 the state is
unchanged; and no sequence of later edit requests, on the request path or the connection
path, changes a message marked deleted. -/
theorem deleteMessage_spec (st : State) (user : ObjectId) (messageId : Option ObjectId) :
    ((deleteMessage st user messageId).res.status = 200 ↔
      ∃ id m, messageId = some id ∧ Message.findById st.messages id = some m ∧
        m.sender = user) ∧
    (∀ id m, messageId = some id → Message.findById st.messages id = some m → m.sender = user →
      (deleteMessage st user messageId).res = ⟨200, .message { m with deleted := true }⟩ ∧
      (deleteMessage st user messageId).state =
        { st with messages := replaceMessage { m with deleted := true } st.messages } ∧
      Message.findById (deleteMessage st user messageId).state.messages id =
        some { m with deleted := true } ∧
      (deleteMessage st user messageId).state.messages.length = st.messages.length ∧
      (m.deleted = true → (deleteMessage st user messageId).state = st) ∧
      ∀ ops : List EditOp,
        Message.findById (applyEdits (deleteMessage st user messageId).state ops).messages id =
          some { m with deleted := true }) ∧
    ((deleteMessage st user messageId).res.status ≠ 200 →
      (deleteMessage st user messageId).state = st) := by
  have hfind : ∀ id m, Message.findById st.messages id = some m →
      Message.findById (replaceMessage { m with deleted := true } st.messages) id =
        some { m with deleted := true } := by
    intro id m hm
    have hmid : m._id = id := findMessage_id hm
    have := findMessage_replaceMessage_self { m with deleted := true } st.messages m
      (by show Message.findById st.messages m._id = some m; rw [hmid]; exact hm)
    rw [← hmid]
    exact this
  refine ⟨?_, ?_, ?_⟩
  · rcases deleteMessage_cases st user messageId with ⟨id, m, hid, hm, hs⟩ | ⟨_, hst⟩
    · subst hid
      rw [deleteMessage_ok st user id m hm hs]
      exact ⟨fun _ => ⟨id, m, rfl, hm, hs⟩, fun _ => rfl⟩
    · have hnot : (deleteMessage st user messageId).res.status ≠ 200 := by
        rcases hst with h | h | h <;> rw [h] <;> decide
      constructor
      · intro h
        exact absurd h hnot
      · rintro ⟨id, m, hid, hm, hs⟩
        subst hid
        rw [deleteMessage_ok st user id m hm hs]
  · intro id m hid hm hs
    subst hid
    rw [deleteMessage_ok st user id m hm hs]
    refine ⟨rfl, rfl, hfind id m hm, replaceMessage_length _ _, ?_, ?_⟩
    · intro hd
      have hmm : ({ m with deleted := true } : Message) = m := by
        cases m
        simp at hd
        simp [hd]
      have hmid : m._id = id := findMessage_id hm
      have : replaceMessage { m with deleted := true } st.messages = st.messages := by
        rw [hmm]
        exact replaceMessage_of_findById m st.messages (by rw [hmid]; exact hm)
      show ({ st with messages := replaceMessage { m with deleted := true } st.messages } : State)
        = st
      rw [this]
    · intro ops
      exact applyEdits_keeps_deleted ops _ id _ (hfind id m hm) rfl
  · intro hnot
    rcases deleteMessage_cases st user messageId with ⟨id, m, hid, hm, hs⟩ | ⟨h, _⟩
    · subst hid
      rw [deleteMessage_ok st user id m hm hs] at hnot
      exact absurd rfl hnot
    · exact h

/-- C7, witness: user 1 deletes the own message 50: the record stays, marked deleted, and an
edit by user 1 on the request path followed by one on the connection path leaves it as it
is; user 2 is refused and nothing changes. -/
theorem deleteMessage_spec_witness :
    (deleteMessage exStored 1 (some 50)).res = ⟨200, .message { exMessage with deleted := true }⟩ ∧
    Message.findById (applyEdits (deleteMessage exStored 1 (some 50)).state
        [.http 1 ⟨some 50, some "new"⟩, .socket 1 ⟨some 50, some "newer", some (hexString 2), none⟩]).messages
        50 = some { exMessage with deleted := true } ∧
    (deleteMessage exStored 2 (some 50)).state = exStored :=
  ⟨((deleteMessage_spec exStored 1 (some 50)).2.1 50 exMessage rfl (by decide) (by decide)).1,
   ((deleteMessage_spec exStored 1 (some 50)).2.1 50 exMessage rfl (by decide)
      (by decide)).2.2.2.2.2 _,
   (deleteMessage_spec exStored 2 (some 50)).2.2 (by decide)⟩

/-! ## The two paths -/

/-- C8: for every state, user and payload, the `message:edit` handler and `editMessage`
leave the same state, the handler writes a message exactly when `editMessage` answers 200
with that message, and does nothing when the answer is not 200; likewise the
`message:delete` handler and `deleteMessage`. -/
theorem socket_path_refines_request_path (st : State) (user : ObjectId) :
    (∀ data : EditData,
      (onMessageEdit st user data).state =
        (editMessage st user ⟨data.messageId, data.content⟩).state ∧
      ((onMessageEdit st user data).outcome = .completed ↔
        (editMessage st user ⟨data.messageId, data.content⟩).res.status = 200) ∧
      (∀ m, persisted (onMessageEdit st user data).effects = [m] ↔
        (editMessage st user ⟨data.messageId, data.content⟩).res = ⟨200, .message m⟩) ∧
      ((editMessage st user ⟨data.messageId, data.content⟩).res.status = 200 ∨
        ((onMessageEdit st user data).state = st ∧ (onMessageEdit st user data).effects = []))) ∧
    (∀ data : DeleteData,
      (onMessageDelete st user data).state = (deleteMessage st user data.messageId).state ∧
      ((onMessageDelete st user data).outcome = .completed ↔
        (deleteMessage st user data.messageId).res.status = 200) ∧
      (∀ m, persisted (onMessageDelete st user data).effects = [m] ↔
        (deleteMessage st user data.messageId).res = ⟨200, .message m⟩) ∧
      ((deleteMessage st user data.messageId).res.status = 200 ∨
        ((onMessageDelete st user data).state = st ∧
          (onMessageDelete st user data).effects = []))) := by
  have persisted_emitTo : ∀ (r g : Option String) (ev : String) (p : EmitPayload),
      persisted (emitTo r g ev p) = [] := by
    intro r g ev p
    unfold emitTo
    cases orStr r g <;> rfl
  constructor
  · intro data
    refine ⟨onMessageEdit_state st user data, ?_⟩
    rcases onMessageEdit_cases st user data with ⟨id, c, m, hid, hc, htrim, hm, hs, hd⟩ | h
    · rw [editMessage_ok st user ⟨data.messageId, data.content⟩ id c m hid hc htrim hm hs hd,
        onMessageEdit_ok st user data id c m hid hc htrim hm hs hd]
      refine ⟨⟨fun _ => rfl, fun _ => rfl⟩, ?_, Or.inl rfl⟩
      intro m'
      simp [persisted, persisted_emitTo]
    · have hnot : (editMessage st user ⟨data.messageId, data.content⟩).res.status ≠ 200 := by
        rcases editMessage_cases st user ⟨data.messageId, data.content⟩ with
          ⟨id, c, m, hid, hc, htrim, hm, hs, hd⟩ | ⟨_, hst⟩
        · rw [onMessageEdit_ok st user data id c m hid hc htrim hm hs hd] at h
          rcases h with h | h <;> simp at h
        · rcases hst with h' | h' | h' | ⟨h', _⟩ <;> rw [h'] <;> decide
      have hnot' : ∀ m, (editMessage st user ⟨data.messageId, data.content⟩).res ≠
          ⟨200, .message m⟩ := by
        intro m hres
        exact hnot (by rw [hres])
      rcases h with h | h <;> rw [h] <;>
        exact ⟨⟨fun hh => by simp at hh, fun hh => absurd hh hnot⟩,
          fun m => ⟨fun hh => by simp [persisted] at hh, fun hh => absurd hh (hnot' m)⟩,
          Or.inr ⟨rfl, rfl⟩⟩
  · intro data
    rcases onMessageDelete_cases st user data with ⟨id, m, hid, hm, hs⟩ | h
    · rw [onMessageDelete_ok st user data id m hid hm hs, hid,
        deleteMessage_ok st user id m hm hs]
      refine ⟨rfl, ⟨fun _ => rfl, fun _ => rfl⟩, ?_, Or.inl rfl⟩
      intro m'
      simp [persisted, persisted_emitTo]
    · have hcase : (deleteMessage st user data.messageId).state = st ∧
          (deleteMessage st user data.messageId).res.status ≠ 200 := by
        rcases deleteMessage_cases st user data.messageId with ⟨id, m, hid, hm, hs⟩ | ⟨h1, hst⟩
        · rw [onMessageDelete_ok st user data id m hid hm hs] at h
          simp at h
        · exact ⟨h1, by rcases hst with h' | h' | h' <;> rw [h'] <;> decide⟩
      have hnot' : ∀ m, (deleteMessage st user data.messageId).res ≠ ⟨200, .message m⟩ := by
        intro m hres
        exact hcase.2 (by rw [hres])
      rw [h, hcase.1]
      exact ⟨rfl, ⟨fun hh => by simp at hh, fun hh => absurd hh hcase.2⟩,
        fun m => ⟨fun hh => by simp [persisted] at hh, fun hh => absurd hh (hnot' m)⟩,
        Or.inr ⟨rfl, rfl⟩⟩

/-! ## `message:send` on a connection -/

/-- On a connection authenticated as U1, for the payload whose recipient string casts to
U2 and whose content c has a non-empty trimmed form, the handler first stores one message
and then emits one event, `message:receive` to the room named by the recipient string, and
nothing else; the event carries the stored message, which has sender U1, recipient U2, the
trimmed c as content, and `deleted`, `edited` and `read` false; users and spam window are
untouched.  For a non-empty c whose trimmed form is empty, and for a recipient string that
does not cast, `Message.create` throws: nothing is stored, nothing is emitted, the handler
ends with the throw. -/
theorem onMessageSend_direct (newId : ObjectId) (st : State) (U1 : ObjectId) (r : String)
    (c : String) :
    (∀ U2, castObjectId r = some U2 → jsTrim c ≠ "" →
      onMessageSend newId st U1 ⟨some r, none, some c, none⟩ =
        ⟨{ st with
            messages := st.messages ++
              [⟨newId, U1, some U2, none, jsTrim c, "", false, false, false, [], none⟩] },
          [.persist ⟨newId, U1, some U2, none, jsTrim c, "", false, false, false, [], none⟩,
            .emit r "message:receive"
              (.message ⟨newId, U1, some U2, none, jsTrim c, "", false, false, false, [], none⟩)],
          .completed⟩) ∧
    (r ≠ "" → c ≠ "" → jsTrim c = "" ∨ castObjectId r = none →
      onMessageSend newId st U1 ⟨some r, none, some c, none⟩ = ⟨st, [], .threw⟩) := by
  constructor
  · intro U2 hcast htrim
    have hrne : r ≠ "" := by
      intro h
      rw [h, castObjectId_empty] at hcast
      cases hcast
    unfold onMessageSend
    simp [orStr_some_left hrne, ne_empty_of_jsTrim_ne htrim, createFromPayload, castField, hcast,
      Message.create, htrim, emitTo]
  · intro hrne hne h
    unfold onMessageSend
    rcases h with htrim | hcast
    · cases hcr : castObjectId r <;>
        simp [orStr_some_left hrne, hne, createFromPayload, castField, hcr, Message.create, htrim]
    · simp [orStr_some_left hrne, hne, createFromPayload, castField, hcast]

/-- C9, the code at the failing input: users 1 and 2 are connected on the sockets 10 and
20.  The `message:send` of user 1 with recipient 2 and the non-empty content of one blank
makes `Message.create` throw inside the handler, which has no `catch`: the step ends the
process, every socket is closed and the `message:send` of user 2 that follows is never
handled.  The request path answers the same payload with 500 and goes on.  With the content
" hi " the handler stores and emits a message whose content is "hi". -/
theorem onMessageSend_blank_ends_process :
    onMessageSend 100 exState 1 ⟨some (hexString 2), none, some " ", none⟩ =
      ⟨exState, [], .threw⟩ ∧
    exits exConnected (.event 10 (.messageSend 100 ⟨some (hexString 2), none, some " ", none⟩))
      = true ∧
    (run exVerify exConnected
        [.event 10 (.messageSend 100 ⟨some (hexString 2), none, some " ", none⟩),
          .event 20 (.messageSend 101 ⟨some (hexString 1), none, some "hi", none⟩)]).conns.map
        (fun c => (c.sid, c.phase)) = [(10, .closed), (20, .closed)] ∧
    (run exVerify exConnected
        [.event 10 (.messageSend 100 ⟨some (hexString 2), none, some " ", none⟩),
          .event 20 (.messageSend 101 ⟨some (hexString 1), none, some "hi", none⟩)]).store.messages
      = [] ∧
    (run exVerify exConnected
        [.event 20 (.messageSend 101 ⟨some (hexString 1), none, some "hi", none⟩)]).store.messages
      = [⟨101, 2, some 1, none, "hi", "", false, false, false, [], none⟩] ∧
    (sendMessage exProfane 0 100 exState 1 (exBody " ")).res = ⟨500, .serverError⟩ ∧
    onMessageSend 100 exState 1 ⟨some (hexString 2), none, some " hi ", none⟩ =
      ⟨{ exState with
          messages := [⟨100, 1, some 2, none, "hi", "", false, false, false, [], none⟩] },
        [.persist ⟨100, 1, some 2, none, "hi", "", false, false, false, [], none⟩,
          .emit (hexString 2) "message:receive"
            (.message ⟨100, 1, some 2, none, "hi", "", false, false, false, [], none⟩)],
        .completed⟩ := by
  decide

/-- C10, the code at the failing input: user 1 sends "hi" to user 2 twice in a row on a
connection; the second run of the handler stores a second message and emits a second
`message:receive` to the room of user 2, and the spam window is still empty. -/
theorem onMessageSend_repeat_not_rejected :
    (onMessageSend 101
        (onMessageSend 100 exState 1 ⟨some (hexString 2), none, some "hi", none⟩).state 1
        ⟨some (hexString 2), none, some "hi", none⟩).state.messages =
      [⟨100, 1, some 2, none, "hi", "", false, false, false, [], none⟩,
        ⟨101, 1, some 2, none, "hi", "", false, false, false, [], none⟩] ∧
    emitted (onMessageSend 101
        (onMessageSend 100 exState 1 ⟨some (hexString 2), none, some "hi", none⟩).state 1
        ⟨some (hexString 2), none, some "hi", none⟩).effects =
      [(hexString 2, "message:receive",
        .message ⟨101, 1, some 2, none, "hi", "", false, false, false, [], none⟩)] ∧
    (onMessageSend 101
        (onMessageSend 100 exState 1 ⟨some (hexString 2), none, some "hi", none⟩).state 1
        ⟨some (hexString 2), none, some "hi", none⟩).state.lastMessages = [] := by
  decide

/-! ## Fan-out of the request path, growth of the spam window -/

/-- C11, the code at the failing input: "hi" from user 1 to user 2 on the request path is
answered 201 and stored, and the handler starts no webhook POST; response, state and POSTs
are all a request handler produces, it holds no reference to `io` and emits nothing.  The
same payload on the connection path is emitted to the room of user 2. -/
theorem sendMessage_accepted_not_fanned_out :
    (sendMessage exProfane 0 100 exState 1 (exBody "hi")).res =
      ⟨201, .message ⟨100, 1, some 2, none, "hi", "", false, false, false, [], none⟩⟩ ∧
    (sendMessage exProfane 0 100 exState 1 (exBody "hi")).state.messages =
      [⟨100, 1, some 2, none, "hi", "", false, false, false, [], none⟩] ∧
    (sendMessage exProfane 0 100 exState 1 (exBody "hi")).posts = [] ∧
    sentOf (onMessageSend 100 exState 1 ⟨some (hexString 2), none, some "hi", none⟩).effects =
      [.toRoom (hexString 2) "message:receive"
        (.message ⟨100, 1, some 2, none, "hi", "", false, false, false, [], none⟩)] := by
  decide

/-- The answers of the recipient lookup and the block check. -/
theorem blockGate_some (st : State) (user : ObjectId) (recipient : Option String)
    (res : Response) (h : blockGate st user recipient = some res) :
    res = ⟨404, .error "Recipient not found."⟩ ∨ res = ⟨500, .serverError⟩ ∨
      res = ⟨403, .error "You cannot message this user."⟩ := by
  cases recipient with
  | none => simp [blockGate] at h
  | some r =>
    simp only [blockGate] at h
    by_cases hr : r = ""
    · simp [hr] at h
    · rw [if_neg hr] at h
      cases hcast : castObjectId r with
      | none =>
        simp [hcast] at h
        exact Or.inr (Or.inl h.symm)
      | some id =>
        cases ht : User.findById st.users id with
        | none =>
          simp [hcast, ht] at h
          exact Or.inl h.symm
        | some target =>
          cases hs : User.findById st.users user with
          | none =>
            simp [hcast, ht, hs] at h
            exact Or.inr (Or.inl h.symm)
          | some sender =>
            simp only [hcast, ht, hs] at h
            split at h
            · simp at h
              exact Or.inr (Or.inr h.symm)
            · simp at h

/-- The spam window after `sendMessage`: as before, or with the entry of the own key set,
which happens only on the paths that pass the spam check. -/
theorem sendMessage_lastMessages (isProfane : String → Bool) (now : Int) (newId : ObjectId)
    (st : State) (user : ObjectId) (body : SendBody) :
    ((sendMessage isProfane now newId st user body).state.lastMessages = st.lastMessages ∧
      (sendMessage isProfane now newId st user body).res.status ≠ 201) ∨
    ∃ content target, body.content = some content ∧
      orStr body.recipient body.group = some target ∧
      (sendMessage isProfane now newId st user body).state.lastMessages =
        mapSet st.lastMessages (spamKey user target) ⟨content, now⟩ := by
  unfold sendMessage
  split
  · rename_i content target hc ht
    split
    · exact Or.inl ⟨rfl, by simp⟩
    · split
      · rename_i res hres
        refine Or.inl ⟨rfl, ?_⟩
        rcases blockGate_some st user body.recipient res hres with h | h | h <;> rw [h] <;> simp
      · split
        · exact Or.inl ⟨rfl, by simp⟩
        · split
          · exact Or.inl ⟨rfl, by simp⟩
          · split
            · exact Or.inr ⟨content, target, hc, ht, rfl⟩
            · exact Or.inr ⟨content, target, hc, ht, rfl⟩
  · exact Or.inl ⟨rfl, by simp⟩

theorem mapGet_mapSet_isSome {κ ν : Type} [DecidableEq κ] (m : List (κ × ν)) (k k' : κ) (v : ν)
    (h : (mapGet m k').isSome = true) : (mapGet (mapSet m k v) k').isSome = true := by
  by_cases hk : k' = k
  · subst hk
    rw [mapGet_mapSet_self]
    rfl
  · rw [mapGet_mapSet_of_ne m v hk]
    exact h

/-- The spam window only grows: (1) over any sequence of `sendMessage` calls a key that has
an entry keeps having one; (2) a send answered by the validation guard (400), the recipient
lookup (404), the block check (403), the profanity check (400) or the spam check (429)
leaves the whole table unchanged; (3) a send answered 201 sets the entry of its own key
(the string of the sender id, a colon, the recipient or else the group as the body spells
it) to its content and the current time; and (4) no send changes the entry of another
key.  A send that the store refuses (500) is not among the answers of (2). -/
theorem spam_window_grows (isProfane : String → Bool) :
    (∀ (ops : List SendOp) (st : State) (k : SpamKey),
      (mapGet st.lastMessages k).isSome = true →
      (mapGet (applySends isProfane st ops).lastMessages k).isSome = true) ∧
    (∀ (now : Int) (newId : ObjectId) (st : State) (user : ObjectId) (body : SendBody),
      ((sendMessage isProfane now newId st user body).res =
            ⟨400, .error "Content and recipient or group required."⟩ ∨
          (sendMessage isProfane now newId st user body).res =
            ⟨404, .error "Recipient not found."⟩ ∨
          (sendMessage isProfane now newId st user body).res =
            ⟨403, .error "You cannot message this user."⟩ ∨
          (sendMessage isProfane now newId st user body).res =
            ⟨400, .error "Message contains inappropriate language."⟩ ∨
          (sendMessage isProfane now newId st user body).res =
            ⟨429, .error "Please do not send repeated messages."⟩ →
        (sendMessage isProfane now newId st user body).state.lastMessages = st.lastMessages) ∧
      ((sendMessage isProfane now newId st user body).res.status = 201 →
        ∃ content target, body.content = some content ∧
          orStr body.recipient body.group = some target ∧
          mapGet (sendMessage isProfane now newId st user body).state.lastMessages
            (spamKey user target) = some ⟨content, now⟩) ∧
      (∀ target, orStr body.recipient body.group = some target → ∀ k,
        k ≠ spamKey user target →
        mapGet (sendMessage isProfane now newId st user body).state.lastMessages k =
          mapGet st.lastMessages k)) := by
  have hstep : ∀ (now : Int) (newId : ObjectId) (st : State) (user : ObjectId) (body : SendBody)
      (k : SpamKey), (mapGet st.lastMessages k).isSome = true →
      (mapGet (sendMessage isProfane now newId st user body).state.lastMessages k).isSome
        = true := by
    intro now newId st user body k hk
    rcases sendMessage_lastMessages isProfane now newId st user body with ⟨h, _⟩ | ⟨c, t, _, _, h⟩
    · rw [h]
      exact hk
    · rw [h]
      exact mapGet_mapSet_isSome _ _ _ _ hk
  refine ⟨?_, ?_⟩
  · intro ops
    induction ops with
    | nil =>
      intro st k hk
      exact hk
    | cons op rest ih =>
      intro st k hk
      show (mapGet (applySends isProfane
        (sendMessage isProfane op.now op.newId st op.user op.body).state rest).lastMessages
        k).isSome = true
      exact ih _ k (hstep op.now op.newId st op.user op.body k hk)
  · intro now newId st user body
    refine ⟨?_, ?_, ?_⟩
    · intro h
      have := sendMessage_state_of_rejected isProfane now newId st user body
        (by rcases h with h | h | h | h | h <;> rw [h] <;> decide)
      rw [this.1]
    · intro h201
      rcases sendMessage_lastMessages isProfane now newId st user body with
        ⟨_, hne⟩ | ⟨c, t, hc, ht, h⟩
      · exact absurd h201 hne
      · exact ⟨c, t, hc, ht, by rw [h]; exact mapGet_mapSet_self _ _ _⟩
    · intro target ht k hk
      rcases sendMessage_lastMessages isProfane now newId st user body with
        ⟨h, _⟩ | ⟨c, t, _, ht', h⟩
      · rw [h]
      · rw [ht] at ht'
        cases ht'
        rw [h]
        exact mapGet_mapSet_of_ne _ _ hk

/-- C20, the code at the failing input: user 1 sends "hi" to user 2 at time 0 (201), then
the content of one blank at time 1: the store refuses it and the answer is 500, but line 43
has already overwritten the entry of the key, which now holds the blank and the time 1; so
"hi" at time 2 is answered 201, although the same content was accepted 2 ms before.
Without the refused send in between it is answered 429. -/
theorem sendMessage_refused_send_resets_window :
    (sendMessage exProfane 0 100 exState 1 (exBody "hi")).res.status = 201 ∧
    mapGet (sendMessage exProfane 0 100 exState 1 (exBody "hi")).state.lastMessages
        (spamKey 1 (hexString 2)) = some ⟨"hi", 0⟩ ∧
    (sendMessage exProfane 1 101
        (sendMessage exProfane 0 100 exState 1 (exBody "hi")).state 1 (exBody " ")).res =
      ⟨500, .serverError⟩ ∧
    mapGet (sendMessage exProfane 1 101
        (sendMessage exProfane 0 100 exState 1 (exBody "hi")).state 1
        (exBody " ")).state.lastMessages (spamKey 1 (hexString 2)) = some ⟨" ", 1⟩ ∧
    (sendMessage exProfane 2 102
        (sendMessage exProfane 1 101
          (sendMessage exProfane 0 100 exState 1 (exBody "hi")).state 1 (exBody " ")).state 1
        (exBody "hi")).res.status = 201 ∧
    (sendMessage exProfane 2 102
        (sendMessage exProfane 0 100 exState 1 (exBody "hi")).state 1
        (exBody "hi")).res.status = 429 := by
  decide

/-! ## Identity and token verifier -/

/-- The middleware succeeds exactly with a token that verifies and names a stored user; then
it marks that user online and puts the document into `socket.user`. -/
theorem ioUse_ok (jwtVerify : String → Option ObjectId) (st : State) (t : String)
    (id : ObjectId) (u : User) (ht : t ≠ "") (hv : jwtVerify t = some id)
    (hu : User.findById st.users id = some u) :
    ioUse jwtVerify st (some t) =
      ⟨{ st with users := setOnline st.users id true }, some u, none⟩ := by
  have hid : u._id = id := findUser_id hu
  simp [ioUse, ht, hv, hu, hid]

/-- Every other path of the middleware ends in the one error and changes nothing. -/
theorem ioUse_cases (jwtVerify : String → Option ObjectId) (st : State)
    (token : Option String) :
    (∃ t id u, token = some t ∧ t ≠ "" ∧ jwtVerify t = some id ∧
        User.findById st.users id = some u) ∨
    ioUse jwtVerify st token = ⟨st, none, some "Authentication error"⟩ := by
  unfold ioUse
  split
  · exact Or.inr rfl
  · rename_i t
    split
    · exact Or.inr rfl
    · rename_i ht
      split
      · exact Or.inr rfl
      · rename_i id hv
        split
        · exact Or.inr rfl
        · rename_i u hu
          exact Or.inl ⟨t, id, u, rfl, ht, hv, hu⟩

/-- C12: at the handshake (1) the middleware gives no error if and only if there is a
non-empty token that verifies and whose subject has a user record; (2) in every other case
(no token, verification fails, no record) its outcome is the same: the error
'Authentication error', `socket.user` unset, the store unchanged, so no user is marked
online; (3) a socket whose middleware ends with an error is refused with that error, joins
no room, and nothing is sent: the `connection` callback does not run. -/
theorem handshake_fails_closed (jwtVerify : String → Option ObjectId) (token : Option String) :
    (∀ st : State,
      ((ioUse jwtVerify st token).error = none ↔
        ∃ t id u, token = some t ∧ t ≠ "" ∧ jwtVerify t = some id ∧
          User.findById st.users id = some u) ∧
      ((ioUse jwtVerify st token).error = none ∨
        ioUse jwtVerify st token = ⟨st, none, some "Authentication error"⟩)) ∧
    (∀ (srv : Server) (sid : SocketId) (c : Conn), findConn srv.conns sid = some c →
      c.phase = .handshake → (ioUse jwtVerify srv.store token).error ≠ none →
      handshake jwtVerify srv sid token =
        ({ srv with
            conns := replaceConn ⟨sid, .refused "Authentication error", none, []⟩ srv.conns },
          [])) := by
  constructor
  · intro st
    rcases ioUse_cases jwtVerify st token with ⟨t, id, u, ht, hne, hv, hu⟩ | h
    · subst ht
      rw [ioUse_ok jwtVerify st t id u hne hv hu]
      exact ⟨⟨fun _ => ⟨t, id, u, rfl, hne, hv, hu⟩, fun _ => rfl⟩, Or.inl rfl⟩
    · refine ⟨⟨fun he => ?_, ?_⟩, Or.inr h⟩
      · rw [h] at he
        simp at he
      · rintro ⟨t, id, u, ht, hne, hv, hu⟩
        subst ht
        rw [ioUse_ok jwtVerify st t id u hne hv hu]
  · intro srv sid c hc hphase herr
    rcases ioUse_cases jwtVerify srv.store token with ⟨t, id, u, ht, hne, hv, hu⟩ | h
    · subst ht
      rw [ioUse_ok jwtVerify srv.store t id u hne hv hu] at herr
      exact absurd rfl herr
    · unfold handshake
      simp [hc, hphase, h]

/-- C12, witness: on the socket 10 of a process with the users 1 and 2, the middleware
refuses a missing token, a token that fails verification and the token of a user without
record with one and the same outcome; with the token of user 1 it gives no error. -/
theorem handshake_fails_closed_witness :
    ioUse exVerify exState none = ⟨exState, none, some "Authentication error"⟩ ∧
    ioUse exVerify exState (some "bad") = ⟨exState, none, some "Authentication error"⟩ ∧
    ioUse exVerify exState (some "ghost") = ⟨exState, none, some "Authentication error"⟩ ∧
    (ioUse exVerify exState (some "t1")).error = none ∧
    handshake exVerify (arrive (start exState [exGroup]) 10).1 10 (some "ghost") =
      ({ (arrive (start exState [exGroup]) 10).1 with
          conns := replaceConn ⟨10, .refused "Authentication error", none, []⟩
            (arrive (start exState [exGroup]) 10).1.conns }, []) :=
  ⟨((handshake_fails_closed exVerify none).1 exState).2.resolve_left (by decide),
   ((handshake_fails_closed exVerify (some "bad")).1 exState).2.resolve_left (by decide),
   ((handshake_fails_closed exVerify (some "ghost")).1 exState).2.resolve_left (by decide),
   ((handshake_fails_closed exVerify (some "t1")).1 exState).1.mpr
      ⟨"t1", 1, ⟨1, false, [], false, []⟩, rfl, by decide, by decide, by decide⟩,
   (handshake_fails_closed exVerify (some "ghost")).2 (arrive (start exState [exGroup]) 10).1 10
      ⟨10, .handshake, none, []⟩ (by decide) rfl (by decide)⟩

/-- C13, the code at the failing input: a request without token, a request whose token
fails verification and a request whose valid token names a user without record are all
answered 401, but with three different bodies, which tell the caller the case.  The
middleware of the connection path gives the same three cases the one error
'Authentication error'. -/
theorem authMiddleware_failures_differ :
    authMiddleware exVerify exState ⟨none, none⟩ =
      .respond ⟨401, .error "Not authorized, token missing."⟩ ∧
    authMiddleware exVerify exState ⟨some "Bearer bad", none⟩ =
      .respond ⟨401, .error "Not authorized, token invalid."⟩ ∧
    authMiddleware exVerify exState ⟨some "Bearer ghost", none⟩ =
      .respond ⟨401, .error "Not authorized, user not found."⟩ ∧
    authMiddleware exVerify exState ⟨none, none⟩ ≠
      authMiddleware exVerify exState ⟨some "Bearer bad", none⟩ ∧
    authMiddleware exVerify exState ⟨some "Bearer bad", none⟩ ≠
      authMiddleware exVerify exState ⟨some "Bearer ghost", none⟩ ∧
    authMiddleware exVerify exState ⟨none, none⟩ ≠
      authMiddleware exVerify exState ⟨some "Bearer ghost", none⟩ ∧
    (ioUse exVerify exState none).error = some "Authentication error" ∧
    (ioUse exVerify exState (some "bad")).error = some "Authentication error" ∧
    (ioUse exVerify exState (some "ghost")).error = some "Authentication error" := by
  decide

/-- On the request path every request that fails authentication is answered with status
401 and a body that holds one message, and the message tells the case: 'token
missing' when the request carries no token, 'token invalid' when the token fails
verification, 'user not found' when the token verifies and its subject has no record; the
request passes exactly when the token verifies and names a stored user. -/
theorem authMiddleware_failure_cases (jwtVerify : String → Option ObjectId) (st : State)
    (req : AuthRequest) :
    ((∃ t id u, requestToken req = some t ∧ t ≠ "" ∧ jwtVerify t = some id ∧
        User.findById st.users id = some u ∧ authMiddleware jwtVerify st req = .next u) ∨
      ((requestToken req = none ∨ requestToken req = some "") ∧
        authMiddleware jwtVerify st req =
          .respond ⟨401, .error "Not authorized, token missing."⟩) ∨
      ((∃ t, requestToken req = some t ∧ t ≠ "" ∧ jwtVerify t = none) ∧
        authMiddleware jwtVerify st req =
          .respond ⟨401, .error "Not authorized, token invalid."⟩) ∨
      ((∃ t id, requestToken req = some t ∧ t ≠ "" ∧ jwtVerify t = some id ∧
          User.findById st.users id = none) ∧
        authMiddleware jwtVerify st req =
          .respond ⟨401, .error "Not authorized, user not found."⟩)) ∧
    (∀ res, authMiddleware jwtVerify st req = .respond res → res.status = 401) := by
  have hcases : (∃ t id u, requestToken req = some t ∧ t ≠ "" ∧ jwtVerify t = some id ∧
        User.findById st.users id = some u ∧ authMiddleware jwtVerify st req = .next u) ∨
      ((requestToken req = none ∨ requestToken req = some "") ∧
        authMiddleware jwtVerify st req =
          .respond ⟨401, .error "Not authorized, token missing."⟩) ∨
      ((∃ t, requestToken req = some t ∧ t ≠ "" ∧ jwtVerify t = none) ∧
        authMiddleware jwtVerify st req =
          .respond ⟨401, .error "Not authorized, token invalid."⟩) ∨
      ((∃ t id, requestToken req = some t ∧ t ≠ "" ∧ jwtVerify t = some id ∧
          User.findById st.users id = none) ∧
        authMiddleware jwtVerify st req =
          .respond ⟨401, .error "Not authorized, user not found."⟩) := by
    unfold authMiddleware
    cases htok : requestToken req with
    | none => exact Or.inr (Or.inl ⟨Or.inl rfl, rfl⟩)
    | some t =>
      by_cases ht : t = ""
      · subst ht
        exact Or.inr (Or.inl ⟨Or.inr rfl, by simp⟩)
      · cases hv : jwtVerify t with
        | none => exact Or.inr (Or.inr (Or.inl ⟨⟨t, rfl, ht, hv⟩, by simp [ht, hv]⟩))
        | some id =>
          cases hu : User.findById st.users id with
          | none =>
            exact Or.inr (Or.inr (Or.inr ⟨⟨t, id, rfl, ht, hv, hu⟩, by simp [ht, hv, hu]⟩))
          | some u => exact Or.inl ⟨t, id, u, rfl, ht, hv, hu, by simp [ht, hv, hu]⟩
  refine ⟨hcases, ?_⟩
  intro res hres
  rcases hcases with ⟨_, _, u, _, _, _, _, h⟩ | ⟨_, h⟩ | ⟨_, h⟩ | ⟨_, h⟩
  · rw [h] at hres
    cases hres
  · rw [h] at hres
    cases hres
    rfl
  · rw [h] at hres
    cases hres
    rfl
  · rw [h] at hres
    cases hres
    rfl

/-! ## Connections: rooms and presence -/

/-! ## Connections: rooms and presence -/

theorem mem_replaceConn {c x : Conn} {conns : List Conn} (h : x ∈ replaceConn c conns) :
    x = c ∨ x ∈ conns := by
  induction conns with
  | nil => simp [replaceConn] at h
  | cons y rest ih =>
    by_cases hy : y.sid = c.sid
    · simp only [replaceConn, hy, if_true, List.mem_cons] at h
      rcases h with h | h
      · exact Or.inl h
      · exact Or.inr (List.mem_cons_of_mem _ h)
    · simp only [replaceConn, hy, if_false, List.mem_cons] at h
      rcases h with h | h
      · exact Or.inr (h ▸ List.mem_cons_self _ _)
      · rcases ih h with h' | h'
        · exact Or.inl h'
        · exact Or.inr (List.mem_cons_of_mem _ h')

theorem connsOk_replaceConn {c : Conn} {conns : List Conn} (h : ConnsOk conns)
    (hc : (c.phase = .active → ∃ u, c.user = some u ∧ c.rooms = [hexString u._id]) ∧
      (c.phase ≠ .active → c.rooms = [])) : ConnsOk (replaceConn c conns) := by
  intro x hx
  rcases mem_replaceConn hx with h' | h'
  · rw [h']
    exact hc
  · exact h x h'

theorem ioUse_user_of_ok (jwtVerify : String → Option ObjectId) (st : State)
    (token : Option String) (h : (ioUse jwtVerify st token).error = none) :
    ∃ u, (ioUse jwtVerify st token).user = some u := by
  rcases ioUse_cases jwtVerify st token with ⟨t, id, u, ht, hne, hv, hu⟩ | h'
  · subst ht
    rw [ioUse_ok jwtVerify st t id u hne hv hu]
    exact ⟨u, rfl⟩
  · rw [h'] at h
    simp at h

theorem connsOk_step (jwtVerify : String → Option ObjectId) (srv : Server) (s : Step)
    (h : ConnsOk srv.conns) : ConnsOk (step jwtVerify srv s).1.conns := by
  cases s with
  | arrive sid =>
    show ConnsOk (arrive srv sid).1.conns
    unfold arrive
    split
    · exact h
    · intro x hx
      simp only [List.mem_append, List.mem_singleton] at hx
      rcases hx with hx | hx
      · exact h x hx
      · subst hx
        exact ⟨fun hp => Phase.noConfusion hp, fun _ => rfl⟩
  | handshake sid token =>
    show ConnsOk (handshake jwtVerify srv sid token).1.conns
    unfold handshake
    split
    · exact h
    · split
      · exact h
      · split
        · rename_i user _ _
          exact connsOk_replaceConn h ⟨fun _ => ⟨user, rfl, rfl⟩, fun hp => absurd rfl hp⟩
        · exact connsOk_replaceConn h ⟨fun hp => Phase.noConfusion hp, fun _ => rfl⟩
        · rename_i herr huser
          obtain ⟨u, hu⟩ := ioUse_user_of_ok jwtVerify srv.store token herr
          rw [hu] at huser
          cases huser
  | event sid ev =>
    show ConnsOk (dispatch srv sid ev).1.conns
    unfold dispatch
    split
    · exact h
    · split
      · exact h
      · split
        · exact h
        · exact h
  | disconnect sid =>
    show ConnsOk (disconnect srv sid).1.conns
    unfold disconnect
    split
    · exact h
    · split
      · exact connsOk_replaceConn h ⟨fun hp => Phase.noConfusion hp, fun _ => rfl⟩
      · exact connsOk_replaceConn h ⟨fun hp => Phase.noConfusion hp, fun _ => rfl⟩
      · exact connsOk_replaceConn h ⟨fun hp => Phase.noConfusion hp, fun _ => rfl⟩
      · exact h

/-- After the end of the process every socket is closed. -/
theorem halt_closed (srv : Server) : ∀ c ∈ (halt srv).conns, c.phase = .closed ∧ c.rooms = [] := by
  intro c hc
  simp only [halt, List.mem_map] at hc
  obtain ⟨x, _, hx⟩ := hc
  rw [← hx]
  exact ⟨rfl, rfl⟩

theorem connsOk_halt (srv : Server) : ConnsOk (halt srv).conns := by
  intro c hc
  obtain ⟨hp, hr⟩ := halt_closed srv c hc
  exact ⟨fun h => by rw [hp] at h; exact Phase.noConfusion h, fun _ => hr⟩

theorem run_cons (jwtVerify : String → Option ObjectId) (srv : Server) (s : Step)
    (rest : List Step) :
    run jwtVerify srv (s :: rest) =
      if exits srv s then halt (step jwtVerify srv s).1
      else run jwtVerify (step jwtVerify srv s).1 rest := rfl

theorem connsOk_run (jwtVerify : String → Option ObjectId) (steps : List Step) (srv : Server)
    (h : ConnsOk srv.conns) : ConnsOk (run jwtVerify srv steps).conns := by
  induction steps generalizing srv with
  | nil => exact h
  | cons s rest ih =>
    rw [run_cons]
    split
    · exact connsOk_halt _
    · exact ih _ (connsOk_step jwtVerify srv s h)

theorem connsOk_start (store : State) (groups : List Group) :
    ConnsOk (start store groups).conns := by
  intro c hc
  simp [start] at hc

theorem dispatch_conns (srv : Server) (sid : SocketId) (ev : Event) :
    (dispatch srv sid ev).1.conns = srv.conns := by
  unfold dispatch
  split
  · rfl
  · split
    · rfl
    · split <;> rfl

/-- A socket that is not established has no handler: an event on it does nothing. -/
theorem dispatch_inactive (srv : Server) (sid : SocketId) (ev : Event)
    (h : ∀ c, findConn srv.conns sid = some c → c.phase ≠ .active) :
    dispatch srv sid ev = (srv, []) := by
  unfold dispatch
  cases hc : findConn srv.conns sid with
  | none => rfl
  | some c => simp [h c hc]

/-- C14: (1) in every state that a process reaches from its start, an established socket has
its user resolved; (2) a socket becomes established only in the step in which its
middleware ends without an error; (3) an event on a socket that is not established (unknown,
middleware not finished, refused, closed) leaves the process as it is and sends nothing;
(4) so an event that changes the store or sends something ran on an established socket with
a resolved user. -/
theorem handlers_only_when_established (jwtVerify : String → Option ObjectId) :
    (∀ (store : State) (groups : List Group) (steps : List Step),
      ∀ c ∈ (run jwtVerify (start store groups) steps).conns, c.phase = .active →
        ∃ u, c.user = some u) ∧
    (∀ (srv : Server) (s : Step), ∀ c ∈ (step jwtVerify srv s).1.conns, c.phase = .active →
      c ∈ srv.conns ∨
        ∃ token, s = .handshake c.sid token ∧ (ioUse jwtVerify srv.store token).error = none) ∧
    (∀ (srv : Server) (sid : SocketId) (ev : Event),
      (∀ c, findConn srv.conns sid = some c → c.phase ≠ .active) →
      dispatch srv sid ev = (srv, [])) ∧
    (∀ (srv : Server) (sid : SocketId) (ev : Event),
      (dispatch srv sid ev).1.store ≠ srv.store ∨ (dispatch srv sid ev).2 ≠ [] →
      ∃ c u, findConn srv.conns sid = some c ∧ c.phase = .active ∧ c.user = some u) := by
  refine ⟨?_, ?_, dispatch_inactive, ?_⟩
  · intro store groups steps c hc hactive
    obtain ⟨u, hu, _⟩ :=
      (connsOk_run jwtVerify steps _ (connsOk_start store groups) c hc).1 hactive
    exact ⟨u, hu⟩
  · intro srv s c hc hactive
    cases s with
    | arrive sid =>
      have hc' : c ∈ (arrive srv sid).1.conns := hc
      unfold arrive at hc'
      split at hc'
      · exact Or.inl hc'
      · simp only [List.mem_append, List.mem_singleton] at hc'
        rcases hc' with h | h
        · exact Or.inl h
        · rw [h] at hactive
          cases hactive
    | handshake sid token =>
      have hc' : c ∈ (handshake jwtVerify srv sid token).1.conns := hc
      unfold handshake at hc'
      split at hc'
      · exact Or.inl hc'
      · split at hc'
        · exact Or.inl hc'
        · split at hc'
          · rename_i herr _
            rcases mem_replaceConn hc' with h | h
            · exact Or.inr ⟨token, by rw [h], herr⟩
            · exact Or.inl h
          · rcases mem_replaceConn hc' with h | h
            · rw [h] at hactive
              cases hactive
            · exact Or.inl h
          · rename_i herr _
            rcases mem_replaceConn hc' with h | h
            · exact Or.inr ⟨token, by rw [h], herr⟩
            · exact Or.inl h
    | event sid ev =>
      have hc' : c ∈ (dispatch srv sid ev).1.conns := hc
      rw [dispatch_conns] at hc'
      exact Or.inl hc'
    | disconnect sid =>
      have hc' : c ∈ (disconnect srv sid).1.conns := hc
      unfold disconnect at hc'
      split at hc'
      · exact Or.inl hc'
      · split at hc'
        · rcases mem_replaceConn hc' with h | h
          · rw [h] at hactive
            cases hactive
          · exact Or.inl h
        · rcases mem_replaceConn hc' with h | h
          · rw [h] at hactive
            cases hactive
          · exact Or.inl h
        · rcases mem_replaceConn hc' with h | h
          · rw [h] at hactive
            cases hactive
          · exact Or.inl h
        · exact Or.inl hc'
  · intro srv sid ev hchange
    cases hc : findConn srv.conns sid with
    | none =>
      rw [dispatch_inactive srv sid ev (by intro c h; rw [hc] at h; cases h)] at hchange
      simp at hchange
    | some c =>
      by_cases hp : c.phase = .active
      · cases hu : c.user with
        | none =>
          have : dispatch srv sid ev = (srv, []) := by
            unfold dispatch
            simp [hc, hp, hu]
          rw [this] at hchange
          simp at hchange
        | some u => exact ⟨c, u, rfl, hp, hu⟩
      · rw [dispatch_inactive srv sid ev
          (by intro c' h; rw [hc] at h; cases h; exact hp)] at hchange
        simp at hchange

/-- C14, witness: in the process where socket 10 was refused (token of a user without
record) and socket 30 has only arrived, a `message:send` on either changes nothing and
sends nothing. -/
theorem handlers_only_when_established_witness :
    dispatch (run exVerify (start exState [exGroup])
        [.arrive 10, .handshake 10 (some "ghost"), .arrive 30]) 10
        (.messageSend 100 ⟨some (hexString 2), none, some "hi", none⟩) =
      (run exVerify (start exState [exGroup])
        [.arrive 10, .handshake 10 (some "ghost"), .arrive 30], []) ∧
    dispatch (run exVerify (start exState [exGroup])
        [.arrive 10, .handshake 10 (some "ghost"), .arrive 30]) 30
        (.messageSend 100 ⟨some (hexString 2), none, some "hi", none⟩) =
      (run exVerify (start exState [exGroup])
        [.arrive 10, .handshake 10 (some "ghost"), .arrive 30], []) :=
  ⟨(handlers_only_when_established exVerify).2.2.1 _ 10 _ (by decide),
   (handlers_only_when_established exVerify).2.2.1 _ 30 _ (by decide)⟩

/-- An event on an established socket with a user runs the handler. -/
theorem dispatch_active (srv : Server) (sid : SocketId) (ev : Event) (c : Conn) (u : User)
    (hc : findConn srv.conns sid = some c) (hp : c.phase = .active) (hu : c.user = some u) :
    dispatch srv sid ev =
      ({ srv with store := (handle srv.store u._id ev).state },
        sentOf (handle srv.store u._id ev).effects) := by
  unfold dispatch
  simp [hc, hp, hu]

/-- In every state that a process reaches from its start by arrivals, handshakes, events and
disconnects: (1) the sockets joined to the room named by the string of the id R are exactly
the established sockets whose user is R; (2) a `message:send` with the recipient string r
and no group sends at most the one event `message:receive` to room r, and its receivers are
the established sockets whose user has r as the string of its id; with r the string of R
these are the established sockets of R and no other; (3) on an established socket of the
user u, when r casts to R and the trimmed content is not empty, the message is stored with
sender u and recipient R and the event is sent, carrying that message; (4) when r is not
the string of the id of any established user, the event has no receiver. -/
theorem identity_room_is_own_sessions (jwtVerify : String → Option ObjectId) (store : State)
    (groups : List Group) (steps : List Step) :
    (∀ R : ObjectId,
      (run jwtVerify (start store groups) steps).conns.filter
          (fun c => c.rooms.contains (hexString R)) =
        (run jwtVerify (start store groups) steps).conns.filter
          (fun c => c.isActive && (c.user.map (fun u => u._id) == some R))) ∧
    (∀ (sid : SocketId) (newId : ObjectId) (r : String) (content attachment : Option String),
      ∀ s ∈ (dispatch (run jwtVerify (start store groups) steps) sid
          (.messageSend newId ⟨some r, none, content, attachment⟩)).2,
        (∃ m, s = .toRoom r "message:receive" (.message m)) ∧
        receivers (dispatch (run jwtVerify (start store groups) steps) sid
            (.messageSend newId ⟨some r, none, content, attachment⟩)).1.conns s =
          ((run jwtVerify (start store groups) steps).conns.filter
            (fun c => c.isActive && (c.user.map (fun u => hexString u._id) == some r))).map
            (fun c => c.sid) ∧
        ∀ R, r = hexString R →
          receivers (dispatch (run jwtVerify (start store groups) steps) sid
              (.messageSend newId ⟨some r, none, content, attachment⟩)).1.conns s =
            ((run jwtVerify (start store groups) steps).conns.filter
              (fun c => c.isActive && (c.user.map (fun u => u._id) == some R))).map
              (fun c => c.sid)) ∧
    (∀ (sid : SocketId) (c : Conn) (u : User) (newId R : ObjectId) (r content : String)
      (attachment : Option String),
      findConn (run jwtVerify (start store groups) steps).conns sid = some c →
      c.phase = .active → c.user = some u → castObjectId r = some R → jsTrim content ≠ "" →
      dispatch (run jwtVerify (start store groups) steps) sid
          (.messageSend newId ⟨some r, none, some content, attachment⟩) =
        ({ run jwtVerify (start store groups) steps with
            store :=
              { (run jwtVerify (start store groups) steps).store with
                messages := (run jwtVerify (start store groups) steps).store.messages ++
                  [⟨newId, u._id, some R, none, jsTrim content, attachment.getD "", false, false,
                    false, [], none⟩] } },
          [.toRoom r "message:receive"
            (.message ⟨newId, u._id, some R, none, jsTrim content, attachment.getD "", false,
              false, false, [], none⟩)])) ∧
    (∀ (r event : String) (payload : EmitPayload),
      (∀ c ∈ (run jwtVerify (start store groups) steps).conns, c.phase = .active →
        ∀ u, c.user = some u → hexString u._id ≠ r) →
      receivers (run jwtVerify (start store groups) steps).conns (.toRoom r event payload) =
        []) := by
  have hok := connsOk_run jwtVerify steps _ (connsOk_start store groups)
  have hroomS : ∀ (r : String), ∀ c ∈ (run jwtVerify (start store groups) steps).conns,
      (c.isActive && c.rooms.contains r) =
        (c.isActive && (c.user.map (fun u => hexString u._id) == some r)) := by
    intro r c hc
    by_cases hp : c.phase = .active
    · obtain ⟨u, hu, hr⟩ := (hok c hc).1 hp
      by_cases h : hexString u._id = r
      · subst h
        simp [Conn.isActive, hp, hu, hr]
      · have h' : ¬ r = hexString u._id := fun e => h e.symm
        simp [Conn.isActive, hp, hu, hr, h, h']
    · have hb : (c.phase == Phase.active) = false := beq_eq_false_iff_ne.mpr hp
      simp [Conn.isActive, hb]
  have hroom : ∀ (R : ObjectId), ∀ c ∈ (run jwtVerify (start store groups) steps).conns,
      c.rooms.contains (hexString R) =
        (c.isActive && (c.user.map (fun u => u._id) == some R)) := by
    intro R c hc
    by_cases hp : c.phase = .active
    · obtain ⟨u, hu, hr⟩ := (hok c hc).1 hp
      by_cases h : u._id = R
      · subst h
        simp [Conn.isActive, hp, hu, hr]
      · have h' : ¬ hexString R = hexString u._id := fun e => h (hexString_injective e).symm
        simp [Conn.isActive, hp, hu, hr, h, h']
    · have hr := (hok c hc).2 hp
      simp [Conn.isActive, hp, hr]
  have hfilter2 : ∀ R : ObjectId, (run jwtVerify (start store groups) steps).conns.filter
        (fun c => c.isActive && c.rooms.contains (hexString R)) =
      (run jwtVerify (start store groups) steps).conns.filter
        (fun c => c.isActive && (c.user.map (fun u => u._id) == some R)) := by
    intro R
    apply List.filter_congr
    intro c hc
    rw [hroom R c hc]
    cases c.isActive <;> simp
  refine ⟨fun R => List.filter_congr (hroom R), ?_, ?_, ?_⟩
  · intro sid newId r content attachment s hs
    have hsent : ∃ m, s = .toRoom r "message:receive" (.message m) := by
      unfold dispatch at hs
      split at hs
      · simp at hs
      · split at hs
        · simp at hs
        · split at hs
          · simp at hs
          · rename_i user _
            simp only [handle] at hs
            rcases onMessageSend_messages newId
                (run jwtVerify (start store groups) steps).store user._id
                ⟨some r, none, content, attachment⟩ with h | ⟨c, m, _, _, ht, h⟩
            · rcases h with h | h <;> rw [h] at hs <;> simp [sentOf, emitted] at hs
            · rw [h] at hs
              have hro : orStr (some r) none = some r := by
                cases hor : orStr (some r) none with
                | none => exact absurd hor ht
                | some t =>
                  rcases (orStr_eq_some hor).2 with h1 | ⟨_, h1⟩
                  · exact h1.symm ▸ rfl
                  · cases h1
              simp [sentOf, emitted, emitTo, hro] at hs
              exact ⟨m, hs⟩
    refine ⟨hsent, ?_, ?_⟩
    · obtain ⟨m, hm⟩ := hsent
      rw [hm, dispatch_conns]
      show ((run jwtVerify (start store groups) steps).conns.filter
        (fun c => c.isActive && c.rooms.contains r)).map (fun c => c.sid) = _
      rw [List.filter_congr (hroomS r)]
    · intro R hR
      obtain ⟨m, hm⟩ := hsent
      rw [hm, dispatch_conns, hR]
      show ((run jwtVerify (start store groups) steps).conns.filter
        (fun c => c.isActive && c.rooms.contains (hexString R))).map (fun c => c.sid) = _
      rw [hfilter2 R]
  · intro sid c u newId R r content attachment hc hp hu hcast htrim
    rw [dispatch_active _ sid _ c u hc hp hu]
    simp only [handle]
    have hrne : r ≠ "" := by
      intro h
      rw [h, castObjectId_empty] at hcast
      cases hcast
    have hsend : onMessageSend newId (run jwtVerify (start store groups) steps).store u._id
        ⟨some r, none, some content, attachment⟩ =
        ⟨{ (run jwtVerify (start store groups) steps).store with
            messages := (run jwtVerify (start store groups) steps).store.messages ++
              [⟨newId, u._id, some R, none, jsTrim content, attachment.getD "", false, false,
                false, [], none⟩] },
          [.persist ⟨newId, u._id, some R, none, jsTrim content, attachment.getD "", false,
              false, false, [], none⟩,
            .emit r "message:receive"
              (.message ⟨newId, u._id, some R, none, jsTrim content, attachment.getD "", false,
                false, false, [], none⟩)],
          .completed⟩ := by
      unfold onMessageSend
      simp [orStr_some_left hrne, ne_empty_of_jsTrim_ne htrim, createFromPayload, castField,
        hcast, Message.create, htrim, emitTo]
    rw [hsend]
    rfl
  · intro r event payload hnone
    show ((run jwtVerify (start store groups) steps).conns.filter
      (fun c => c.isActive && c.rooms.contains r)).map (fun c => c.sid) = []
    rw [List.filter_congr (hroomS r)]
    have : (run jwtVerify (start store groups) steps).conns.filter
        (fun c => c.isActive && (c.user.map (fun u => hexString u._id) == some r)) = [] := by
      rw [List.filter_eq_nil_iff]
      intro c hc
      by_cases hp : c.phase = .active
      · obtain ⟨u, hu, _⟩ := (hok c hc).1 hp
        have := hnone c hc hp u hu
        simp [Conn.isActive, hp, hu, this]
      · have hb : (c.phase == Phase.active) = false := beq_eq_false_iff_ne.mpr hp
        simp [Conn.isActive, hb]
    rw [this]
    rfl

/-- C16, the code at the failing input: users 10 and 11 are connected on the sockets 10 and
20, each joined to the room named by the lower-case string of its id.  User 10 sends "hi"
with the recipient named by the upper-case spelling of the id of user 11: the message is
stored with recipient 11, the event goes to the room named by the upper-case string, and no
socket receives it.  With the lower-case spelling the same message is received by socket
20, the socket of user 11, and by no other. -/
theorem respelled_recipient_reaches_nobody :
    exLettersConnected.conns =
      [⟨10, .active, some ⟨10, false, [], false, []⟩, [hexString 10]⟩,
        ⟨20, .active, some ⟨11, false, [], false, []⟩, [exLower]⟩] ∧
    castObjectId exUpper = some 11 ∧
    (dispatch exLettersConnected 10
        (.messageSend 100 ⟨some exUpper, none, some "hi", none⟩)).1.store.messages =
      [⟨100, 10, some 11, none, "hi", "", false, false, false, [], none⟩] ∧
    (dispatch exLettersConnected 10 (.messageSend 100 ⟨some exUpper, none, some "hi", none⟩)).2 =
      [.toRoom exUpper "message:receive"
        (.message ⟨100, 10, some 11, none, "hi", "", false, false, false, [], none⟩)] ∧
    receivers exLettersConnected.conns (.toRoom exUpper "message:receive"
        (.message ⟨100, 10, some 11, none, "hi", "", false, false, false, [], none⟩)) = [] ∧
    (dispatch exLettersConnected 10 (.messageSend 100 ⟨some exLower, none, some "hi", none⟩)).2 =
      [.toRoom exLower "message:receive"
        (.message ⟨100, 10, some 11, none, "hi", "", false, false, false, [], none⟩)] ∧
    receivers exLettersConnected.conns (.toRoom exLower "message:receive"
        (.message ⟨100, 10, some 11, none, "hi", "", false, false, false, [], none⟩)) = [20] := by
  decide

theorem findUser_setOnline_self (users : List User) (id : ObjectId) (b : Bool) :
    User.findById (setOnline users id b) id =
      (User.findById users id).map (fun x => { x with online := b }) := by
  unfold setOnline
  cases h : User.findById users id with
  | none => simp [h]
  | some u =>
    have hid : u._id = id := findUser_id h
    have := findUser_replaceUser_self { u with online := b } users u
      (by show User.findById users u._id = some u; rw [hid]; exact h)
    simp only [Option.map_some']
    rw [← hid]
    exact this

theorem findConn_replaceConn_self (c : Conn) (conns : List Conn) (c0 : Conn)
    (h : findConn conns c.sid = some c0) : findConn (replaceConn c conns) c.sid = some c := by
  induction conns with
  | nil => simp [findConn] at h
  | cons x rest ih =>
    by_cases hx : x.sid = c.sid
    · simp [replaceConn, findConn, hx]
    · have h' : findConn rest c.sid = some c0 := by
        simpa [findConn, List.find?_cons, hx] using h
      have := ih h'
      simpa [replaceConn, findConn, List.find?_cons, hx] using this

theorem findConn_replaceConn_of_ne (c : Conn) (conns : List Conn) {sid : SocketId}
    (h : sid ≠ c.sid) : findConn (replaceConn c conns) sid = findConn conns sid := by
  induction conns with
  | nil => rfl
  | cons x rest ih =>
    by_cases hx : x.sid = c.sid
    · have hx' : ¬ x.sid = sid := fun e => h (e ▸ hx)
      simp [replaceConn, findConn, List.find?_cons, hx, hx', Ne.symm h]
    · by_cases hid : x.sid = sid
      · subst hid
        simp [replaceConn, findConn, List.find?_cons, hx]
      · have := ih
        simpa [replaceConn, findConn, List.find?_cons, hx, hid] using this

theorem filter_replaceConn_others (c : Conn) (conns : List Conn) :
    (replaceConn c conns).filter (fun x => x.isActive && x.sid != c.sid) =
      conns.filter (fun x => x.isActive && x.sid != c.sid) := by
  induction conns with
  | nil => rfl
  | cons x rest ih =>
    by_cases hx : x.sid = c.sid
    · simp [replaceConn, hx, List.filter_cons]
    · simp [replaceConn, hx, List.filter_cons, ih]

theorem replaceConn_append_fresh (c : Conn) (a b : List Conn)
    (h : findConn a c.sid = none) : replaceConn c (a ++ b) = a ++ replaceConn c b := by
  induction a with
  | nil => rfl
  | cons x rest ih =>
    by_cases hx : x.sid = c.sid
    · simp [findConn, List.find?_cons, hx] at h
    · have h' : findConn rest c.sid = none := by
        simpa [findConn, List.find?_cons, hx] using h
      simp [replaceConn, hx, ih h']

theorem findConn_append_fresh (a b : List Conn) (sid : SocketId) (h : findConn a sid = none) :
    findConn (a ++ b) sid = findConn b sid := by
  unfold findConn at *
  rw [List.find?_append, h]
  rfl

/-- The `disconnect` handler of an established socket with a user. -/
theorem disconnect_active (srv : Server) (sid : SocketId) (c : Conn) (u : User)
    (hc : findConn srv.conns sid = some c) (hp : c.phase = .active) (hu : c.user = some u) :
    disconnect srv sid =
      (⟨{ srv.store with users := setOnline srv.store.users u._id false }, srv.groups,
          replaceConn ⟨sid, .closed, some u, []⟩ srv.conns⟩,
        [.toOthers sid "user:offline" (.presence u._id)]) := by
  unfold disconnect
  simp [hc, hp, hu]

/-- The middleware and the `connection` callback of a socket whose token names a stored
user. -/
theorem handshake_ok (jwtVerify : String → Option ObjectId) (srv : Server) (sid : SocketId)
    (c : Conn) (t : String) (id : ObjectId) (u : User) (hc : findConn srv.conns sid = some c)
    (hp : c.phase = .handshake) (ht : t ≠ "") (hv : jwtVerify t = some id)
    (hu : User.findById srv.store.users id = some u) :
    handshake jwtVerify srv sid (some t) =
      (⟨{ srv.store with users := setOnline srv.store.users id true }, srv.groups,
          replaceConn ⟨sid, .active, some u, [hexString id]⟩ srv.conns⟩,
        [.toOthers sid "user:online" (.presence id)]) := by
  have hid : u._id = id := findUser_id hu
  unfold handshake
  simp [hc, hp, ioUse_ok jwtVerify srv.store t id u ht hv hu, hid]

/-- C17: for a socket of the process: (1) when it is established with user U1 and
disconnects, the stored online flag of U1 becomes false, one event is sent, `user:offline`
with userId U1 to all sockets but this one, and its receivers are the other established
sockets; (2) when its middleware ends well with a token of the stored user U1, the flag of
U1 becomes true, the socket is established, one event is sent, `user:online` with userId
U1 to all sockets but this one, and its receivers are the established sockets other than
the new one. -/
theorem presence_transitions (jwtVerify : String → Option ObjectId) (srv : Server)
    (sid : SocketId) (c : Conn) (hc : findConn srv.conns sid = some c) :
    (c.phase = .active → ∀ u, c.user = some u →
      (disconnect srv sid).2 = [.toOthers sid "user:offline" (.presence u._id)] ∧
      User.findById (disconnect srv sid).1.store.users u._id =
        (User.findById srv.store.users u._id).map (fun x => { x with online := false }) ∧
      receivers (disconnect srv sid).1.conns (.toOthers sid "user:offline" (.presence u._id)) =
        (srv.conns.filter (fun x => x.isActive && x.sid != sid)).map (fun x => x.sid)) ∧
    (c.phase = .handshake → ∀ t id u, t ≠ "" → jwtVerify t = some id →
      User.findById srv.store.users id = some u →
      (handshake jwtVerify srv sid (some t)).2 = [.toOthers sid "user:online" (.presence id)] ∧
      User.findById (handshake jwtVerify srv sid (some t)).1.store.users id =
        some { u with online := true } ∧
      findConn (handshake jwtVerify srv sid (some t)).1.conns sid =
        some ⟨sid, .active, some u, [hexString id]⟩ ∧
      receivers (handshake jwtVerify srv sid (some t)).1.conns
          (.toOthers sid "user:online" (.presence id)) =
        (srv.conns.filter (fun x => x.isActive && x.sid != sid)).map (fun x => x.sid)) := by
  constructor
  · intro hp u hu
    rw [disconnect_active srv sid c u hc hp hu]
    refine ⟨rfl, findUser_setOnline_self _ _ _, ?_⟩
    show ((replaceConn ⟨sid, .closed, some u, []⟩ srv.conns).filter
      (fun x => x.isActive && x.sid != sid)).map (fun x => x.sid) = _
    rw [filter_replaceConn_others ⟨sid, .closed, some u, []⟩ srv.conns]
  · intro hp t id u ht hv hu
    rw [handshake_ok jwtVerify srv sid c t id u hc hp ht hv hu]
    refine ⟨rfl, ?_, ?_, ?_⟩
    · show User.findById (setOnline srv.store.users id true) id = _
      rw [findUser_setOnline_self, hu]
      rfl
    · exact findConn_replaceConn_self ⟨sid, .active, some u, [hexString id]⟩ srv.conns c hc
    · show ((replaceConn ⟨sid, .active, some u, [hexString id]⟩ srv.conns).filter
        (fun x => x.isActive && x.sid != sid)).map (fun x => x.sid) = _
      rw [filter_replaceConn_others ⟨sid, .active, some u, [hexString id]⟩ srv.conns]

/-- C17, witness: with users 1 and 2 connected on the sockets 10 and 20, the disconnect of
socket 10 sends `user:offline` with userId 1, received by socket 20, and user 1 is stored
offline. -/
theorem presence_transitions_witness :
    (disconnect exConnected 10).2 = [.toOthers 10 "user:offline" (.presence 1)] ∧
    User.findById (disconnect exConnected 10).1.store.users 1 =
      (User.findById exConnected.store.users 1).map (fun x => { x with online := false }) ∧
    receivers (disconnect exConnected 10).1.conns (.toOthers 10 "user:offline" (.presence 1)) =
      (exConnected.conns.filter (fun x => x.isActive && x.sid != 10)).map (fun x => x.sid) ∧
    (exConnected.conns.filter (fun x => x.isActive && x.sid != 10)).map (fun x => x.sid) = [20] :=
  ⟨((presence_transitions exVerify exConnected 10 ⟨10, .active, some ⟨1, false, [], false, []⟩, [hexString 1]⟩
      (by decide)).1 rfl _ rfl).1,
   ((presence_transitions exVerify exConnected 10 ⟨10, .active, some ⟨1, false, [], false, []⟩, [hexString 1]⟩
      (by decide)).1 rfl _ rfl).2.1,
   ((presence_transitions exVerify exConnected 10 ⟨10, .active, some ⟨1, false, [], false, []⟩, [hexString 1]⟩
      (by decide)).1 rfl _ rfl).2.2,
   by decide⟩

/-- A new socket arrives and its middleware ends well: the user is marked online and the
socket is established at the end of the socket list. -/
theorem connect_fresh (jwtVerify : String → Option ObjectId) (srv : Server) (sid : SocketId)
    (t : String) (id : ObjectId) (u : User) (hfresh : findConn srv.conns sid = none)
    (ht : t ≠ "") (hv : jwtVerify t = some id)
    (hu : User.findById srv.store.users id = some u) :
    run jwtVerify srv [.arrive sid, .handshake sid (some t)] =
      ⟨{ srv.store with users := setOnline srv.store.users id true }, srv.groups,
        srv.conns ++ [⟨sid, .active, some u, [hexString id]⟩]⟩ := by
  have harrive : (arrive srv sid).1 =
      ⟨srv.store, srv.groups, srv.conns ++ [⟨sid, .handshake, none, []⟩]⟩ := by
    unfold arrive
    simp [hfresh]
  have hfind : findConn (srv.conns ++ [⟨sid, .handshake, none, []⟩]) sid =
      some ⟨sid, .handshake, none, []⟩ := by
    rw [findConn_append_fresh _ _ _ hfresh]
    simp [findConn]
  have hh := handshake_ok jwtVerify
    ⟨srv.store, srv.groups, srv.conns ++ [⟨sid, .handshake, none, []⟩]⟩ sid
    ⟨sid, .handshake, none, []⟩ t id u hfind rfl ht hv hu
  show (handshake jwtVerify (arrive srv sid).1 sid (some t)).1 = _
  rw [harrive, hh]
  show (⟨{ srv.store with users := setOnline srv.store.users id true }, srv.groups,
      replaceConn ⟨sid, .active, some u, [hexString id]⟩
        (srv.conns ++ [⟨sid, .handshake, none, []⟩])⟩ : Server) = _
  rw [replaceConn_append_fresh ⟨sid, .active, some u, [hexString id]⟩ srv.conns _ hfresh]
  simp [replaceConn]

/-- C18: presence is one boolean per user, without a count of connections: when a stored
user U connects on two new sockets s1 and s2, the flag is true after the two connects, and
after the disconnect of s1 the stored flag of U is false although s2 is still established
with user U. -/
theorem presence_has_no_count (jwtVerify : String → Option ObjectId) (srv : Server)
    (U : ObjectId) (u : User) (t1 t2 : String) (s1 s2 : SocketId)
    (hu : User.findById srv.store.users U = some u) (ht1 : t1 ≠ "") (ht2 : t2 ≠ "")
    (hv1 : jwtVerify t1 = some U) (hv2 : jwtVerify t2 = some U) (hs : s1 ≠ s2)
    (hf1 : findConn srv.conns s1 = none) (hf2 : findConn srv.conns s2 = none) :
    (User.findById (run jwtVerify srv [.arrive s1, .handshake s1 (some t1), .arrive s2,
        .handshake s2 (some t2)]).store.users U).map (fun x => x.online) = some true ∧
    (User.findById (run jwtVerify srv [.arrive s1, .handshake s1 (some t1), .arrive s2,
        .handshake s2 (some t2), .disconnect s1]).store.users U).map (fun x => x.online)
      = some false ∧
    ∃ c, findConn (run jwtVerify srv [.arrive s1, .handshake s1 (some t1), .arrive s2,
        .handshake s2 (some t2), .disconnect s1]).conns s2 = some c ∧ c.phase = .active ∧
      c.user.map (fun x => x._id) = some U := by
  have hid : u._id = U := findUser_id hu
  have h1 := connect_fresh jwtVerify srv s1 t1 U u hf1 ht1 hv1 hu
  have hu1 : User.findById (setOnline srv.store.users U true) U =
      some { u with online := true } := by
    rw [findUser_setOnline_self, hu]
    rfl
  have hf2' : findConn (srv.conns ++ [⟨s1, .active, some u, [hexString U]⟩]) s2 = none := by
    rw [findConn_append_fresh _ _ _ hf2]
    simp [findConn, hs]
  have h2 := connect_fresh jwtVerify
    ⟨{ srv.store with users := setOnline srv.store.users U true }, srv.groups,
      srv.conns ++ [⟨s1, .active, some u, [hexString U]⟩]⟩ s2 t2 U { u with online := true } hf2' ht2 hv2
    hu1
  have hrun4 : run jwtVerify srv [.arrive s1, .handshake s1 (some t1), .arrive s2,
      .handshake s2 (some t2)] =
      run jwtVerify (run jwtVerify srv [.arrive s1, .handshake s1 (some t1)])
        [.arrive s2, .handshake s2 (some t2)] := rfl
  have hrun5 : run jwtVerify srv [.arrive s1, .handshake s1 (some t1), .arrive s2,
      .handshake s2 (some t2), .disconnect s1] =
      (disconnect (run jwtVerify (run jwtVerify srv [.arrive s1, .handshake s1 (some t1)])
        [.arrive s2, .handshake s2 (some t2)]) s1).1 := rfl
  rw [hrun4, hrun5, h1, h2]
  have hfind1 : findConn (srv.conns ++ [⟨s1, .active, some u, [hexString U]⟩] ++
      [⟨s2, .active, some { u with online := true }, [hexString U]⟩]) s1 =
      some ⟨s1, .active, some u, [hexString U]⟩ := by
    rw [List.append_assoc, findConn_append_fresh _ _ _ hf1]
    simp [findConn]
  refine ⟨?_, ?_, ?_⟩
  · show (User.findById (setOnline (setOnline srv.store.users U true) U true) U).map
      (fun x => x.online) = some true
    rw [findUser_setOnline_self, hu1]
    rfl
  · rw [disconnect_active _ s1 ⟨s1, .active, some u, [hexString U]⟩ u hfind1 rfl rfl]
    show (User.findById (setOnline (setOnline (setOnline srv.store.users U true) U true)
      u._id false) U).map (fun x => x.online) = some false
    rw [hid, findUser_setOnline_self, findUser_setOnline_self, hu1]
    rfl
  · rw [disconnect_active _ s1 ⟨s1, .active, some u, [hexString U]⟩ u hfind1 rfl rfl]
    refine ⟨⟨s2, .active, some { u with online := true }, [hexString U]⟩, ?_, rfl, ?_⟩
    · show findConn (replaceConn ⟨s1, .closed, some u, []⟩
        (srv.conns ++ [⟨s1, .active, some u, [hexString U]⟩] ++
          [⟨s2, .active, some { u with online := true }, [hexString U]⟩])) s2 = _
      rw [findConn_replaceConn_of_ne _ _ (show s2 ≠ s1 from Ne.symm hs), List.append_assoc,
        findConn_append_fresh _ _ _ hf2]
      simp [findConn, hs]
    · show some u._id = some U
      rw [hid]

/-- C18, witness: user 1 connects on the sockets 10 and 11 and socket 10 disconnects: user
1 is stored offline and socket 11 is still established. -/
theorem presence_has_no_count_witness :
    (User.findById (run exVerify (start exState [exGroup]) [.arrive 10,
        .handshake 10 (some "t1"), .arrive 11, .handshake 11 (some "t1"),
        .disconnect 10]).store.users 1).map (fun x => x.online) = some false ∧
    ∃ c, findConn (run exVerify (start exState [exGroup]) [.arrive 10,
        .handshake 10 (some "t1"), .arrive 11, .handshake 11 (some "t1"),
        .disconnect 10]).conns 11 = some c ∧ c.phase = .active ∧
      c.user.map (fun x => x._id) = some 1 :=
  (presence_has_no_count exVerify (start exState [exGroup]) 1 ⟨1, false, [], false, []⟩ "t1" "t1"
    10 11 (by decide) (by decide) (by decide) (by decide) (by decide) (by decide) (by decide)
    (by decide)).2

/-- C15, the code at the failing input: users 1 and 2 are the members of group 7 and both
are connected; each socket has joined the room of its own user and no other, so the
`message:receive` that `message:send` of user 1 with group 7 sends to the room of the group
has no receiver, while the same message with recipient 2 is received by the socket of user
2. -/
theorem group_room_has_no_session :
    exGroup.members = [1, 2] ∧
    exConnected.conns =
      [⟨10, .active, some ⟨1, false, [], false, []⟩, [hexString 1]⟩,
        ⟨20, .active, some ⟨2, false, [], false, []⟩, [hexString 2]⟩] ∧
    (dispatch exConnected 10
        (.messageSend 100 ⟨none, some (hexString 7), some "hi", none⟩)).2 =
      [.toRoom (hexString 7) "message:receive"
        (.message ⟨100, 1, none, some 7, "hi", "", false, false, false, [], none⟩)] ∧
    receivers exConnected.conns (.toRoom (hexString 7) "message:receive"
        (.message ⟨100, 1, none, some 7, "hi", "", false, false, false, [], none⟩)) = [] ∧
    receivers exConnected.conns (.toRoom (hexString 2) "message:receive"
        (.message ⟨100, 1, some 2, none, "hi", "", false, false, false, [], none⟩)) = [20] := by
  decide

/-! ## Relayed events -/

theorem emitted_emitTo (recipient group : Option String) (event : String)
    (payload : EmitPayload) :
    emitted (emitTo recipient group event payload) =
      (orStr recipient group).toList.map (fun room => (room, event, payload)) := by
  unfold emitTo
  cases orStr recipient group <;> rfl

theorem persisted_emitTo (recipient group : Option String) (event : String)
    (payload : EmitPayload) : persisted (emitTo recipient group event payload) = [] := by
  unfold emitTo
  cases orStr recipient group <;> rfl

theorem emitted_emitToRecipient (recipient : Option String) (event : String)
    (payload : EmitPayload) :
    emitted (emitToRecipient recipient event payload) =
      recipient.toList.map (fun room => (room, event, payload)) := by
  cases recipient <;> rfl

theorem persisted_emitToRecipient (recipient : Option String) (event : String)
    (payload : EmitPayload) : persisted (emitToRecipient recipient event payload) = [] := by
  cases recipient <;> rfl

/-- C19: on a socket of the user `socketUser`, for every payload: (1) the handlers of
`typing`, `message:read`, `call:initiate`, `call:signal` and `call:end` leave the state as
it is and write no document; (2) `typing` and `message:read` emit one event, `typing` with
`from` resp. `message:read` with the `messageId` of the payload and `by`, to the room named
by the recipient string of the payload or else by its group string, and none when both are
missing or empty; (3) the `call:` handlers emit `call:incoming`, `call:signal` resp.
`call:end` to the room named by the recipient string, with the `signalData` of the payload,
and reach no room when the recipient is missing; (4) so each handler emits at most one
event and its room is the recipient or else the group of the payload, for the `call:`
handlers the recipient, which is the same room unless the recipient is the empty string;
(5) `from` and `by` are `socketUser` whatever the payload holds,
and every message that `message:send` writes has `socketUser` as its sender. -/
theorem relay_handlers (st : State) (socketUser : ObjectId) (data : RelayData) :
    ((onTyping st socketUser data).state = st ∧ (onMessageRead st socketUser data).state = st ∧
      (onCallInitiate st socketUser data).state = st ∧
      (onCallSignal st socketUser data).state = st ∧
      (onCallEnd st socketUser data).state = st) ∧
    (persisted (onTyping st socketUser data).effects = [] ∧
      persisted (onMessageRead st socketUser data).effects = [] ∧
      persisted (onCallInitiate st socketUser data).effects = [] ∧
      persisted (onCallSignal st socketUser data).effects = [] ∧
      persisted (onCallEnd st socketUser data).effects = []) ∧
    (emitted (onTyping st socketUser data).effects =
        (orStr data.recipient data.group).toList.map
          (fun room => (room, "typing", .fromUser socketUser)) ∧
      emitted (onMessageRead st socketUser data).effects =
        (orStr data.recipient data.group).toList.map
          (fun room => (room, "message:read", .read data.messageId socketUser))) ∧
    (emitted (onCallInitiate st socketUser data).effects =
        data.recipient.toList.map
          (fun room => (room, "call:incoming", .signal socketUser data.signalData)) ∧
      emitted (onCallSignal st socketUser data).effects =
        data.recipient.toList.map
          (fun room => (room, "call:signal", .signal socketUser data.signalData)) ∧
      emitted (onCallEnd st socketUser data).effects =
        data.recipient.toList.map (fun room => (room, "call:end", .fromUser socketUser))) ∧
    ((∀ r ∈ [onTyping st socketUser data, onMessageRead st socketUser data],
        (emitted r.effects).length ≤ 1 ∧
        ∀ e ∈ emitted r.effects, some e.1 = orStr data.recipient data.group) ∧
      (∀ r ∈ [onCallInitiate st socketUser data, onCallSignal st socketUser data,
          onCallEnd st socketUser data],
        (emitted r.effects).length ≤ 1 ∧
        ∀ e ∈ emitted r.effects, some e.1 = data.recipient) ∧
      (data.recipient ≠ some "" →
        ∀ r ∈ [onCallInitiate st socketUser data, onCallSignal st socketUser data,
          onCallEnd st socketUser data],
        ∀ e ∈ emitted r.effects, some e.1 = orStr data.recipient data.group)) ∧
    (∀ (newId : ObjectId) (d : SendData),
      ∀ m ∈ persisted (onMessageSend newId st socketUser d).effects, m.sender = socketUser) := by
  refine ⟨⟨rfl, rfl, rfl, rfl, rfl⟩, ⟨persisted_emitTo _ _ _ _, persisted_emitTo _ _ _ _,
    persisted_emitToRecipient _ _ _, persisted_emitToRecipient _ _ _,
    persisted_emitToRecipient _ _ _⟩, ⟨emitted_emitTo _ _ _ _, emitted_emitTo _ _ _ _⟩,
    ⟨emitted_emitToRecipient _ _ _, emitted_emitToRecipient _ _ _,
      emitted_emitToRecipient _ _ _⟩, ?_, ?_⟩
  · refine ⟨?_, ?_, ?_⟩
    · intro r hr
      simp only [List.mem_cons, List.mem_singleton, List.not_mem_nil, or_false] at hr
      rcases hr with h | h <;> subst h
      · simp only [onTyping, emitted_emitTo]
        cases orStr data.recipient data.group <;> simp
      · simp only [onMessageRead, emitted_emitTo]
        cases orStr data.recipient data.group <;> simp
    · intro r hr
      simp only [List.mem_cons, List.mem_singleton, List.not_mem_nil, or_false] at hr
      rcases hr with h | h | h <;> subst h
      · simp only [onCallInitiate, emitted_emitToRecipient]
        cases data.recipient <;> simp
      · simp only [onCallSignal, emitted_emitToRecipient]
        cases data.recipient <;> simp
      · simp only [onCallEnd, emitted_emitToRecipient]
        cases data.recipient <;> simp
    · intro hne r hr
      have hroom : ∀ s, data.recipient = some s → orStr data.recipient data.group = some s := by
        intro s hs
        rw [hs]
        exact orStr_some_left (fun h => hne (by rw [hs, h])) _
      simp only [List.mem_cons, List.mem_singleton, List.not_mem_nil, or_false] at hr
      rcases hr with h | h | h <;> subst h
      · simp only [onCallInitiate, emitted_emitToRecipient]
        cases hr : data.recipient with
        | none => simp
        | some s =>
          have hs := hroom s hr
          rw [hr] at hs
          rw [hs]
          simp
      · simp only [onCallSignal, emitted_emitToRecipient]
        cases hr : data.recipient with
        | none => simp
        | some s =>
          have hs := hroom s hr
          rw [hr] at hs
          rw [hs]
          simp
      · simp only [onCallEnd, emitted_emitToRecipient]
        cases hr : data.recipient with
        | none => simp
        | some s =>
          have hs := hroom s hr
          rw [hr] at hs
          rw [hs]
          simp
  · intro newId d m hm
    rcases onMessageSend_messages newId st socketUser d with h | ⟨c, m', _, hcreate, _, h⟩
    · rcases h with h | h <;> rw [h] at hm <;> simp [persisted] at hm
    · rw [h] at hm
      simp only [persisted, persisted_emitTo, List.mem_singleton] at hm
      subst hm
      obtain ⟨_, _, _, _, _, hfields⟩ := createFromPayload_some hcreate
      rw [hfields]

/-- C19, witness: on a socket of user 1, `typing` with group 7 goes to room 7 with from 1,
although the payload holds a field `from`; `call:initiate` with recipient 2 goes to room 2
as `call:incoming` with the signal data of the payload; `call:initiate` with group 7 and no
recipient reaches no room. -/
theorem relay_handlers_witness :
    emitted (onTyping exState 1 ⟨none, some (hexString 7), none, none, [("from", "2")]⟩).effects
      = (orStr none (some (hexString 7))).toList.map
          (fun room => (room, "typing", .fromUser 1)) ∧
    (orStr none (some (hexString 7))).toList.map (fun room => (room, "typing", .fromUser 1)) =
      [(hexString 7, "typing", EmitPayload.fromUser 1)] ∧
    emitted (onCallInitiate exState 1 ⟨some (hexString 2), none, none, some "sdp", []⟩).effects =
      [(hexString 2, "call:incoming", .signal 1 (some "sdp"))] ∧
    emitted (onCallInitiate exState 1
        ⟨none, some (hexString 7), none, some "sdp", []⟩).effects = [] :=
  ⟨(relay_handlers exState 1 ⟨none, some (hexString 7), none, none, [("from", "2")]⟩).2.2.1.1,
   by decide,
   (relay_handlers exState 1 ⟨some (hexString 2), none, none, some "sdp", []⟩).2.2.2.1.1,
   (relay_handlers exState 1 ⟨none, some (hexString 7), none, some "sdp", []⟩).2.2.2.1.1⟩

/-! ## Rooms of the edit and delete events, moderation of edits -/

/-- C25: for the `message:edit` and `message:delete` handlers: an edit resp. delete that
passes the checks of the handler is written whatever the payload names as recipient and
group, and is emitted to the room named by the recipient string of the payload, or else by
its group string, or to no room when the payload has neither; the recipient and the group of
the stored message play no part; and for every payload the state after the handler is the one after the same
payload without recipient and group. -/
theorem edit_delete_room_from_payload (st : State) (socketUser : ObjectId) :
    (∀ (data : EditData) (id : ObjectId) (content : String) (m : Message),
      data.messageId = some id → data.content = some content → jsTrim content ≠ "" →
      Message.findById st.messages id = some m → m.sender = socketUser → m.deleted = false →
      persisted (onMessageEdit st socketUser data).effects =
          [{ m with content := jsTrim content, edited := true }] ∧
        emitted (onMessageEdit st socketUser data).effects =
          (orStr data.recipient data.group).toList.map
            (fun room => (room, "message:edit",
              .message { m with content := jsTrim content, edited := true }))) ∧
    (∀ (data : DeleteData) (id : ObjectId) (m : Message),
      data.messageId = some id → Message.findById st.messages id = some m →
      m.sender = socketUser →
      persisted (onMessageDelete st socketUser data).effects = [{ m with deleted := true }] ∧
        emitted (onMessageDelete st socketUser data).effects =
          (orStr data.recipient data.group).toList.map
            (fun room => (room, "message:delete", .messageId id))) ∧
    (∀ data : EditData,
      (onMessageEdit st socketUser data).state =
        (onMessageEdit st socketUser { data with recipient := none, group := none }).state) ∧
    (∀ data : DeleteData,
      (onMessageDelete st socketUser data).state =
        (onMessageDelete st socketUser { data with recipient := none, group := none }).state) := by
  refine ⟨?_, ?_, ?_, ?_⟩
  · intro data id content m hid hc htrim hm hs hd
    rw [onMessageEdit_ok st socketUser data id content m hid hc htrim hm hs hd]
    simp [persisted, persisted_emitTo, emitted, emitted_emitTo]
  · intro data id m hid hm hs
    rw [onMessageDelete_ok st socketUser data id m hid hm hs]
    simp [persisted, persisted_emitTo, emitted, emitted_emitTo]
  · intro data
    rw [onMessageEdit_state, onMessageEdit_state]
  · intro data
    rcases onMessageDelete_cases st socketUser data with ⟨id, m, hid, hm, hs⟩ | h
    · rw [onMessageDelete_ok st socketUser data id m hid hm hs,
        onMessageDelete_ok st socketUser { data with recipient := none, group := none } id m hid
          hm hs]
    · rcases onMessageDelete_cases st socketUser { data with recipient := none, group := none }
        with ⟨id, m, hid, hm, hs⟩ | h'
      · rw [onMessageDelete_ok st socketUser data id m hid hm hs] at h
        simp at h
      · rw [h, h']

/-- C25, witness: the stored message 50 of user 1 is addressed to user 2; its edit with a
payload that names recipient 9 is emitted to room 9, its edit with a payload that names
neither is written and emitted to no room, its delete with group 7 is emitted to room 7. -/
theorem edit_delete_room_from_payload_witness :
    emitted (onMessageEdit exStored 1 ⟨some 50, some "new", some (hexString 9), none⟩).effects =
      [(hexString 9, "message:edit",
        .message { exMessage with content := jsTrim "new", edited := true })] ∧
    persisted (onMessageEdit exStored 1 ⟨some 50, some "new", none, none⟩).effects =
      [{ exMessage with content := jsTrim "new", edited := true }] ∧
    emitted (onMessageEdit exStored 1 ⟨some 50, some "new", none, none⟩).effects = [] ∧
    emitted (onMessageDelete exStored 1 ⟨some 50, none, some (hexString 7)⟩).effects =
      [(hexString 7, "message:delete", .messageId 50)] :=
  ⟨(((edit_delete_room_from_payload exStored 1).1 ⟨some 50, some "new", some (hexString 9), none⟩
      50 "new" exMessage rfl rfl (by decide) (by decide) (by decide) (by decide)).2).trans
      (by decide),
   ((edit_delete_room_from_payload exStored 1).1 ⟨some 50, some "new", none, none⟩ 50 "new"
      exMessage rfl rfl (by decide) (by decide) (by decide) (by decide)).1,
   (((edit_delete_room_from_payload exStored 1).1 ⟨some 50, some "new", none, none⟩ 50 "new"
      exMessage rfl rfl (by decide) (by decide) (by decide) (by decide)).2).trans (by decide),
   (((edit_delete_room_from_payload exStored 1).2.1 ⟨some 50, none, some (hexString 7)⟩ 50
      exMessage rfl (by decide) (by decide)).2).trans (by decide)⟩

/-- C27, counterexample: user 1 edits the own, not deleted message 50 with the non-empty
content of one tab: the edit is not accepted, the answer is 500 and the stored content is
still "hello". -/
theorem editMessage_tab_not_accepted :
    Message.findById exStored.messages 50 = some exMessage ∧ exMessage.sender = 1 ∧
    exMessage.deleted = false ∧
    (editMessage exStored 1 ⟨some 50, some "\t"⟩).res = ⟨500, .serverError⟩ ∧
    (editMessage exStored 1 ⟨some 50, some "\t"⟩).state.messages.map (fun m => m.content)
      = ["hello"] := by
  decide

/-- C27, amended: `editMessage` accepts from the sender of a stored, not deleted message
every content whose trimmed form is not empty: the answer is 200 and the trimmed content is
stored, whatever the profanity classifier says of it, whatever the block-lists and the
spam window hold; so a content that `sendMessage` answers with the 400 of the profanity
check is stored through an edit; and no edit, on the request path or on a connection,
changes the spam window or a user. -/
theorem editMessage_not_moderated (st : State) (user : ObjectId) :
    (∀ (id : ObjectId) (content : String) (m : Message), jsTrim content ≠ "" →
      Message.findById st.messages id = some m → m.sender = user → m.deleted = false →
      (∀ (users : List User) (lastMessages : List (SpamKey × SpamEntry)),
        (editMessage ⟨users, st.messages, lastMessages⟩ user ⟨some id, some content⟩).res =
          ⟨200, .message { m with content := jsTrim content, edited := true }⟩ ∧
        Message.findById
            (editMessage ⟨users, st.messages, lastMessages⟩ user
              ⟨some id, some content⟩).state.messages id =
          some { m with content := jsTrim content, edited := true }) ∧
      (∀ (isProfane : String → Bool) (now : Int) (newId : ObjectId) (body : SendBody)
        (target : String), isProfane content = true → body.content = some content →
        orStr body.recipient body.group = some target →
        blockGate st user body.recipient = none →
        (sendMessage isProfane now newId st user body).res =
            ⟨400, .error "Message contains inappropriate language."⟩ ∧
          (editMessage st user ⟨some id, some content⟩).res.status = 200)) ∧
    (∀ body : EditBody,
      (editMessage st user body).state.lastMessages = st.lastMessages ∧
      (editMessage st user body).state.users = st.users) ∧
    (∀ data : EditData,
      (onMessageEdit st user data).state.lastMessages = st.lastMessages ∧
      (onMessageEdit st user data).state.users = st.users) := by
  have hframe : ∀ body : EditBody,
      (editMessage st user body).state.lastMessages = st.lastMessages ∧
      (editMessage st user body).state.users = st.users := by
    intro body
    rcases editMessage_cases st user body with ⟨id, c, m, hid, hc, htrim, hm, hs, hd⟩ | ⟨h, _⟩
    · rw [editMessage_ok st user body id c m hid hc htrim hm hs hd]
      exact ⟨rfl, rfl⟩
    · rw [h]
      exact ⟨rfl, rfl⟩
  refine ⟨?_, hframe, ?_⟩
  · intro id content m htrim hm hs hd
    constructor
    · intro users lastMessages
      have hok := editMessage_ok ⟨users, st.messages, lastMessages⟩ user ⟨some id, some content⟩
        id content m rfl rfl htrim hm hs hd
      rw [hok]
      refine ⟨rfl, ?_⟩
      have hmid : m._id = id := findMessage_id hm
      have := findMessage_replaceMessage_self
        { m with content := jsTrim content, edited := true } st.messages m
        (by show Message.findById st.messages m._id = some m; rw [hmid]; exact hm)
      rw [← hmid]
      exact this
    · intro isProfane now newId body target hp hc ht hb
      constructor
      · unfold sendMessage
        simp [hc, ht, ne_empty_of_jsTrim_ne htrim, hb, hp]
      · rw [editMessage_ok st user ⟨some id, some content⟩ id content m rfl rfl htrim hm hs hd]
  · intro data
    rw [onMessageEdit_state]
    exact hframe _

/-- C27, witness: user 1 edits the own message 50 with the word that the classifier flags:
`sendMessage` answers that word with 400, the edit is answered 200 and stores it. -/
theorem editMessage_not_moderated_witness :
    (sendMessage exProfane 0 100 exStored 1 (exBody "darn")).res =
      ⟨400, .error "Message contains inappropriate language."⟩ ∧
    (editMessage exStored 1 ⟨some 50, some "darn"⟩).res.status = 200 ∧
    Message.findById (editMessage exStored 1 ⟨some 50, some "darn"⟩).state.messages 50 =
      some { exMessage with content := jsTrim "darn", edited := true } :=
  ⟨(((editMessage_not_moderated exStored 1).1 50 "darn" exMessage (by decide) (by decide)
      (by decide) (by decide)).2 exProfane 0 100 (exBody "darn") (hexString 2) (by decide) rfl
      (by decide) (by decide)).1,
   (((editMessage_not_moderated exStored 1).1 50 "darn" exMessage (by decide) (by decide)
      (by decide) (by decide)).2 exProfane 0 100 (exBody "darn") (hexString 2) (by decide) rfl
      (by decide) (by decide)).2,
   (((editMessage_not_moderated exStored 1).1 50 "darn" exMessage (by decide) (by decide)
      (by decide) (by decide)).1 exStored.users exStored.lastMessages).2⟩

/-! ## The token of a request -/

theorem splitSpace_of_no_space (p : List Char) (hp : ' ' ∉ p) : splitSpace p = [p] := by
  induction p with
  | nil => rfl
  | cons c cs ih =>
    have hc : c ≠ ' ' := fun e => hp (e ▸ List.mem_cons_self _ _)
    have hcs : ' ' ∉ cs := fun h => hp (List.mem_cons_of_mem _ h)
    simp [splitSpace, hc, ih hcs]

theorem splitSpace_append_space (p rest : List Char) (hp : ' ' ∉ p) :
    splitSpace (p ++ ' ' :: rest) = p :: splitSpace rest := by
  induction p with
  | nil => simp [splitSpace]
  | cons c cs ih =>
    have hc : c ≠ ' ' := fun e => hp (e ▸ List.mem_cons_self _ _)
    have hcs : ' ' ∉ cs := fun h => hp (List.mem_cons_of_mem _ h)
    simp [splitSpace, hc, ih hcs]

theorem bearer_ne_empty (a : String) (h : "Bearer".data.isPrefixOf a.data = true) : a ≠ "" := by
  intro ha
  subst ha
  revert h
  decide

/-- C30: the token of a request: (1) when the Authorization header starts with 'Bearer', the
token is the second piece of the header split at its spaces, and the cookie is not read;
(2) without such a header the token is the one of the cookie; (3) the second piece is the
text between the first and the second space, or the end, and there is none when the header
has no space; (4) a header that starts with 'Bearer' and has no second piece, or an empty
one, is answered 401 'token missing' whatever the cookie holds; (5) a header whose second
piece is a token that verifies and names a stored user lets the request pass as that user
whatever the cookie holds. -/
theorem token_from_header_first (jwtVerify : String → Option ObjectId) (st : State)
    (req : AuthRequest) :
    (∀ a, req.authorization = some a → "Bearer".data.isPrefixOf a.data = true →
      requestToken req = ((splitSpace a.data)[1]?).map String.mk) ∧
    ((req.authorization = none ∨
        ∃ a, req.authorization = some a ∧ "Bearer".data.isPrefixOf a.data = false) →
      requestToken req = req.cookieToken) ∧
    ((∀ p t rest : List Char, ' ' ∉ p → ' ' ∉ t → (rest = [] ∨ ∃ r, rest = ' ' :: r) →
        (splitSpace (p ++ ' ' :: (t ++ rest)))[1]? = some t) ∧
      (∀ p : List Char, ' ' ∉ p → (splitSpace p)[1]? = none)) ∧
    (∀ a, req.authorization = some a → "Bearer".data.isPrefixOf a.data = true →
      ((splitSpace a.data)[1]? = none ∨ (splitSpace a.data)[1]? = some []) →
      authMiddleware jwtVerify st req =
        .respond ⟨401, .error "Not authorized, token missing."⟩) ∧
    (∀ a t id u, req.authorization = some a → "Bearer".data.isPrefixOf a.data = true →
      (splitSpace a.data)[1]? = some t.data → t ≠ "" → jwtVerify t = some id →
      User.findById st.users id = some u → authMiddleware jwtVerify st req = .next u) := by
  have htoken : ∀ a, req.authorization = some a → "Bearer".data.isPrefixOf a.data = true →
      requestToken req = ((splitSpace a.data)[1]?).map String.mk := by
    intro a ha hb
    unfold requestToken
    simp [ha, hb, bearer_ne_empty a hb]
  refine ⟨htoken, ?_, ⟨?_, ?_⟩, ?_, ?_⟩
  · rintro (h | ⟨a, ha, hb⟩)
    · unfold requestToken
      simp [h]
    · unfold requestToken
      simp [ha, hb]
  · intro p t rest hp ht hrest
    rw [splitSpace_append_space p _ hp]
    rcases hrest with h | ⟨r, h⟩
    · subst h
      rw [List.append_nil, splitSpace_of_no_space t ht]
      rfl
    · subst h
      rw [splitSpace_append_space t r ht]
      simp
  · intro p hp
    rw [splitSpace_of_no_space p hp]
    rfl
  · intro a ha hb hnone
    unfold authMiddleware
    rw [htoken a ha hb]
    rcases hnone with h | h
    · simp [h]
    · rw [h]
      simp
  · intro a t id u ha hb ht hne hv hu
    unfold authMiddleware
    rw [htoken a ha hb, ht]
    simp [hne, hv, hu]

/-- C30, witness: the header 'Bearer' without a token is answered 401 although the cookie
holds the valid token of user 1; with the header token of user 2 and the cookie token of
user 1 the request passes as user 2. -/
theorem token_from_header_first_witness :
    authMiddleware exVerify exState ⟨some "Bearer", some "t1"⟩ =
      .respond ⟨401, .error "Not authorized, token missing."⟩ ∧
    authMiddleware exVerify exState ⟨some "Bearer t2", some "t1"⟩ =
      .next ⟨2, false, [], false, []⟩ ∧
    authMiddleware exVerify exState ⟨none, some "t1"⟩ = .next ⟨1, false, [], false, []⟩ :=
  ⟨(token_from_header_first exVerify exState ⟨some "Bearer", some "t1"⟩).2.2.2.1 "Bearer" rfl
      (by decide) (Or.inl (by decide)),
   (token_from_header_first exVerify exState ⟨some "Bearer t2", some "t1"⟩).2.2.2.2 "Bearer t2"
      "t2" 2 ⟨2, false, [], false, []⟩ rfl (by decide) (by decide) (by decide) (by decide)
      (by decide),
   by decide⟩

/-! ## Reactions -/

theorem mapGet_mapDelete_self {κ ν : Type} [DecidableEq κ] (m : List (κ × ν)) (k : κ) :
    mapGet (mapDelete m k) k = none := by
  induction m with
  | nil => rfl
  | cons p rest ih =>
    obtain ⟨k', v'⟩ := p
    by_cases h : k' = k
    · simp [mapDelete, h, ih]
    · simp [mapDelete, mapGet, h, ih]

theorem mapGet_mapDelete_of_ne {κ ν : Type} [DecidableEq κ] (m : List (κ × ν)) {k k' : κ}
    (hk : k' ≠ k) : mapGet (mapDelete m k) k' = mapGet m k' := by
  induction m with
  | nil => rfl
  | cons p rest ih =>
    obtain ⟨k₀, v₀⟩ := p
    by_cases h : k₀ = k
    · subst h
      simp [mapDelete, mapGet, Ne.symm hk, ih]
    · by_cases h' : k₀ = k'
      · subst h'
        simp [mapDelete, mapGet, h]
      · simp [mapDelete, mapGet, h, h', ih]

theorem mapSet_mapSet {κ ν : Type} [DecidableEq κ] (m : List (κ × ν)) (k : κ) (v w : ν) :
    mapSet (mapSet m k v) k w = mapSet m k w := by
  induction m with
  | nil => simp [mapSet]
  | cons p rest ih =>
    obtain ⟨k', v'⟩ := p
    by_cases h : k' = k
    · simp [mapSet, h]
    · simp [mapSet, h, ih]

theorem mapSet_of_mapGet {κ ν : Type} [DecidableEq κ] (m : List (κ × ν)) (k : κ) (v : ν)
    (h : mapGet m k = some v) : mapSet m k v = m := by
  induction m with
  | nil => simp [mapGet] at h
  | cons p rest ih =>
    obtain ⟨k', v'⟩ := p
    by_cases hk : k' = k
    · subst hk
      simp [mapGet] at h
      simp [mapSet, h]
    · simp [mapGet, hk] at h
      simp [mapSet, hk, ih h]

theorem mapDelete_mapSet_of_none {κ ν : Type} [DecidableEq κ] (m : List (κ × ν)) (k : κ) (v : ν)
    (h : mapGet m k = none) : mapDelete (mapSet m k v) k = m := by
  induction m with
  | nil => simp [mapSet, mapDelete]
  | cons p rest ih =>
    obtain ⟨k', v'⟩ := p
    by_cases hk : k' = k
    · simp [mapGet, hk] at h
    · simp [mapGet, hk] at h
      simp [mapSet, mapDelete, hk, ih h]

theorem replaceMessage_replaceMessage (m m1 : Message) (msgs : List Message)
    (h : m1._id = m._id) : replaceMessage m (replaceMessage m1 msgs) = replaceMessage m msgs := by
  induction msgs with
  | nil => rfl
  | cons x rest ih =>
    by_cases hx : x._id = m._id
    · simp [replaceMessage, hx, h]
    · simp [replaceMessage, hx, h, ih]

/-- The path of `addReaction` with an emoji and a stored message. -/
theorem addReaction_ok (st : State) (user id : ObjectId) (e : String) (m : Message)
    (he : e ≠ "") (hm : Message.findById st.messages id = some m) :
    addReaction st user ⟨some id, some e⟩ =
      if ((mapGet m.reactions e).getD []).contains user then
        ⟨⟨200, .reactions m.reactions⟩, st, []⟩
      else
        ⟨⟨200, .reactions (mapSet m.reactions e ((mapGet m.reactions e).getD [] ++ [user]))⟩,
          { st with
            messages := replaceMessage
              { m with
                reactions := mapSet m.reactions e ((mapGet m.reactions e).getD [] ++ [user]) }
              st.messages }, []⟩ := by
  unfold addReaction
  simp [he, hm]

/-- The path of `removeReaction` with an emoji and a stored message. -/
theorem removeReaction_ok (st : State) (user id : ObjectId) (e : String) (m : Message)
    (he : e ≠ "") (hm : Message.findById st.messages id = some m) :
    removeReaction st user ⟨some id, some e⟩ =
      ⟨⟨200, .reactions
          (if (((mapGet m.reactions e).getD []).filter (fun x => x ≠ user)).length > 0 then
            mapSet m.reactions e (((mapGet m.reactions e).getD []).filter (fun x => x ≠ user))
          else mapDelete m.reactions e)⟩,
        { st with
          messages := replaceMessage
            { m with
              reactions :=
                if (((mapGet m.reactions e).getD []).filter (fun x => x ≠ user)).length > 0 then
                  mapSet m.reactions e
                    (((mapGet m.reactions e).getD []).filter (fun x => x ≠ user))
                else mapDelete m.reactions e }
            st.messages }, []⟩ := by
  unfold removeReaction
  simp [he, hm]

/-- The document written by a handler is the one found afterwards. -/
theorem findMessage_after_replace (st : State) (id : ObjectId) (m m1 : Message)
    (hm : Message.findById st.messages id = some m) (hid : m1._id = m._id) :
    Message.findById (replaceMessage m1 st.messages) id = some m1 := by
  have hmid : m._id = id := findMessage_id hm
  have := findMessage_replaceMessage_self m1 st.messages m
    (by rw [hid, hmid]; exact hm)
  rw [hid, hmid] at this
  exact this

/-- C24: for a stored message whose reaction map holds duplicate-free, non-empty reactor
lists, an emoji `e` and a user `u`: after `addReaction` the list of `e` holds `u` exactly
once and the map is still well formed; a second `addReaction` changes nothing; after
`removeReaction` the list of `e` no longer holds `u`, keeps every other reactor, the key is
gone exactly when no reactor remains, and the map is still well formed (no emoji maps to an
empty list); the entries of the other emojis are never changed; and `addReaction` followed
by `removeReaction` by a user who had not reacted with `e` restores the original store. -/
theorem reactions_are_sets (st : State) (user id : ObjectId) (e : String) (m : Message)
    (he : e ≠ "") (hm : Message.findById st.messages id = some m)
    (hok : ReactionsOk m.reactions) :
    (∃ ma, Message.findById (addReaction st user ⟨some id, some e⟩).state.messages id = some ma ∧
        ((mapGet ma.reactions e).getD []).count user = 1 ∧
        ReactionsOk ma.reactions ∧
        (∀ k, k ≠ e → mapGet ma.reactions k = mapGet m.reactions k)) ∧
    (addReaction (addReaction st user ⟨some id, some e⟩).state user ⟨some id, some e⟩).state =
        (addReaction st user ⟨some id, some e⟩).state ∧
    (∃ mr, Message.findById (removeReaction st user ⟨some id, some e⟩).state.messages id =
          some mr ∧
        user ∉ (mapGet mr.reactions e).getD [] ∧
        (∀ x, x ≠ user →
          (x ∈ (mapGet mr.reactions e).getD [] ↔ x ∈ (mapGet m.reactions e).getD [])) ∧
        (mapGet mr.reactions e = none ↔ ∀ x ∈ (mapGet m.reactions e).getD [], x = user) ∧
        ReactionsOk mr.reactions ∧
        (∀ k, k ≠ e → mapGet mr.reactions k = mapGet m.reactions k)) ∧
    (user ∉ (mapGet m.reactions e).getD [] →
      (removeReaction (addReaction st user ⟨some id, some e⟩).state user
          ⟨some id, some e⟩).state = st) := by
  have hmid : m._id = id := findMessage_id hm
  have hL : ((mapGet m.reactions e).getD []).Nodup := by
    cases hg : mapGet m.reactions e with
    | none => simp
    | some l => simpa using (hok e l hg).1
  have hrep : replaceMessage m st.messages = st.messages :=
    replaceMessage_of_findById m st.messages (by rw [hmid]; exact hm)
  refine ⟨?_, ?_, ?_, ?_⟩
  · rw [addReaction_ok st user id e m he hm]
    by_cases hc : ((mapGet m.reactions e).getD []).contains user = true
    · rw [if_pos hc]
      refine ⟨m, hm, ?_, hok, fun _ _ => rfl⟩
      exact List.count_eq_one_of_mem hL (by simpa using hc)
    · rw [if_neg hc]
      have hnot : user ∉ (mapGet m.reactions e).getD [] := by simpa using hc
      refine ⟨_, findMessage_after_replace st id m _ hm rfl, ?_, ?_, ?_⟩
      · simp [mapGet_mapSet_self, List.count_eq_zero_of_not_mem hnot]
      · intro k l hk
        by_cases hke : k = e
        · subst hke
          simp only [mapGet_mapSet_self, Option.some.injEq] at hk
          subst hk
          refine ⟨?_, by simp⟩
          rw [List.nodup_append]
          refine ⟨hL, List.nodup_singleton _, ?_⟩
          intro a ha hb
          simp only [List.mem_singleton] at hb
          subst hb
          exact hnot ha
        · simp only [mapGet_mapSet_of_ne _ _ hke] at hk
          exact hok k l hk
      · intro k hk
        simp [mapGet_mapSet_of_ne _ _ hk]
  · rw [addReaction_ok st user id e m he hm]
    by_cases hc : ((mapGet m.reactions e).getD []).contains user = true
    · rw [if_pos hc]
      simp only []
      rw [addReaction_ok st user id e m he hm, if_pos hc]
    · rw [if_neg hc]
      simp only []
      have hfa := findMessage_after_replace st id m
        { m with
          reactions := mapSet m.reactions e ((mapGet m.reactions e).getD [] ++ [user]) }
        hm rfl
      rw [addReaction_ok _ user id e _ he hfa]
      simp [mapGet_mapSet_self]
  · rw [removeReaction_ok st user id e m he hm]
    refine ⟨_, findMessage_after_replace st id m _ hm rfl, ?_, ?_, ?_, ?_, ?_⟩
    · simp only []
      split
      · simp [mapGet_mapSet_self]
      · simp [mapGet_mapDelete_self]
    · intro x hx
      simp only []
      split
      · simp [mapGet_mapSet_self, hx]
      · rename_i hlen
        simp only [mapGet_mapDelete_self, Option.getD_none, List.not_mem_nil, false_iff]
        intro hmem
        apply hlen
        apply List.length_pos_of_mem
        exact List.mem_filter.mpr ⟨hmem, by simpa using hx⟩
    · simp only []
      split
      · rename_i hlen
        simp only [mapGet_mapSet_self, reduceCtorEq, false_iff]
        intro hall
        have : ((mapGet m.reactions e).getD []).filter (fun x => x ≠ user) = [] := by
          rw [List.filter_eq_nil_iff]
          intro a ha
          simpa using hall a ha
        rw [this] at hlen
        simp at hlen
      · rename_i hlen
        simp only [mapGet_mapDelete_self, true_iff]
        intro x hx
        by_contra hne
        apply hlen
        apply List.length_pos_of_mem
        exact List.mem_filter.mpr ⟨hx, by simpa using hne⟩
    · intro k l hk
      simp only [] at hk
      by_cases hke : k = e
      · subst hke
        split at hk
        · rename_i hlen
          simp only [mapGet_mapSet_self, Option.some.injEq] at hk
          subst hk
          exact ⟨hL.filter _, List.ne_nil_of_length_pos hlen⟩
        · simp [mapGet_mapDelete_self] at hk
      · split at hk
        · rw [mapGet_mapSet_of_ne _ _ hke] at hk
          exact hok k l hk
        · rw [mapGet_mapDelete_of_ne _ hke] at hk
          exact hok k l hk
    · intro k hk
      simp only []
      split
      · exact mapGet_mapSet_of_ne _ _ hk
      · exact mapGet_mapDelete_of_ne _ hk
  · intro hnot
    have hc : ¬ (((mapGet m.reactions e).getD []).contains user = true) := by simpa using hnot
    rw [addReaction_ok st user id e m he hm, if_neg hc]
    simp only []
    have hfa := findMessage_after_replace st id m
      { m with
        reactions := mapSet m.reactions e ((mapGet m.reactions e).getD [] ++ [user]) }
      hm rfl
    rw [removeReaction_ok _ user id e _ he hfa]
    have hfilter : (((mapGet m.reactions e).getD []) ++ [user]).filter (fun x => x ≠ user) =
        (mapGet m.reactions e).getD [] := by
      rw [List.filter_append]
      have h1 : ((mapGet m.reactions e).getD []).filter (fun x => x ≠ user) =
          (mapGet m.reactions e).getD [] := by
        rw [List.filter_eq_self]
        intro a ha
        have : a ≠ user := fun h => hnot (h ▸ ha)
        simpa using this
      rw [h1]
      simp
    have hmap : (if ((((mapGet m.reactions e).getD []) ++ [user]).filter
            (fun x => x ≠ user)).length > 0 then
          mapSet (mapSet m.reactions e ((mapGet m.reactions e).getD [] ++ [user])) e
            ((((mapGet m.reactions e).getD []) ++ [user]).filter (fun x => x ≠ user))
        else mapDelete (mapSet m.reactions e ((mapGet m.reactions e).getD [] ++ [user])) e) =
        m.reactions := by
      rw [hfilter]
      cases hg : mapGet m.reactions e with
      | none =>
        simp only [Option.getD_none, List.length_nil, gt_iff_lt, lt_self_iff_false, if_false]
        exact mapDelete_mapSet_of_none _ _ _ hg
      | some l =>
        have hl : l ≠ [] := (hok e l hg).2
        simp only [Option.getD_some]
        rw [if_pos (List.length_pos.mpr hl), mapSet_mapSet]
        exact mapSet_of_mapGet _ _ _ hg
    simp only [mapGet_mapSet_self, Option.getD_some]
    simp only [mapGet_mapSet_self, Option.getD_some] at hmap
    rw [hmap]
    have hmm : ({ m with reactions := m.reactions } : Message) = m := rfl
    rw [hmm, replaceMessage_replaceMessage m
      { m with reactions := mapSet m.reactions e ((mapGet m.reactions e).getD [] ++ [user]) }
      st.messages rfl, hrep]

/-- C24, evaluated: user 2 reacts to the stored message of `exStored` with a thumbs-up and
removes the reaction again. -/
theorem reactions_are_sets_witness :
    ("+1" : String) ≠ "" ∧ Message.findById exStored.messages 50 = some exMessage ∧
    ReactionsOk exMessage.reactions ∧
    (addReaction exStored 2 ⟨some 50, some "+1"⟩).res = ⟨200, .reactions [("+1", [2])]⟩ ∧
    (removeReaction (addReaction exStored 2 ⟨some 50, some "+1"⟩).state 2
        ⟨some 50, some "+1"⟩).state = exStored :=
  ⟨by decide, by decide, fun k l h => by simp [exMessage, mapGet] at h, by decide,
    (reactions_are_sets exStored 2 50 "+1" exMessage (by decide) (by decide)
      (fun k l h => by simp [exMessage, mapGet] at h)).2.2.2 (by decide)⟩

/-! ## Forwarding -/

/-- C28: for every store, every requester, every stored original (a document of the message
schema: content trimmed and non-empty) and every recipient or group, `forwardMessage` answers
201 and appends one new message: sender the requester, the given recipient and group, content
and attachment of the original, parentMessage the original's parentMessage and not its id.
Neither the block-lists, nor a classifier, nor the spam tracker, nor the sender and addressee
of the original enter the result. -/
theorem forwardMessage_copies_unchecked (newId : ObjectId) (st : State) (user id : ObjectId)
    (original : Message) (recipient group : Option ObjectId)
    (hm : Message.findById st.messages id = some original)
    (haddr : orJs recipient group ≠ none)
    (htrim : jsTrim original.content = original.content) (hne : original.content ≠ "") :
    forwardMessage newId st user ⟨some id, recipient, group⟩ =
      ⟨⟨201, .message
          { _id := newId, sender := user, recipient := recipient, group := group,
            content := original.content, attachment := original.attachment,
            read := false, edited := false, deleted := false, reactions := [],
            parentMessage := original.parentMessage }⟩,
        { st with
          messages := st.messages ++
            [{ _id := newId, sender := user, recipient := recipient, group := group,
               content := original.content, attachment := original.attachment,
               read := false, edited := false, deleted := false, reactions := [],
               parentMessage := original.parentMessage }] }, []⟩ := by
  unfold forwardMessage
  cases haddr2 : orJs recipient group with
  | none => exact absurd haddr2 haddr
  | some a =>
    simp only [hm]
    have hc : Message.create newId user recipient group original.content
        (some original.attachment) original.parentMessage =
        some { _id := newId, sender := user, recipient := recipient, group := group,
               content := original.content, attachment := original.attachment,
               read := false, edited := false, deleted := false, reactions := [],
               parentMessage := original.parentMessage } := by
      unfold Message.create
      rw [htrim, if_neg hne]
      rfl
    rw [hc]

/-- C28, evaluated: user 1 has blocked user 2; user 2, the addressee of message 50, forwards
it to user 1 and gets 201 with a copy whose parentMessage is null, while a send of the same
content from user 2 to user 1 is answered 403. -/
theorem forwardMessage_copies_unchecked_witness :
    Message.findById exBlockedStored.messages 50 = some exMessage ∧
    orJs (some 1) none ≠ none ∧
    forwardMessage 51 exBlockedStored 2 ⟨some 50, some 1, none⟩ =
      ⟨⟨201, .message ⟨51, 2, some 1, none, "hello", "", false, false, false, [], none⟩⟩,
        { exBlockedStored with
          messages := [exMessage,
            ⟨51, 2, some 1, none, "hello", "", false, false, false, [], none⟩] }, []⟩ ∧
    (sendMessage exProfane 0 51 exBlockedStored 2
        ⟨some (hexString 1), none, some "hello", none, none⟩).res.status = 403 :=
  ⟨by decide, by decide,
    forwardMessage_copies_unchecked 51 exBlockedStored 2 50 exMessage (some 1) none
      (by decide) (by decide) (by decide) (by decide),
    by decide⟩

/-! ## History -/

/-- With a `userId` or a `groupId` in the query, a message that passes `historyFilter` was
sent by the requester, is addressed to the requester, or belongs to the requested group. -/
theorem historyFilter_scoped (me : ObjectId) (userId groupId : Option ObjectId)
    (blocked : List ObjectId) (m : Message) (hq : userId ≠ none ∨ groupId ≠ none)
    (h : historyFilter me userId groupId blocked m = true) :
    m.sender = me ∨ m.recipient = some me ∨ (groupId ≠ none ∧ m.group = groupId) := by
  unfold historyFilter at h
  cases userId with
  | some userId =>
    simp only [Bool.and_eq_true, Bool.or_eq_true, beq_iff_eq] at h
    rcases h.1 with h1 | h1
    · exact Or.inl h1.1
    · exact Or.inr (Or.inl h1.2)
  | none =>
    cases groupId with
    | some groupId =>
      simp only [Bool.and_eq_true, beq_iff_eq] at h
      exact Or.inr (Or.inr ⟨by simp, h.1⟩)
    | none => simp at hq

/-- C26: a request of user 1 with neither `userId` nor `groupId` is answered, by
`getMessages` and by `getChatHistory`, with the direct message that user 2 sent to user 3:
without the two parameters the filter holds no condition on sender, recipient or group.
The filter of `searchMessages` excludes the same message for the same request. -/
theorem history_selects_foreign_direct_message :
    exForeign.sender ≠ 1 ∧ exForeign.recipient ≠ some 1 ∧ exForeign.group = none ∧
    getMessages exForeignStored 1 ⟨none, none, none, none⟩ =
      ⟨⟨200, .messages [exForeign]⟩, exForeignStored, []⟩ ∧
    getChatHistory exForeignStored 1 ⟨none, none, none, none⟩ =
      ⟨⟨200, .messages [exForeign]⟩, exForeignStored, []⟩ ∧
    searchScope 1 none none (blockedBy exForeignStored.users 1) exForeign = false := by
  decide

/-! ## Groups -/

theorem mem_jsSet (l : List String) (x : String) : x ∈ jsSet l ↔ x ∈ l := by
  induction l with
  | nil => simp [jsSet]
  | cons a rest ih =>
    by_cases h : x = a
    · simp [jsSet, h]
    · simp [jsSet, h, ih]

theorem nodup_jsSet (l : List String) : (jsSet l).Nodup := by
  induction l with
  | nil => simp [jsSet]
  | cons a rest ih =>
    simp only [jsSet, List.nodup_cons]
    exact ⟨by simp, ih.filter _⟩

theorem mapGet_map_key (l : List String) (f : String → String) (x : String) :
    mapGet (l.map (fun id => (id, f id))) x = if x ∈ l then some (f x) else none := by
  induction l with
  | nil => simp [mapGet]
  | cons a rest ih =>
    by_cases h : a = x
    · simp [mapGet, h]
    · have h' : ¬ x = a := fun e => h e.symm
      simp [mapGet, h, h', ih]

/-- The ids that an array of strings casts to: the casts of its strings. -/
theorem mem_castAll {l : List String} {ids : List ObjectId} (h : castAll l = some ids)
    (x : ObjectId) : x ∈ ids ↔ ∃ s ∈ l, castObjectId s = some x := by
  induction l generalizing ids with
  | nil =>
    simp only [castAll, Option.some.injEq] at h
    subst h
    simp
  | cons a rest ih =>
    simp only [castAll] at h
    cases ha : castObjectId a with
    | none => simp [ha] at h
    | some id =>
      cases hr : castAll rest with
      | none => simp [ha, hr] at h
      | some ids' =>
        simp only [ha, hr, Option.some.injEq] at h
        subst h
        simp only [List.mem_cons, ih hr]
        constructor
        · rintro (h1 | ⟨s, hs, hc⟩)
          · exact ⟨a, Or.inl rfl, by rw [ha, h1]⟩
          · exact ⟨s, Or.inr hs, hc⟩
        · rintro ⟨s, hs | hs, hc⟩
          · subst hs
            rw [ha] at hc
            exact Or.inl (Option.some.inj hc).symm
          · exact Or.inr ⟨s, hs, hc⟩

theorem length_castAll {l : List String} {ids : List ObjectId} (h : castAll l = some ids) :
    ids.length = l.length := by
  induction l generalizing ids with
  | nil =>
    simp only [castAll, Option.some.injEq] at h
    subst h
    rfl
  | cons a rest ih =>
    simp only [castAll] at h
    cases ha : castObjectId a with
    | none => simp [ha] at h
    | some id =>
      cases hr : castAll rest with
      | none => simp [ha, hr] at h
      | some ids' =>
        simp only [ha, hr, Option.some.injEq] at h
        subst h
        simp [ih hr]

theorem findGroup_id {groups : List Group} {id : ObjectId} {g : Group}
    (h : Group.findById groups id = some g) : g._id = id := by
  unfold Group.findById at h
  have := List.find?_some h
  simpa using this

theorem findGroup_replaceGroup_self (g : Group) (groups : List Group) (g0 : Group)
    (h : Group.findById groups g._id = some g0) :
    Group.findById (replaceGroup g groups) g._id = some g := by
  induction groups with
  | nil => simp [Group.findById] at h
  | cons x rest ih =>
    by_cases hx : x._id = g._id
    · simp [replaceGroup, hx, Group.findById]
    · have h' : Group.findById rest g._id = some g0 := by
        simpa [Group.findById, List.find?_cons, hx] using h
      have := ih h'
      simpa [replaceGroup, hx, Group.findById, List.find?_cons] using this

theorem findGroup_replaceGroup_of_ne (g : Group) (groups : List Group) {id : ObjectId}
    (h : id ≠ g._id) :
    Group.findById (replaceGroup g groups) id = Group.findById groups id := by
  induction groups with
  | nil => rfl
  | cons x rest ih =>
    by_cases hx : x._id = g._id
    · have hx' : ¬ x._id = id := fun e => h (e.symm.trans hx)
      have hg' : ¬ g._id = id := fun e => h e.symm
      simp [replaceGroup, hx, Group.findById, List.find?_cons, hx', hg']
    · by_cases hxi : x._id = id
      · subst hxi
        simp [replaceGroup, hx, Group.findById, List.find?_cons]
      · have := ih
        simpa [replaceGroup, hx, Group.findById, List.find?_cons, hxi] using this

theorem mem_replaceGroup {g x : Group} {groups : List Group}
    (h : x ∈ replaceGroup g groups) : x = g ∨ x ∈ groups := by
  induction groups with
  | nil => simp [replaceGroup] at h
  | cons y rest ih =>
    by_cases hy : y._id = g._id
    · simp only [replaceGroup, hy, if_true, List.mem_cons] at h
      rcases h with h | h
      · exact Or.inl h
      · exact Or.inr (List.mem_cons_of_mem _ h)
    · simp only [replaceGroup, hy, if_false, List.mem_cons] at h
      rcases h with h | h
      · exact Or.inr (h ▸ List.mem_cons_self _ _)
      · rcases ih h with h' | h'
        · exact Or.inl h'
        · exact Or.inr (List.mem_cons_of_mem _ h')

theorem findGroup_mem {groups : List Group} {id : ObjectId} {g : Group}
    (h : Group.findById groups id = some g) : g ∈ groups := by
  unfold Group.findById at h
  exact List.mem_of_find?_eq_some h

/-- The group that a write leaves under an id: the one that was there, or the written one
when it carries the id. -/
theorem findGroup_after_replace {groups : List Group} {gid id : ObjectId} {g group : Group}
    (group1 : Group) (hg : Group.findById groups gid = some g)
    (hgroup : Group.findById groups id = some group) (hid : group1._id = group._id) :
    (id ≠ gid ∧ Group.findById (replaceGroup group1 groups) gid = some g) ∨
    (group = g ∧ Group.findById (replaceGroup group1 groups) gid = some group1) := by
  have h1 : group._id = id := findGroup_id hgroup
  by_cases hne : id = gid
  · right
    subst hne
    have hgg : group = g := by
      rw [hgroup] at hg
      exact Option.some.inj hg
    refine ⟨hgg, ?_⟩
    have := findGroup_replaceGroup_self group1 groups group (by rw [hid, h1]; exact hgroup)
    rw [hid, h1] at this
    exact this
  · left
    refine ⟨hne, ?_⟩
    rw [findGroup_replaceGroup_of_ne group1 groups (by rw [hid, h1]; exact fun e => hne e.symm)]
    exact hg

/-- The result of a successful `createGroup`. -/
theorem createGroup_ok (newId : ObjectId) (groups : List Group) (user : ObjectId)
    (body : CreateGroupBody)
    (h : (createGroup newId groups user body).res.status = 201) :
    ∃ name members ids, body.name = some name ∧ body.members = some members ∧ name ≠ "" ∧
      2 ≤ members.length ∧ castAll (jsSet (members ++ [hexString user])) = some ids ∧
      jsTrim name ≠ "" ∧ jsLength (jsTrim name) ≤ 50 ∧
      createGroup newId groups user body =
        ⟨⟨201, .group (some
            { _id := newId, name := jsTrim name, members := ids,
              admins := [user], avatar := body.avatar.getD "", pinnedMessages := [],
              description := "", mute := [], joinRequests := [], invites := [],
              announcementChannel := [],
              roles := (jsSet (members ++ [hexString user])).map
                (fun id => (id, if id = hexString user then "admin" else "member")) })⟩,
          groups ++
            [{ _id := newId, name := jsTrim name, members := ids,
               admins := [user], avatar := body.avatar.getD "", pinnedMessages := [],
               description := "", mute := [], joinRequests := [], invites := [],
               announcementChannel := [],
               roles := (jsSet (members ++ [hexString user])).map
                 (fun id => (id, if id = hexString user then "admin" else "member")) }]⟩ := by
  unfold createGroup at h ⊢
  cases hn : body.name with
  | none => simp [hn] at h
  | some name =>
    cases hmem : body.members with
    | none => simp [hn, hmem] at h
    | some members =>
      simp only [hn, hmem] at h ⊢
      by_cases hc : name = "" ∨ members.length < 2
      · simp [hc] at h
      · rw [if_neg hc] at h ⊢
        cases hcast : castAll (jsSet (members ++ [hexString user])) with
        | none => simp [hcast] at h
        | some ids =>
          simp only [hcast] at h ⊢
          unfold Group.create at h ⊢
          by_cases hv : jsTrim name = "" ∨ jsLength (jsTrim name) > 50
          · simp [hv] at h
          · rw [if_neg hv]
            push_neg at hc hv
            exact ⟨name, members, ids, rfl, rfl, hc.1, hc.2, hcast, hv.1, hv.2, rfl⟩

/-- A call of `createGroup` that is not answered 201 leaves the collection as it is. -/
theorem createGroup_groups_of_ne (newId : ObjectId) (groups : List Group) (user : ObjectId)
    (body : CreateGroupBody) (hs : (createGroup newId groups user body).res.status ≠ 201) :
    (createGroup newId groups user body).groups = groups := by
  unfold createGroup at hs ⊢
  cases hn : body.name with
  | none => rfl
  | some name =>
    cases hmem : body.members with
    | none => rfl
    | some members =>
      simp only [hn, hmem] at hs ⊢
      by_cases hc : name = "" ∨ members.length < 2
      · rw [if_pos hc]
      · rw [if_neg hc] at hs ⊢
        cases hcast : castAll (jsSet (members ++ [hexString user])) with
        | none => simp only [hcast]
        | some ids =>
          simp only [hcast] at hs ⊢
          cases hcreate : Group.create newId name ids [user] body.avatar
              ((jsSet (members ++ [hexString user])).map
                (fun id => (id, if id = hexString user then "admin" else "member"))) with
          | none => simp only [hcreate]
          | some group => simp [hcreate] at hs

/-- What a successful `promoteMember` writes: the group was found, the requester has role
`'admin'`, the string of the body is the string of the id of a member, and the written
group has that string as an admin in the role map and the member on the admin list. -/
theorem promoteMember_cases (groups : List Group) (user id : ObjectId)
    (userId : Option String) :
    (promoteMember groups user id userId).groups = groups ∨
    ∃ group s x, Group.findById groups id = some group ∧
      mapGet group.roles (hexString user) = some "admin" ∧ userId = some s ∧
      s = hexString x ∧ x ∈ group.members ∧
      (promoteMember groups user id userId).groups =
        replaceGroup
          { group with
            roles := mapSet group.roles s "admin"
            admins := if group.admins.contains x then group.admins else group.admins ++ [x] }
          groups := by
  unfold promoteMember
  cases hgroup : Group.findById groups id with
  | none => exact Or.inl rfl
  | some group =>
    simp only []
    by_cases hadmin : mapGet group.roles (hexString user) ≠ some "admin"
    · rw [if_pos hadmin]
      exact Or.inl rfl
    · rw [if_neg hadmin]
      cases userId with
      | none => exact Or.inl rfl
      | some s =>
        simp only []
        by_cases hmem : ¬ (group.members.map hexString).contains s = true
        · rw [if_pos hmem]
          exact Or.inl rfl
        · rw [if_neg hmem]
          obtain ⟨x, hx, hs, hcast⟩ := mem_of_contains_map_hexString (not_not.mp hmem)
          refine Or.inr ⟨group, s, x, rfl, not_not.mp hadmin, rfl, hs, hx, ?_⟩
          subst hs
          rw [contains_map_hexString]
          by_cases hc : group.admins.contains x = true
          · rw [if_pos hc, if_pos hc]
          · rw [if_neg hc, if_neg hc, hcast]

/-- What a successful `demoteMember` writes. -/
theorem demoteMember_cases (groups : List Group) (user id : ObjectId)
    (userId : Option String) :
    ((demoteMember groups user id userId).groups = groups ∧
      (demoteMember groups user id userId).res.status ≠ 200) ∨
    ∃ group s x, Group.findById groups id = some group ∧
      mapGet group.roles (hexString user) = some "admin" ∧ userId = some s ∧
      s = hexString x ∧ x ∈ group.members ∧ x ≠ user ∧
      (demoteMember groups user id userId).groups =
        replaceGroup
          { group with
            roles := mapSet group.roles s "member"
            admins := group.admins.filter (fun y => y ≠ x) }
          groups := by
  unfold demoteMember
  cases hgroup : Group.findById groups id with
  | none => exact Or.inl ⟨rfl, by simp⟩
  | some group =>
    simp only []
    by_cases hadmin : mapGet group.roles (hexString user) ≠ some "admin"
    · rw [if_pos hadmin]
      exact Or.inl ⟨rfl, by simp⟩
    · rw [if_neg hadmin]
      cases userId with
      | none => exact Or.inl ⟨rfl, by simp⟩
      | some s =>
        simp only []
        by_cases hmem : ¬ (group.members.map hexString).contains s = true
        · rw [if_pos hmem]
          exact Or.inl ⟨rfl, by simp⟩
        · rw [if_neg hmem]
          by_cases hself : s = hexString user
          · rw [if_pos hself]
            exact Or.inl ⟨rfl, by simp⟩
          · rw [if_neg hself]
            obtain ⟨x, hx, hs, _⟩ := mem_of_contains_map_hexString (not_not.mp hmem)
            refine Or.inr ⟨group, s, x, rfl, not_not.mp hadmin, rfl, hs, hx, ?_, ?_⟩
            · intro hxu
              exact hself (by rw [hs, hxu])
            · subst hs
              have hfilter : group.admins.filter (fun y => hexString y ≠ hexString x) =
                  group.admins.filter (fun y => y ≠ x) := by
                apply List.filter_congr
                intro y _
                by_cases hy : y = x
                · simp [hy]
                · have : hexString y ≠ hexString x := fun e => hy (hexString_injective e)
                  simp [hy, this]
              rw [hfilter]

/-- A promotion keeps `AdminsOk`. -/
theorem adminsOk_promote {group : Group} {x : ObjectId} (hok : AdminsOk group)
    (hmem : x ∈ group.members) :
    AdminsOk
      { group with
        roles := mapSet group.roles (hexString x) "admin"
        admins := if group.admins.contains x then group.admins else group.admins ++ [x] } := by
  refine ⟨⟨x, mapGet_mapSet_self _ _ _⟩, ?_⟩
  intro y hy
  simp only [] at hy ⊢
  by_cases hyx : y = x
  · subst hyx
    refine ⟨?_, hmem⟩
    by_cases hc : group.admins.contains y = true
    · rw [if_pos hc]
      simpa using hc
    · rw [if_neg hc]
      simp
  · have hne : hexString y ≠ hexString x := fun e => hyx (hexString_injective e)
    rw [mapGet_mapSet_of_ne _ _ hne] at hy
    refine ⟨?_, (hok.2 y hy).2⟩
    have := (hok.2 y hy).1
    split
    · exact this
    · exact List.mem_append_left _ this

/-- A demotion of somebody else by an admin keeps `AdminsOk`. -/
theorem adminsOk_demote {group : Group} {user x : ObjectId} (hok : AdminsOk group)
    (hadmin : mapGet group.roles (hexString user) = some "admin") (hne : x ≠ user) :
    AdminsOk
      { group with
        roles := mapSet group.roles (hexString x) "member"
        admins := group.admins.filter (fun y => y ≠ x) } := by
  have hkey : hexString user ≠ hexString x := fun e => hne (hexString_injective e).symm
  refine ⟨⟨user, ?_⟩, ?_⟩
  · simp only []
    rw [mapGet_mapSet_of_ne _ _ hkey]
    exact hadmin
  · intro y hy
    simp only [] at hy ⊢
    by_cases hyx : y = x
    · subst hyx
      rw [mapGet_mapSet_self] at hy
      simp at hy
    · have hne' : hexString y ≠ hexString x := fun e => hyx (hexString_injective e)
      rw [mapGet_mapSet_of_ne _ _ hne'] at hy
      refine ⟨?_, (hok.2 y hy).2⟩
      exact List.mem_filter.mpr ⟨(hok.2 y hy).1, by simpa using hyx⟩

/-- One call of `promoteMember` or `demoteMember` leaves a group with `AdminsOk` in the
collection, with `AdminsOk` and the same members. -/
theorem adminsOk_applyGroupOp {groups : List Group} {gid : ObjectId} {g : Group}
    (hg : Group.findById groups gid = some g) (hok : AdminsOk g) (op : GroupOp) :
    ∃ g1, Group.findById (applyGroupOp groups op) gid = some g1 ∧ AdminsOk g1 ∧
      g1.members = g.members := by
  cases op with
  | promote user id userId =>
    simp only [applyGroupOp]
    rcases promoteMember_cases groups user id userId with h | ⟨group, s, x, hgroup, _, _, hs, hx, h⟩
    · rw [h]
      exact ⟨g, hg, hok, rfl⟩
    · rw [h]
      subst hs
      rcases findGroup_after_replace
        { group with
          roles := mapSet group.roles (hexString x) "admin"
          admins := if group.admins.contains x then group.admins else group.admins ++ [x] }
        hg hgroup rfl with ⟨_, hf⟩ | ⟨heq, hf⟩
      · exact ⟨g, hf, hok, rfl⟩
      · subst heq
        exact ⟨_, hf, adminsOk_promote hok hx, rfl⟩
  | demote user id userId =>
    simp only [applyGroupOp]
    rcases demoteMember_cases groups user id userId with
      ⟨h, _⟩ | ⟨group, s, x, hgroup, hadmin, _, hs, _, hne, h⟩
    · rw [h]
      exact ⟨g, hg, hok, rfl⟩
    · rw [h]
      subst hs
      rcases findGroup_after_replace
        { group with
          roles := mapSet group.roles (hexString x) "member"
          admins := group.admins.filter (fun y => y ≠ x) }
        hg hgroup rfl with ⟨_, hf⟩ | ⟨heq, hf⟩
      · exact ⟨g, hf, hok, rfl⟩
      · subst heq
        exact ⟨_, hf, adminsOk_demote hok hadmin hne, rfl⟩

/-- Any sequence of calls of `promoteMember` and `demoteMember` leaves a group with
`AdminsOk` in the collection, with `AdminsOk` and the same members. -/
theorem adminsOk_applyGroupOps (ops : List GroupOp) :
    ∀ {groups : List Group} {gid : ObjectId} {g : Group},
      Group.findById groups gid = some g → AdminsOk g →
      ∃ g1, Group.findById (applyGroupOps groups ops) gid = some g1 ∧ AdminsOk g1 ∧
        g1.members = g.members := by
  induction ops with
  | nil =>
    intro groups gid g hg hok
    exact ⟨g, hg, hok, rfl⟩
  | cons op rest ih =>
    intro groups gid g hg hok
    obtain ⟨g1, hg1, hok1, hm1⟩ := adminsOk_applyGroupOp hg hok op
    obtain ⟨g2, hg2, hok2, hm2⟩ := ih hg1 hok1
    refine ⟨g2, ?_, hok2, hm2.trans hm1⟩
    simpa [applyGroupOps] using hg2

/-- A group that `createGroup` appends under a fresh id is the one found under that id. -/
theorem findGroup_append_fresh {groups : List Group} {g : Group}
    (hfresh : Group.findById groups g._id = none) :
    Group.findById (groups ++ [g]) g._id = some g := by
  unfold Group.findById at hfresh ⊢
  rw [List.find?_append, hfresh]
  simp

/-- C23: when `createGroup` answers 201 (under an id that no group carries), the group it
stores has the creator as its only admin, the creator is a member, the role map gives the
string of the creator's id `'admin'` and every other string of the member array `'member'`,
so that every other member has an entry `'member'` under the string that names it; and
after any sequence of `promoteMember` and `demoteMember` calls, by any requesters, on any
groups and with any outcome, the group is still stored with the same members, a non-empty
admin list and a member whose role is `'admin'`.  No requester demotes themselves: a call
whose `userId` casts to the id of the requester is never answered 200 and changes
nothing. -/
theorem group_keeps_an_admin (newId : ObjectId) (groups : List Group) (user : ObjectId)
    (body : CreateGroupBody) (hfresh : Group.findById groups newId = none)
    (hcreated : (createGroup newId groups user body).res.status = 201) :
    (∃ g, (createGroup newId groups user body).res.body = .group (some g) ∧
      Group.findById (createGroup newId groups user body).groups newId = some g ∧
      g.admins = [user] ∧ user ∈ g.members ∧
      mapGet g.roles (hexString user) = some "admin" ∧
      (∀ members s, body.members = some members → s ∈ members → s ≠ hexString user →
        mapGet g.roles s = some "member") ∧
      (∀ x ∈ g.members, x ≠ user →
        ∃ s, castObjectId s = some x ∧ mapGet g.roles s = some "member") ∧
      ∀ ops : List GroupOp,
        ∃ g1, Group.findById
            (applyGroupOps (createGroup newId groups user body).groups ops) newId = some g1 ∧
          g1.members = g.members ∧ g1.admins ≠ [] ∧
          ∃ x ∈ g1.members, mapGet g1.roles (hexString x) = some "admin") ∧
    (∀ (store : List Group) (me id : ObjectId) (s : String), castObjectId s = some me →
      (demoteMember store me id (some s)).res.status ≠ 200 ∧
      (demoteMember store me id (some s)).groups = store) := by
  constructor
  · obtain ⟨name, members, ids, _, hbm, _, _, hcast, _, _, heq⟩ :=
      createGroup_ok newId groups user body hcreated
    rw [heq]
    have hstr : hexString user ∈ jsSet (members ++ [hexString user]) := by
      rw [mem_jsSet]
      simp
    have huser : user ∈ ids :=
      (mem_castAll hcast user).mpr ⟨hexString user, hstr, castObjectId_hexString user⟩
    have hfind := findGroup_append_fresh
      (g := { _id := newId, name := jsTrim name, members := ids,
              admins := [user], avatar := body.avatar.getD "", pinnedMessages := [],
              description := "", mute := [], joinRequests := [], invites := [],
              announcementChannel := [],
              roles := (jsSet (members ++ [hexString user])).map
                (fun id => (id, if id = hexString user then "admin" else "member")) })
      hfresh
    refine ⟨_, rfl, hfind, rfl, huser, ?_, ?_, ?_, ?_⟩
    · simp only [mapGet_map_key, hstr, if_true]
    · intro members' s hbm' hs hne
      rw [hbm] at hbm'
      cases hbm'
      have hs' : s ∈ jsSet (members ++ [hexString user]) := by
        rw [mem_jsSet]
        exact List.mem_append_left _ hs
      simp only [mapGet_map_key, hs', hne, if_true, if_false]
    · intro x hx hne
      simp only [] at hx
      obtain ⟨s, hs, hc⟩ := (mem_castAll hcast x).mp hx
      have hsne : s ≠ hexString user := by
        intro e
        rw [e, castObjectId_hexString] at hc
        exact hne (Option.some.inj hc).symm
      exact ⟨s, hc, by simp only [mapGet_map_key, hs, hsne, if_true, if_false]⟩
    · intro ops
      have hok : AdminsOk
          { _id := newId, name := jsTrim name, members := ids,
            admins := [user], avatar := body.avatar.getD "", pinnedMessages := [],
            description := "", mute := [], joinRequests := [], invites := [],
            announcementChannel := [],
            roles := (jsSet (members ++ [hexString user])).map
              (fun id => (id, if id = hexString user then "admin" else "member")) } := by
        refine ⟨⟨user, by simp only [mapGet_map_key, hstr, if_true]⟩, ?_⟩
        intro x hx
        simp only [mapGet_map_key] at hx
        by_cases hmem : hexString x ∈ jsSet (members ++ [hexString user])
        · by_cases hxu : hexString x = hexString user
          · have := hexString_injective hxu
            subst this
            exact ⟨by simp, huser⟩
          · simp [hmem, hxu] at hx
        · simp [hmem] at hx
      obtain ⟨g1, hg1, hok1, hm1⟩ := adminsOk_applyGroupOps ops hfind hok
      obtain ⟨a, ha⟩ := hok1.1
      refine ⟨g1, hg1, hm1, ?_, a, (hok1.2 a ha).2, ha⟩
      exact List.ne_nil_of_mem (hok1.2 a ha).1
  · intro store me id s hcast
    rcases demoteMember_cases store me id (some s) with ⟨h1, h2⟩ | ⟨_, s', x, _, _, hs, hsx, _, hne, _⟩
    · exact ⟨h2, h1⟩
    · cases hs
      rw [hsx, castObjectId_hexString] at hcast
      exact absurd (Option.some.inj hcast) hne

/-- C23, evaluated: user 1 creates the group "team" with the members 2 and 3, promotes
user 2 and is then demoted by user 2. -/
theorem group_keeps_an_admin_witness :
    Group.findById [] 100 = none ∧
    (createGroup 100 [] 1 ⟨some "team", some [hexString 2, hexString 3], none⟩).res.status
      = 201 ∧
    ((applyGroupOps
        (createGroup 100 [] 1 ⟨some "team", some [hexString 2, hexString 3], none⟩).groups
        [.promote 1 100 (some (hexString 2)), .demote 2 100 (some (hexString 1))]).map
      (fun g => (g.members, g.admins, g.roles))) =
      [([2, 3, 1], [2],
        [(hexString 2, "admin"), (hexString 3, "member"), (hexString 1, "member")])] ∧
    (demoteMember [exGroup] 1 7 (some (hexString 1))).res =
      ⟨400, .error "Cannot demote self."⟩ ∧
    ((demoteMember [exGroup] 1 7 (some (hexString 1))).res.status ≠ 200 ∧
      (demoteMember [exGroup] 1 7 (some (hexString 1))).groups = [exGroup]) :=
  ⟨by decide, by decide, by decide, by decide,
    (group_keeps_an_admin 100 [] 1 ⟨some "team", some [hexString 2, hexString 3], none⟩
      (by decide) (by decide)).2 [exGroup] 1 7 (hexString 1) (by decide)⟩

/-- Each of `createGroup`, `addMember`, `promoteMember`, `demoteMember`, `approveJoin` and
`acceptInvite` keeps the admin list of every stored group within its member list. -/
theorem admins_subset_kept (groups : List Group)
    (h : ∀ g ∈ groups, ∀ x ∈ g.admins, x ∈ g.members) :
    (∀ newId user body, ∀ g ∈ (createGroup newId groups user body).groups,
      ∀ x ∈ g.admins, x ∈ g.members) ∧
    (∀ id userId, ∀ g ∈ (addMember groups id userId).groups, ∀ x ∈ g.admins, x ∈ g.members) ∧
    (∀ user id userId, ∀ g ∈ (promoteMember groups user id userId).groups,
      ∀ x ∈ g.admins, x ∈ g.members) ∧
    (∀ user id userId, ∀ g ∈ (demoteMember groups user id userId).groups,
      ∀ x ∈ g.admins, x ∈ g.members) ∧
    (∀ user id userId, ∀ g ∈ (approveJoin groups user id userId).groups,
      ∀ x ∈ g.admins, x ∈ g.members) ∧
    (∀ user id, ∀ g ∈ (acceptInvite groups user id).groups, ∀ x ∈ g.admins, x ∈ g.members) := by
  refine ⟨?_, ?_, ?_, ?_, ?_, ?_⟩
  · intro newId user body g hg x hx
    by_cases hs : (createGroup newId groups user body).res.status = 201
    · obtain ⟨name, members, ids, _, _, _, _, hcast, _, _, heq⟩ :=
        createGroup_ok newId groups user body hs
      rw [heq] at hg
      simp only [List.mem_append, List.mem_singleton] at hg
      rcases hg with hg | hg
      · exact h g hg x hx
      · subst hg
        simp only [List.mem_singleton] at hx
        subst hx
        exact (mem_castAll hcast x).mpr
          ⟨hexString x, by rw [mem_jsSet]; simp, castObjectId_hexString x⟩
    · rw [createGroup_groups_of_ne newId groups user body hs] at hg
      exact h g hg x hx
  · intro id userId g hg x hx
    unfold addMember at hg
    cases hgroup : Group.findById groups id with
    | none =>
      simp only [hgroup] at hg
      exact h g hg x hx
    | some group =>
      simp only [hgroup] at hg
      rcases mem_replaceGroup hg with hg | hg
      · subst hg
        have := h group (findGroup_mem hgroup) x hx
        simp only []
        split
        · exact this
        · exact List.mem_append_left _ this
      · exact h g hg x hx
  · intro user id userId g hg x hx
    rcases promoteMember_cases groups user id userId with
      h1 | ⟨group, s, y, hgroup, _, _, _, hy, h1⟩
    · rw [h1] at hg
      exact h g hg x hx
    · rw [h1] at hg
      rcases mem_replaceGroup hg with hg | hg
      · subst hg
        simp only [] at hx ⊢
        split at hx
        · exact h group (findGroup_mem hgroup) x hx
        · rcases List.mem_append.mp hx with hx | hx
          · exact h group (findGroup_mem hgroup) x hx
          · simp only [List.mem_singleton] at hx
            subst hx
            exact hy
      · exact h g hg x hx
  · intro user id userId g hg x hx
    rcases demoteMember_cases groups user id userId with
      ⟨h1, _⟩ | ⟨group, s, y, hgroup, _, _, _, _, _, h1⟩
    · rw [h1] at hg
      exact h g hg x hx
    · rw [h1] at hg
      rcases mem_replaceGroup hg with hg | hg
      · subst hg
        simp only [] at hx ⊢
        exact h group (findGroup_mem hgroup) x (List.mem_filter.mp hx).1
      · exact h g hg x hx
  · intro user id userId g hg x hx
    unfold approveJoin at hg
    cases hgroup : Group.findById groups id with
    | none =>
      simp only [hgroup] at hg
      exact h g hg x hx
    | some group =>
      simp only [hgroup] at hg
      split at hg
      · exact h g hg x hx
      · split at hg
        · exact h g hg x hx
        · split at hg
          · exact h g hg x hx
          · split at hg
            · exact h g hg x hx
            · rcases mem_replaceGroup hg with hg | hg
              · subst hg
                simp only [] at hx ⊢
                exact List.mem_append_left _ (h group (findGroup_mem hgroup) x hx)
              · exact h g hg x hx
  · intro user id g hg x hx
    unfold acceptInvite at hg
    cases hgroup : Group.findById groups id with
    | none =>
      simp only [hgroup] at hg
      exact h g hg x hx
    | some group =>
      simp only [hgroup] at hg
      split at hg
      · exact h g hg x hx
      · rcases mem_replaceGroup hg with hg | hg
        · subst hg
          simp only [] at hx ⊢
          exact List.mem_append_left _ (h group (findGroup_mem hgroup) x hx)
        · exact h g hg x hx

/-- C22: `removeMember` takes user 1, the admin of the group of `exGroup`, off the member
list and leaves the admin list and the role map as they were: afterwards user 1 is on the
admin list and not on the member list, and still promotes user 2 as an admin.  The stored
group came from a collection in which every admin was a member. -/
theorem removeMember_leaves_admin :
    (∀ g ∈ [exGroup], ∀ x ∈ g.admins, x ∈ g.members) ∧
    removeMember [exGroup] 7 1 =
      ⟨⟨200, .group (some { exGroup with members := [2] })⟩,
        [{ exGroup with members := [2] }]⟩ ∧
    (∃ g ∈ (removeMember [exGroup] 7 1).groups, 1 ∈ g.admins ∧ 1 ∉ g.members ∧
      mapGet g.roles (hexString 1) = some "admin") ∧
    (promoteMember (removeMember [exGroup] 7 1).groups 1 7 (some (hexString 2))).res.status
      = 200 ∧
    (demoteMember [exGroup] 1 7 (some (hexString 1))).groups = [exGroup] := by
  refine ⟨?_, by decide, ⟨_, List.mem_singleton.mpr rfl, by decide, by decide, by decide⟩,
    by decide, by decide⟩
  intro g hg x hx
  rw [List.mem_singleton] at hg
  subst hg
  have hx1 : x = 1 := List.mem_singleton.mp hx
  subst hx1
  decide

/-- C21: user 1 has role `'admin'` in the group of `exGroup` and posts an announcement with
a content: the answer is 500, no message is stored and the announcement list of the group
is as before.  No call of `postAnnouncement` is answered 201 or changes the store or the
groups.  A requester whose role is not `'admin'` is answered 403 `'Admin only.'`. -/
theorem postAnnouncement_never_posts :
    mapGet exGroup.roles (hexString 1) = some "admin" ∧
    postAnnouncement exStored [exGroup] 1 7 (some "notice") =
      ⟨⟨500, .serverError⟩, exStored, [exGroup]⟩ ∧
    (∀ (st : State) (groups : List Group) (user id : ObjectId) (content : Option String),
      (postAnnouncement st groups user id content).res.status ≠ 201 ∧
      (postAnnouncement st groups user id content).state = st ∧
      (postAnnouncement st groups user id content).groups = groups) ∧
    (∀ (st : State) (groups : List Group) (user id : ObjectId) (content : Option String)
      (g : Group), Group.findById groups id = some g →
      mapGet g.roles (hexString user) ≠ some "admin" →
      postAnnouncement st groups user id content = ⟨⟨403, .error "Admin only."⟩, st, groups⟩) := by
  refine ⟨by decide, by decide, ?_, ?_⟩
  · intro st groups user id content
    unfold postAnnouncement
    cases Group.findById groups id with
    | none => simp
    | some group =>
      simp only []
      split
      · simp
      · cases content with
        | none => simp
        | some content =>
          simp only []
          split
          · simp
          · simp
  · intro st groups user id content g hg hrole
    unfold postAnnouncement
    simp only [hg]
    rw [if_pos hrole]

/-- C29: user 1 creates a group and names themselves twice in `members`: the array has
length 2, the request passes validation and the stored group has the single member 1.  In
general a request that is answered 201 had a `members` array of length at least 2, and the
stored member list holds the ids that the strings of the array and the string of the
creator's id cast to, one for every different string: the strings are made duplicate-free,
the ids are not when one id is spelled in two ways. -/
theorem createGroup_single_member :
    createGroup 100 [] 1 ⟨some "solo", some [hexString 1, hexString 1], none⟩ =
      ⟨⟨201, .group (some
          ⟨100, "solo", [1], [1], "", [], "", [], [], [], [], [(hexString 1, "admin")]⟩)⟩,
        [⟨100, "solo", [1], [1], "", [], "", [], [], [], [], [(hexString 1, "admin")]⟩]⟩ ∧
    (createGroup 100 [] 10 ⟨some "pair", some [exLower, exUpper], none⟩).groups.map
        (fun g => (g.members, g.roles)) =
      [([11, 11, 10],
        [(exLower, "member"), (exUpper, "member"), (hexString 10, "admin")])] ∧
    (∀ (newId : ObjectId) (groups : List Group) (user : ObjectId) (body : CreateGroupBody),
      (createGroup newId groups user body).res.status = 201 →
      ∃ members g, body.members = some members ∧ 2 ≤ members.length ∧
        (createGroup newId groups user body).res.body = .group (some g) ∧
        (createGroup newId groups user body).groups = groups ++ [g] ∧
        castAll (jsSet (members ++ [hexString user])) = some g.members ∧
        (jsSet (members ++ [hexString user])).Nodup ∧
        (∀ s, s ∈ jsSet (members ++ [hexString user]) ↔ s ∈ members ∨ s = hexString user) ∧
        g.members.length = (jsSet (members ++ [hexString user])).length ∧
        ∀ x, x ∈ g.members ↔ (∃ s ∈ members, castObjectId s = some x) ∨ x = user) := by
  refine ⟨by decide, by decide, ?_⟩
  intro newId groups user body hs
  obtain ⟨name, members, ids, _, hmem, _, hlen, hcast, _, _, heq⟩ :=
    createGroup_ok newId groups user body hs
  rw [heq]
  refine ⟨members, _, hmem, hlen, rfl, rfl, hcast, nodup_jsSet _, ?_, length_castAll hcast, ?_⟩
  · intro s
    simp only [mem_jsSet, List.mem_append, List.mem_singleton]
  · intro x
    simp only []
    rw [mem_castAll hcast x]
    constructor
    · rintro ⟨s, hs', hc⟩
      rw [mem_jsSet, List.mem_append, List.mem_singleton] at hs'
      rcases hs' with hs' | hs'
      · exact Or.inl ⟨s, hs', hc⟩
      · rw [hs', castObjectId_hexString] at hc
        exact Or.inr (Option.some.inj hc).symm
    · rintro (⟨s, hs', hc⟩ | hx)
      · exact ⟨s, by rw [mem_jsSet]; exact List.mem_append_left _ hs', hc⟩
      · subst hx
        exact ⟨hexString x, by rw [mem_jsSet]; simp, castObjectId_hexString x⟩
end OnsetChat
